import Mathlib

/-!
# DarkLight Cover Calibrator: actuator control layer

A shallow embedding of the controllers of `src/dlc_firmware_s3`
(`cover_controller.cpp`, `heater_controller.cpp`, `light_controller.cpp`,
`button_handler.cpp`) for the build selected in `config.h` (`USE_LINEAR`,
`ENABLE_BME280`, `ENABLE_SAVING_TO_MEMORY`), with the light and the heater
installed, and of `openCover()` and `setHeaterState()` of the monolithic
firmware `src/esp32_firmware/src/main.cpp`.

Conventions.
* Every member variable keeps its source name (leading underscore included).
* `millis()` is an explicit argument `now`; all calls to `millis()` inside one
  method invocation see the same value.
* `uint32_t`, `uint16_t`, `uint8_t` and `int16_t` values are `Nat`/`Int` with
  the wrap-around written out (`sub32`, `add32`, `mul32`, `toUInt8`, `toInt16`).
* The cover position is computed in single precision as the source does:
  `F32` models the binary32 values and operations (round to nearest, ties to
  even, after every operation) on integers, so that they can be evaluated.
  The motion progress is kept as the exact fraction whose quotient is rounded;
  the completion test is taken on that fraction.
* The `float` values of the heater are exact rationals: there the rounding of
  single precision is not modelled.
* The easing profiles and the dew-point formula are stated over the real
  numbers; they are the only definitions that cannot be evaluated.
* Hardware writes and callbacks are recorded in a log, most recent first.
-/

namespace DarkLight

/-! ## Machine arithmetic -/

/-- Wrap-around `uint32_t` subtraction `a - b`. -/
def sub32 (a b : Nat) : Nat := (a + (4294967296 - b % 4294967296)) % 4294967296

/-- Wrap-around `uint32_t` addition `a + b`. -/
def add32 (a b : Nat) : Nat := (a + b) % 4294967296

/-- Wrap-around `uint32_t` multiplication `a * b`. -/
def mul32 (a b : Nat) : Nat := (a * b) % 4294967296

/-- Conversion of an integer value to `int16_t` (two's complement wrap). -/
def toInt16 (x : Int) : Int := (x + 32768) % 65536 - 32768

/-- Conversion of an integer value to `uint8_t`. -/
def toUInt8 (x : Int) : Nat := (x % 256).toNat

/-- Conversion of an integer value to `uint16_t`. -/
def toUInt16 (x : Int) : Nat := (x % 65536).toNat

/-- Modelled from the spec: the platform macro `constrain(amt, low, high)` is
not part of the repository sources; the spec calls it a clamp to the range.
It is the Arduino macro `amt < low ? low : (amt > high ? high : amt)`. -/
def constrain (amt low high : Int) : Int :=
  if amt < low then low else if amt > high then high else amt

/-- Modelled from the spec: the platform helper `map(x, in_min, in_max,
out_min, out_max)` is not part of the repository sources; the spec calls it a
linear map onto the output range.  It is the Arduino reference formula
`(x - in_min) * (out_max - out_min) / (in_max - in_min) + out_min` on `long`
with C integer division (truncation toward zero).  A zero-width input range is
a division by zero in the reference formula; here the quotient is then 0. -/
def map (x in_min in_max out_min out_max : Int) : Int :=
  Int.tdiv ((x - in_min) * (out_max - out_min)) (in_max - in_min) + out_min

/-- The C conversion of a `float` to an integer type: truncation toward zero. -/
def truncQ (q : ℚ) : Int := if 0 ≤ q then ⌊q⌋ else ⌈q⌉

/-! ## Single-precision arithmetic

The `float` of the target is IEEE 754 binary32.  A finite value is
`mant * 2 ^ expo` with a mantissa of at most 24 bits; every operation returns
the exact result rounded to the nearest such value, ties to the even mantissa.
Each operation of a source expression is rounded on its own (no fused
multiply-add).  The exponent range (overflow, subnormal values) is not
modelled: the values met here are quotients and products of integers below
`2 ^ 32`. -/

/-- The position of the leading bit of `n`, by halving at most `fuel` times:
`ilog2 n n` is the integer part of the binary logarithm of `n ≥ 1`. -/
def ilog2 : Nat → Nat → Nat
  | 0, _ => 0
  | fuel + 1, n => if n < 2 then 0 else ilog2 fuel (n / 2) + 1

/-- A finite binary32 value `mant * 2 ^ expo`. -/
structure F32 where
  mant : Int
  expo : Int
deriving DecidableEq

namespace F32

/-- The quotient `a / b` of two positive integers rounded to 24 significant
bits, to nearest, ties to even.  With `e` the binary exponent of the quotient,
the mantissa is the quotient scaled by `2 ^ (23 - e)` and rounded to an
integer. -/
def roundPos (a b : Nat) : F32 :=
  let k : Int := (ilog2 a a : Int) - (ilog2 b b : Int)
  let e : Int := if b * 2 ^ k.toNat ≤ a * 2 ^ (-k).toNat then k else k - 1
  let n : Nat := a * 2 ^ (23 - e).toNat
  let d : Nat := b * 2 ^ (e - 23).toNat
  let q := n / d
  let r := n % d
  { mant := if d < 2 * r ∨ (d = 2 * r ∧ q % 2 = 1) then q + 1 else q, expo := e - 23 }

/-- The quotient `n / d` rounded to binary32.  A zero denominator gives 0 here;
it is met only in `div` by zero, which no reachable computation performs. -/
def round (n : Int) (d : Nat) : F32 :=
  if n = 0 ∨ d = 0 then ⟨0, 0⟩
  else { mant := (if n < 0 then -1 else 1) * (roundPos n.natAbs d).mant,
         expo := (roundPos n.natAbs d).expo }

/-- The numerator of the value as a fraction. -/
def num (x : F32) : Int := x.mant * 2 ^ x.expo.toNat

/-- The denominator of the value as a fraction. -/
def den (x : F32) : Nat := 2 ^ (-x.expo).toNat

/-- The conversion `(float)n` of an integer. -/
def ofInt (n : Int) : F32 := round n 1

/-- The `float` sum. -/
def add (x y : F32) : F32 := round (x.num * y.den + y.num * x.den) (x.den * y.den)

/-- The `float` product. -/
def mul (x y : F32) : F32 := round (x.num * y.num) (x.den * y.den)

/-- The `float` quotient. -/
def div (x y : F32) : F32 :=
  round ((if y.num < 0 then -1 else 1) * (x.num * y.den)) (x.den * y.num.natAbs)

/-- The comparison `x < y`. -/
def lt (x y : F32) : Bool := decide (x.num * y.den < y.num * x.den)

/-- The Arduino macro `constrain` on `float` values:
`x < lo ? lo : (x > hi ? hi : x)`. -/
def constrain (x lo hi : F32) : F32 := if lt x lo then lo else if lt hi x then hi else x

/-- The C conversion to `int`: truncation toward zero. -/
def toInt (x : F32) : Int := Int.tdiv x.num x.den

/-- The rational number a binary32 value stands for. -/
def val (x : F32) : ℚ := (x.num : ℚ) / x.den

end F32

/-! ## config.h -/

/-- The `enum CoverState` of `config.h`. -/
inductive CoverState where
  | COVER_NOT_PRESENT
  | COVER_CLOSED
  | COVER_MOVING
  | COVER_OPEN
  | COVER_UNKNOWN
  | COVER_ERROR
deriving DecidableEq, Repr

/-- The `enum CalibratorState` of `config.h`. -/
inductive CalibratorState where
  | CAL_NOT_PRESENT
  | CAL_OFF
  | CAL_NOT_READY
  | CAL_READY
  | CAL_UNKNOWN
  | CAL_ERROR
deriving DecidableEq, Repr

/-- The `enum HeaterState` of `config.h`; `HEATER_SET` is "heat-on-close armed". -/
inductive HeaterState where
  | HEATER_NOT_PRESENT
  | HEATER_OFF
  | HEATER_AUTO
  | HEATER_ON
  | HEATER_UNKNOWN
  | HEATER_ERROR
  | HEATER_SET
deriving DecidableEq, Repr

/-- The numeric value of a `CoverState`. -/
def CoverState.toUInt8 : CoverState → Nat
  | .COVER_NOT_PRESENT => 0
  | .COVER_CLOSED => 1
  | .COVER_MOVING => 2
  | .COVER_OPEN => 3
  | .COVER_UNKNOWN => 4
  | .COVER_ERROR => 5

def DEFAULT_TIME_TO_MOVE : Nat := 5000
def DEFAULT_SERVO_MIN_PULSE : Nat := 500
def DEFAULT_SERVO_MAX_PULSE : Nat := 2500
def DEFAULT_SERVO_OPEN_ANGLE : Nat := 85
def DEFAULT_SERVO_CLOSE_ANGLE : Nat := 195
def DEFAULT_SERVO_MAX_ANGLE : Nat := 270
def DEFAULT_SERVO_RANGE_MIN : Nat := 0
def DEFAULT_SERVO_RANGE_MAX : Nat := 270
def DEFAULT_MAX_BRIGHTNESS : Nat := 255
def DEFAULT_STABILIZE_TIME : Nat := 0
def LIGHT_PWM_MAX : Nat := 1023
def DEFAULT_HEATER_SHUTOFF : Nat := 3600000
def DEFAULT_DELTA_POINT : ℚ := 5
def PWM_MAP_MULTIPLIER : ℚ := 100
def PWM_MAP_RANGE : ℚ := 500
def MAX_HEATER_PWM : ℚ := 255
def MAX_ERROR_COUNT : Nat := 5
def DEW_INTERVAL : Nat := 1000
def SERVO_DETACH_TIME : Nat := 3000

/-! ## cover_controller.cpp (build with `USE_LINEAR`) -/

/-- What the cover controller does to the outside world.  A servo write
records the pulse width passed to `writeMicroseconds` together with the
(clamped) angle it was computed from in `writeAngle`. -/
inductive ServoEvent where
  | attach (minPulse maxPulse : Nat)
  | detach
  | writeMicroseconds (angle : Int) (us : Int)
  | delay (ms : Nat)
  | onOpenStart
  | onCloseComplete
  | saveCoverState (st : Nat)
  | saveServoOpenAngle (angle : Nat)
  | saveServoCloseAngle (angle : Nat)
deriving DecidableEq, Repr

/-- The member variables of `class CoverController`.  `_onCloseComplete` and
`_onOpenStart` say whether a callback is registered; `log` lists the servo
calls, callback invocations and storage writes, most recent first. -/
structure CoverController where
  _currentState : CoverState := CoverState.COVER_UNKNOWN
  _moveCoverTo : Nat := 0
  _previousMoveCoverTo : Nat := 0
  _openAngle : Nat := DEFAULT_SERVO_OPEN_ANGLE
  _closeAngle : Nat := DEFAULT_SERVO_CLOSE_ANGLE
  _minPulse : Nat := DEFAULT_SERVO_MIN_PULSE
  _maxPulse : Nat := DEFAULT_SERVO_MAX_PULSE
  _timeToMove : Nat := DEFAULT_TIME_TO_MOVE
  _rangeMin : Nat := DEFAULT_SERVO_RANGE_MIN
  _rangeMax : Nat := DEFAULT_SERVO_RANGE_MAX
  _startServoTimer : Nat := 0
  _elapsedMoveTime : Nat := 0
  _halt : Bool := false
  _lastPosition : Int := 0
  _remainingDistance : Int := 0
  _previousWrittenAngle : Int := -1
  _startDetachTimer : Nat := 0
  _detachPending : Bool := false
  _onCloseComplete : Bool := false
  _onOpenStart : Bool := false
  log : List ServoEvent := []
deriving DecidableEq, Repr

/-- The `float progress` of `processCoverMovement` before rounding: the
fraction `num / den` of the elapsed time over the travel time, the numerator
already capped at the denominator. -/
structure Progress where
  num : Nat
  den : Nat
deriving DecidableEq, Repr

/-- The `float progress` of `processCoverMovement`: the quotient of the two
counters converted to `float`, then `constrain(progress, 0.0f, 1.0f)`.
Capping the numerator first does not change the result
(`Progress.toFloat_cap`): a numerator above the denominator gives a quotient
of at least 1, which the clamp takes to 1, and equal counters give exactly 1. -/
def Progress.toFloat (p : Progress) : F32 :=
  F32.constrain (F32.div (F32.ofInt p.num) (F32.ofInt p.den)) (F32.ofInt 0) (F32.ofInt 1)

/-- The `progress >= 1.0f` test, taken on the exact fraction: it agrees with
the test on the `float` progress for travel times up to `2 ^ 24` ms
(`Progress.complete_iff_toFloat`).  A zero denominator (`_timeToMove = 0`)
never gets here: the timeout test that precedes it in `processCoverMovement`
is then always true. -/
def Progress.complete (p : Progress) : Bool := decide (0 < p.den) && decide (p.den ≤ p.num)

namespace CoverController

/-- The values `begin()` loads from storage. -/
structure Stored where
  coverState : Nat
  openAngle : Nat
  closeAngle : Nat
  minPulse : Nat
  maxPulse : Nat
  moveTime : Nat
  rangeMin : Nat
  rangeMax : Nat
deriving DecidableEq, Repr

def attachServo (s : CoverController) : CoverController :=
  { s with log := ServoEvent.attach s._minPulse s._maxPulse :: s.log }

def setDetachTimer (now : Nat) (s : CoverController) : CoverController :=
  { s with _detachPending := true, _startDetachTimer := now }

def completeDetach (now : Nat) (s : CoverController) : CoverController :=
  if SERVO_DETACH_TIME ≤ sub32 now s._startDetachTimer then
    { s with _detachPending := false, log := ServoEvent.detach :: s.log }
  else s

/-- The method `writeAngle(int16_t angle)`: clamp to the servo travel, map to a pulse
width, write it, remember the angle. -/
def writeAngle (angle : Int) (s : CoverController) : CoverController :=
  let a := constrain (toInt16 angle) 0 DEFAULT_SERVO_MAX_ANGLE
  let us := map a 0 DEFAULT_SERVO_MAX_ANGLE s._minPulse s._maxPulse
  { s with _previousWrittenAngle := toInt16 a, log := ServoEvent.writeMicroseconds a us :: s.log }

def begin (st : Stored) (now : Nat) (s : CoverController) : CoverController :=
  let s := { s with _openAngle := st.openAngle, _closeAngle := st.closeAngle,
                    _minPulse := st.minPulse, _maxPulse := st.maxPulse,
                    _timeToMove := st.moveTime, _rangeMin := st.rangeMin,
                    _rangeMax := st.rangeMax }
  let s := attachServo s
  let s :=
    if st.coverState = 3 then
      let s := writeAngle s._openAngle s
      { s with _lastPosition := toInt16 s._openAngle, _currentState := CoverState.COVER_OPEN }
    else
      let s := writeAngle s._closeAngle s
      { s with _lastPosition := toInt16 s._closeAngle, _currentState := CoverState.COVER_CLOSED }
  let s := { s with _previousMoveCoverTo := s._currentState.toUInt8 }
  setDetachTimer now s

/-- The method `setMovement()`, the `USE_LINEAR` branch. -/
def setMovement (now : Nat) (s : CoverController) : CoverController :=
  let s := { s with _detachPending := false }
  let s :=
    if !s._halt then s
    else if s._moveCoverTo ≠ s._previousMoveCoverTo then
      { s with _elapsedMoveTime := sub32 s._timeToMove s._elapsedMoveTime,
               _lastPosition := toInt16 (if s._moveCoverTo = 3 then s._closeAngle else s._openAngle) }
    else s
  let s := attachServo s
  let s := writeAngle s._lastPosition s
  { s with _currentState := CoverState.COVER_MOVING, _previousWrittenAngle := -1,
           _startServoTimer := now, _halt := false }

def openCover (now : Nat) (s : CoverController) : CoverController :=
  if s._currentState ≠ CoverState.COVER_MOVING ∧ s._currentState ≠ CoverState.COVER_OPEN
      ∧ s._currentState ≠ CoverState.COVER_NOT_PRESENT then
    let s :=
      if s._currentState = CoverState.COVER_CLOSED ∧ s._onOpenStart = true then
        { s with log := ServoEvent.onOpenStart :: s.log }
      else s
    setMovement now { s with _moveCoverTo := 3 }
  else s

def closeCover (now : Nat) (s : CoverController) : CoverController :=
  if s._currentState ≠ CoverState.COVER_MOVING ∧ s._currentState ≠ CoverState.COVER_CLOSED
      ∧ s._currentState ≠ CoverState.COVER_NOT_PRESENT then
    setMovement now { s with _moveCoverTo := 1 }
  else s

def haltCover (now : Nat) (s : CoverController) : CoverController :=
  if s._currentState = CoverState.COVER_MOVING then
    setDetachTimer now
      { s with _halt := true, _previousMoveCoverTo := s._moveCoverTo,
               _currentState := CoverState.COVER_UNKNOWN,
               _elapsedMoveTime := add32 s._elapsedMoveTime (sub32 now s._startServoTimer) }
  else s

/-- The method `nudgeServo(int16_t direction)`: the new state and the returned position. -/
def nudgeServo (direction : Int) (now : Nat) (s : CoverController) : CoverController × Int :=
  if s._currentState = CoverState.COVER_MOVING then (s, s._lastPosition)
  else
    let newPos := toInt16 (s._lastPosition + direction)
    let newPos := toInt16 (constrain newPos (toInt16 s._rangeMin) (toInt16 s._rangeMax))
    let s := attachServo s
    let s := writeAngle s._lastPosition s
    let s := { s with log := ServoEvent.delay 20 :: s.log }
    let s := writeAngle newPos s
    let s := { s with _lastPosition := newPos, _currentState := CoverState.COVER_UNKNOWN }
    (setDetachTimer now s, newPos)

def setCurrentAsOpen (s : CoverController) : CoverController × Int :=
  let s := { s with _openAngle := toUInt16 s._lastPosition }
  ({ s with log := ServoEvent.saveServoOpenAngle s._openAngle :: s.log }, toInt16 s._openAngle)

def setCurrentAsClose (s : CoverController) : CoverController × Int :=
  let s := { s with _closeAngle := toUInt16 s._lastPosition }
  ({ s with log := ServoEvent.saveServoCloseAngle s._closeAngle :: s.log }, toInt16 s._closeAngle)

/-- The method `calculateServoPosition`, the `USE_LINEAR` branch:
`lastPos + (targetPos - lastPos) * progress`, where the `int` difference and
`lastPos` are converted to `float`, the product and the sum are rounded to
single precision, and the result is converted to `int` by truncation. -/
def calculateServoPosition (lastPos targetPos : Int) (progress : Progress) : Int :=
  F32.toInt (F32.add (F32.ofInt lastPos)
    (F32.mul (F32.ofInt (targetPos - lastPos)) progress.toFloat))

/-- The clamped progress of a tick at `now`:
`(now - _startServoTimer + _elapsedMoveTime) / _timeToMove` constrained to `[0, 1]`. -/
def progressAt (now : Nat) (s : CoverController) : Progress :=
  { num := min (add32 (sub32 now s._startServoTimer) s._elapsedMoveTime) s._timeToMove,
    den := s._timeToMove }

/-- The method `processCoverMovement`.  The member `_lastPosition` is an
`int16_t`: it is read as one. -/
def processCoverMovement (now : Nat) (s : CoverController) : CoverController :=
  if s._currentState = CoverState.COVER_MOVING ∨ s._currentState = CoverState.COVER_UNKNOWN then
    if mul32 s._timeToMove 2 ≤ sub32 now s._startServoTimer then
      { s with _currentState := CoverState.COVER_ERROR,
               log := ServoEvent.saveCoverState CoverState.COVER_ERROR.toUInt8 :: s.log }
    else if s._currentState = CoverState.COVER_MOVING then
      let progress := progressAt now s
      let targetPosition := toInt16 (if s._moveCoverTo = 3 then s._openAngle else s._closeAngle)
      let currentAngle :=
        toInt16 (calculateServoPosition (toInt16 s._lastPosition) targetPosition progress)
      let s := if currentAngle ≠ s._previousWrittenAngle then writeAngle currentAngle s else s
      if progress.complete then
        let s :=
          if s._moveCoverTo = 1 ∧ s._onCloseComplete = true then
            { s with log := ServoEvent.onCloseComplete :: s.log }
          else s
        let st := if s._moveCoverTo = 3 then CoverState.COVER_OPEN else CoverState.COVER_CLOSED
        let s := { s with _elapsedMoveTime := 0, _lastPosition := currentAngle,
                          _currentState := st, _previousMoveCoverTo := st.toUInt8,
                          log := ServoEvent.saveCoverState st.toUInt8 :: s.log }
        setDetachTimer now s
      else s
    else s
  else s

def loop (now : Nat) (s : CoverController) : CoverController :=
  let s := processCoverMovement now s
  if s._detachPending then completeDetach now s else s

end CoverController

/-! ## heater_controller.cpp (build with `ENABLE_BME280`) -/

/-- Modelled from the spec: `DEVICE_DISCONNECTED_C` is a constant of the
DS18B20 driver library, which is not part of the repository sources; the spec
speaks of an invalid reading.  The driver reports a missing probe as -127. -/
def DEVICE_DISCONNECTED_C : ℚ := -127

/-- What the sensors return when they are read: the DS18B20 heater temperature
and the BME280 ambient temperature and humidity, where `none` is NaN. -/
structure Readings where
  heaterTemp : ℚ
  outsideTemp : Option ℚ
  humidity : Option ℚ
deriving DecidableEq

/-- The dew-point formula of `manageHeat` uses the single-precision logarithm;
it is a parameter of the model.  It receives the ambient temperature and the
humidity and yields `none` when the result is not a finite number (so that any
comparison with it is false). -/
abbrev DewFormula := ℚ → ℚ → Option ℚ

/-- What the heater controller does to the outside world. -/
inductive HeaterEvent where
  | analogWrite (pwm : Nat)
  | requestTemperatures
  | getTempCByIndex
deriving DecidableEq, Repr

/-- The member variables of `class HeaterController`, the function-local
`static bool lastErrorReading` of `readSensors`, and the log of hardware
calls, most recent first. -/
structure HeaterController where
  _heaterState : HeaterState := HeaterState.HEATER_OFF
  _autoHeat : Bool := false
  _manualHeat : Bool := false
  _heatOnClose : Bool := false
  _heaterError : Bool := false
  _heaterUnknown : Bool := false
  _errorCounter : Nat := 0
  _deltaPoint : ℚ := DEFAULT_DELTA_POINT
  _heaterShutoff : Nat := DEFAULT_HEATER_SHUTOFF
  _outsideTemp : Option ℚ := some 0
  _humidityLevel : Option ℚ := some 0
  _dewPoint : Option ℚ := some 0
  _heaterTemp : ℚ := 0
  _heaterPWM : Nat := 0
  _previousDewMillis : Nat := 0
  _startHeaterTimer : Nat := 0
  _asyncConversionStarted : Bool := false
  _conversionStartTime : Nat := 0
  lastErrorReading : Bool := true
  log : List HeaterEvent := []
deriving DecidableEq

/-- The validation of `readSensors`: the probe is disconnected, a BME280 value
is NaN, or a value is outside its physical range. -/
def Readings.errorReading (r : Readings) : Bool :=
  decide (r.heaterTemp = DEVICE_DISCONNECTED_C) ||
  (match r.outsideTemp, r.humidity with
   | some t, some h => decide (h < 0) || decide (h > 100) || decide (t < -40) || decide (t > 85)
   | _, _ => true)

namespace HeaterController

def resetErrorReadings (s : HeaterController) : HeaterController :=
  { s with _errorCounter := 0, _heaterUnknown := false, _heaterError := false }

def setHeaterState (s : HeaterController) : HeaterController :=
  let s :=
    if s._heaterError then { s with _heaterState := HeaterState.HEATER_ERROR }
    else if s._heaterUnknown then { s with _heaterState := HeaterState.HEATER_UNKNOWN }
    else if s._manualHeat then { s with _heaterState := HeaterState.HEATER_ON }
    else if s._autoHeat then { s with _heaterState := HeaterState.HEATER_AUTO }
    else if s._heatOnClose then { s with _heaterState := HeaterState.HEATER_SET }
    else resetErrorReadings { s with _heaterState := HeaterState.HEATER_OFF }
  if s._heaterState ≠ HeaterState.HEATER_AUTO ∧ s._heaterState ≠ HeaterState.HEATER_ON then
    { s with _heaterPWM := 0, log := HeaterEvent.analogWrite 0 :: s.log }
  else s

/-- The method `begin()`; `bmeStatus` says whether the BME280 answered at either address,
`delta` and `shutoff` are the values loaded from storage. -/
def begin (bmeStatus : Bool) (delta : ℚ) (shutoff : Nat) (s : HeaterController) :
    HeaterController :=
  let s := { s with log := HeaterEvent.analogWrite 0 :: s.log }
  let s := if !bmeStatus then { s with _heaterError := true } else s
  setHeaterState { s with _deltaPoint := delta, _heaterShutoff := shutoff }

/-- The method `readSensors()`: the new state and the returned `errorReading`. -/
def readSensors (r : Readings) (s : HeaterController) : HeaterController × Bool :=
  let errorReading := r.errorReading
  let s := { s with _heaterTemp := r.heaterTemp, _outsideTemp := r.outsideTemp,
                    _humidityLevel := r.humidity,
                    log := HeaterEvent.getTempCByIndex :: s.log }
  let s :=
    if errorReading then
      let s := { s with _errorCounter := (s._errorCounter + 1) % 256 }
      let s :=
        if MAX_ERROR_COUNT ≤ s._errorCounter then
          { s with _heaterUnknown := false, _heaterError := true }
        else { s with _heaterUnknown := true }
      setHeaterState s
    else if s.lastErrorReading then setHeaterState (resetErrorReadings s)
    else s
  ({ s with lastErrorReading := errorReading }, errorReading)

def activateHeater (s : HeaterController) : HeaterController :=
  match s._dewPoint with
  | some dewPoint =>
    if s._heaterTemp < dewPoint + s._deltaPoint then
      let tempDiff := (dewPoint + s._deltaPoint) - s._heaterTemp
      let pwm : Nat := toUInt8 (map (truncQ (tempDiff * PWM_MAP_MULTIPLIER)) 0
                                  (truncQ PWM_MAP_RANGE) 0 (truncQ MAX_HEATER_PWM))
      let pwm : Nat := toUInt8 (constrain pwm 0 (toUInt8 (truncQ MAX_HEATER_PWM)))
      { s with _heaterPWM := pwm, log := HeaterEvent.analogWrite pwm :: s.log }
    else { s with _heaterPWM := 0, log := HeaterEvent.analogWrite 0 :: s.log }
  | none => { s with _heaterPWM := 0, log := HeaterEvent.analogWrite 0 :: s.log }

/-- The end of `manageHeat()`, reached unless the sampling block returned
early: the manual-heat timeout and the fault retry. -/
def manageHeatRest (now : Nat) (r : Readings) (s : HeaterController) : HeaterController :=
  let s :=
    if !s._heaterError && s._manualHeat && decide (s._heaterShutoff ≤ sub32 now s._startHeaterTimer) then
      setHeaterState { s with _manualHeat := false }
    else s
  if s._heaterError || (s._heaterUnknown && s._heatOnClose) then (readSensors r s).1 else s

/-- The method `manageHeat()`.  The three `return` statements of the sampling block leave
the function before the manual-heat timeout is looked at. -/
def manageHeat (dew : DewFormula) (now : Nat) (r : Readings) (s : HeaterController) :
    HeaterController :=
  if !s._heaterError && (s._autoHeat || s._manualHeat) then
    if DEW_INTERVAL ≤ sub32 now s._previousDewMillis then
      let s := { s with _previousDewMillis := now }
      if !s._asyncConversionStarted then
        { s with _asyncConversionStarted := true, _conversionStartTime := now,
                 log := HeaterEvent.requestTemperatures :: s.log }
      else if sub32 now s._conversionStartTime < 750 then s
      else
        let s := { s with _asyncConversionStarted := false }
        let res := readSensors r s
        if res.2 then res.1
        else
          let s := res.1
          let dp := match s._outsideTemp, s._humidityLevel with
            | some t, some h => dew t h
            | _, _ => none
          manageHeatRest now r (activateHeater { s with _dewPoint := dp })
    else manageHeatRest now r s
  else manageHeatRest now r s

def loop (dew : DewFormula) (coverMoving : Bool) (now : Nat) (r : Readings)
    (s : HeaterController) : HeaterController :=
  if coverMoving || decide (s._heaterState = HeaterState.HEATER_ERROR) then
    if !coverMoving && (s._heaterError || (s._heaterUnknown && s._heatOnClose)) then
      (readSensors r s).1
    else s
  else manageHeat dew now r s

def setAutoHeat (turnOn : Bool) (s : HeaterController) : HeaterController :=
  let s :=
    if turnOn then { s with _autoHeat := true, _heatOnClose := false, _manualHeat := false }
    else if s._autoHeat then resetErrorReadings { s with _autoHeat := false }
    else s
  setHeaterState s

def setManualHeat (turnOn : Bool) (now : Nat) (s : HeaterController) : HeaterController :=
  if turnOn then
    let s := setHeaterState { s with _manualHeat := true }
    { s with _startHeaterTimer := now }
  else
    let s :=
      if s._heaterUnknown || s._heaterError then
        resetErrorReadings { s with _manualHeat := false, _heatOnClose := false, _autoHeat := false }
      else if s._manualHeat then { s with _manualHeat := false }
      else { s with _heatOnClose := false, _autoHeat := false }
    setHeaterState s

def setHeatOnClose (turnOn : Bool) (r : Readings) (s : HeaterController) : HeaterController :=
  let s :=
    if turnOn then
      (readSensors r { s with _heatOnClose := true, _autoHeat := false, _manualHeat := false }).1
    else if s._heatOnClose then resetErrorReadings { s with _heatOnClose := false }
    else s
  setHeaterState s

def turnOff (s : HeaterController) : HeaterController :=
  setHeaterState
    (resetErrorReadings { s with _autoHeat := false, _manualHeat := false, _heatOnClose := false })

def triggerHeatOnClose (now : Nat) (s : HeaterController) : HeaterController :=
  if s._heatOnClose then
    let s := setHeaterState { s with _manualHeat := true }
    { s with _startHeaterTimer := now }
  else s

def setDeltaPoint (val : ℚ) (s : HeaterController) : HeaterController :=
  { s with _deltaPoint := val }

def setShutoffTime (ms : Nat) (s : HeaterController) : HeaterController :=
  { s with _heaterShutoff := ms }

/-- The state reported for the mode flags alone, ignoring faults. -/
def modeState (s : HeaterController) : HeaterState :=
  if s._manualHeat then HeaterState.HEATER_ON
  else if s._autoHeat then HeaterState.HEATER_AUTO
  else if s._heatOnClose then HeaterState.HEATER_SET
  else HeaterState.HEATER_OFF

/-- The heater PWM duty most recently written to the pin, if any. -/
def pinPWM (s : HeaterController) : Option Nat :=
  s.log.findSome? fun e => match e with
    | HeaterEvent.analogWrite v => some v
    | _ => none

/-- The state `setHeaterState` reports for the current flags: faults first,
then the mode. -/
def derivedState (s : HeaterController) : HeaterState :=
  if s._heaterError then HeaterState.HEATER_ERROR
  else if s._heaterUnknown then HeaterState.HEATER_UNKNOWN
  else modeState s

/-- A fault flag is only ever set together with `lastErrorReading`. -/
def FaultInv (s : HeaterController) : Prop :=
  (s._heaterError = true ∨ s._heaterUnknown = true) → s.lastErrorReading = true

/-- Invariant of the reachable states: the reported state is the one derived
from the flags, a fault flag implies `lastErrorReading`, and outside Auto and
On both the stored PWM value and the duty last written to the pin are 0. -/
def HeaterInv (s : HeaterController) : Prop :=
  s._heaterState = derivedState s ∧ FaultInv s ∧
  (s._heaterState ≠ HeaterState.HEATER_AUTO ∧ s._heaterState ≠ HeaterState.HEATER_ON →
    s._heaterPWM = 0 ∧ pinPWM s = some 0)

/-- Where the fault tracker stands after `k` consecutive invalid readings from
a fault-free start: nothing yet, Unknown with the counter at `k` below the
threshold, Error from the threshold on. -/
def FaultCount (k : Nat) (s : HeaterController) : Prop :=
  (k = 0 ∧ s._errorCounter = 0 ∧ s._heaterError = false ∧ s._heaterUnknown = false) ∨
  (1 ≤ k ∧ k ≤ 4 ∧ s._errorCounter = k ∧ s._heaterError = false ∧ s._heaterUnknown = true ∧
    s._heaterState = HeaterState.HEATER_UNKNOWN) ∨
  (5 ≤ k ∧ s._heaterError = true ∧ s._heaterState = HeaterState.HEATER_ERROR)

/-- Consecutive sensor reads, one per element of `rs`. -/
def readSensorsMany (rs : List Readings) (s : HeaterController) : HeaterController :=
  rs.foldl (fun s r => (readSensors r s).1) s

end HeaterController

/-- The calls an adapter, the coordinator or the scheduler can make on the
heater controller after `begin()`. -/
inductive HeaterCall where
  | setAutoHeat (turnOn : Bool)
  | setManualHeat (turnOn : Bool) (now : Nat)
  | setHeatOnClose (turnOn : Bool) (r : Readings)
  | turnOff
  | triggerHeatOnClose (now : Nat)
  | loop (coverMoving : Bool) (now : Nat) (r : Readings)
  | setDeltaPoint (val : ℚ)
  | setShutoffTime (ms : Nat)

/-- The effect of one call. -/
def HeaterCall.run (dew : DewFormula) (c : HeaterCall) (s : HeaterController) :
    HeaterController :=
  match c with
  | .setAutoHeat turnOn => s.setAutoHeat turnOn
  | .setManualHeat turnOn now => s.setManualHeat turnOn now
  | .setHeatOnClose turnOn r => s.setHeatOnClose turnOn r
  | .turnOff => s.turnOff
  | .triggerHeatOnClose now => s.triggerHeatOnClose now
  | .loop coverMoving now r => s.loop dew coverMoving now r
  | .setDeltaPoint val => s.setDeltaPoint val
  | .setShutoffTime ms => s.setShutoffTime ms

/-- The states the heater controller can be in: `begin()` on the freshly
constructed object, followed by any calls. -/
inductive HeaterReachable (dew : DewFormula) : HeaterController → Prop where
  | begin (bmeStatus : Bool) (delta : ℚ) (shutoff : Nat) :
      HeaterReachable dew (HeaterController.begin bmeStatus delta shutoff {})
  | call (c : HeaterCall) (s : HeaterController) :
      HeaterReachable dew s → HeaterReachable dew (c.run dew s)

/-! ## light_controller.cpp -/

/-- What the light controller does to the outside world: the K1 relay pin, the
panel PWM pin and the storage writes. -/
inductive LightEvent where
  | digitalWrite (relayOn : Bool)
  | analogWrite (pwm : Nat)
  | savePanelValue (v : Nat)
  | saveMaxBrightness (v : Nat)
  | saveBroadband (v : Nat)
  | saveNarrowband (v : Nat)
deriving DecidableEq, Repr

/-- The member variables of `class LightController` and the log of hardware
and storage writes, most recent first. -/
structure LightController where
  _calibratorState : CalibratorState := CalibratorState.CAL_OFF
  _maxBrightness : Nat := DEFAULT_MAX_BRIGHTNESS
  _stabilizeTime : Nat := DEFAULT_STABILIZE_TIME
  _lightValue : Nat := 0
  _broadbandValue : Nat := 25
  _narrowbandValue : Nat := LIGHT_PWM_MAX
  _previousLightPanelValue : Nat := LIGHT_PWM_MAX
  _autoON : Bool := false
  _startLightTimer : Nat := 0
  log : List LightEvent := []
deriving DecidableEq, Repr

namespace LightController

/-- The values `begin()` loads from storage. -/
structure Stored where
  panelValue : Nat
  broadband : Nat
  narrowband : Nat
  maxBrightness : Nat
  stabilizeTime : Nat
deriving DecidableEq, Repr

def setRelay (relayOn : Bool) (s : LightController) : LightController :=
  { s with log := LightEvent.digitalWrite relayOn :: s.log }

def begin (st : Stored) (s : LightController) : LightController :=
  let s := { s with log := LightEvent.digitalWrite false :: s.log }
  let s := { s with _previousLightPanelValue := st.panelValue, _broadbandValue := st.broadband,
                    _narrowbandValue := st.narrowband, _maxBrightness := st.maxBrightness,
                    _stabilizeTime := st.stabilizeTime }
  let s := if s._previousLightPanelValue = 0 then
    { s with _previousLightPanelValue := LIGHT_PWM_MAX } else s
  let s := if s._broadbandValue = 0 then { s with _broadbandValue := 25 } else s
  let s := if s._narrowbandValue = 0 then { s with _narrowbandValue := LIGHT_PWM_MAX } else s
  { s with _calibratorState := CalibratorState.CAL_OFF }

def turnPanelTo (value : Nat) (now : Nat) (s : LightController) : LightController :=
  let value := toUInt16 (constrain value 0 s._maxBrightness)
  let s := { s with _lightValue := toUInt16 (map value 0 s._maxBrightness 0 LIGHT_PWM_MAX),
                    _calibratorState := CalibratorState.CAL_NOT_READY }
  let s := setRelay true s
  { s with log := LightEvent.analogWrite s._lightValue :: s.log, _startLightTimer := now }

def turnPanelOff (s : LightController) : LightController :=
  let s := { s with log := LightEvent.analogWrite 0 :: s.log, _lightValue := 0,
                    _calibratorState := CalibratorState.CAL_OFF }
  setRelay false s

def setMaxBrightness (value : Nat) (s : LightController) : LightController :=
  { s with _maxBrightness := value, log := LightEvent.saveMaxBrightness value :: s.log }

def getCurrentBrightness (s : LightController) : Nat :=
  if s._maxBrightness = 0 then 0
  else toUInt16 (map s._lightValue 0 LIGHT_PWM_MAX 0 s._maxBrightness)

def getBroadbandStep (s : LightController) : Nat :=
  if s._maxBrightness = 0 then 0
  else toUInt16 (map s._broadbandValue 0 LIGHT_PWM_MAX 0 s._maxBrightness)

def getNarrowbandStep (s : LightController) : Nat :=
  if s._maxBrightness = 0 then 0
  else toUInt16 (map s._narrowbandValue 0 LIGHT_PWM_MAX 0 s._maxBrightness)

def saveBroadband (s : LightController) : LightController :=
  { s with _broadbandValue := s._lightValue, log := LightEvent.saveBroadband s._lightValue :: s.log }

def saveNarrowband (s : LightController) : LightController :=
  { s with _narrowbandValue := s._lightValue,
           log := LightEvent.saveNarrowband s._lightValue :: s.log }

def restorePreviousLight (now : Nat) (s : LightController) : LightController :=
  if s._autoON then
    let step :=
      if 0 < s._maxBrightness then
        toUInt16 (map s._previousLightPanelValue 0 LIGHT_PWM_MAX 0 s._maxBrightness)
      else 0
    turnPanelTo step now s
  else s

def processLightStabilization (now : Nat) (s : LightController) : LightController :=
  if s._calibratorState = CalibratorState.CAL_NOT_READY then
    if s._stabilizeTime ≤ sub32 now s._startLightTimer then
      { s with _calibratorState := CalibratorState.CAL_READY,
               _previousLightPanelValue := s._lightValue,
               log := LightEvent.savePanelValue s._lightValue :: s.log }
    else s
  else s

def loop (now : Nat) (s : LightController) : LightController :=
  processLightStabilization now s

end LightController

/-! ## Scenario vocabulary -/

/-- The millisecond counter `d` ms after it read `t0` (it wraps at 2^32). -/
def after32 (t0 d : Nat) : Nat := (t0 + d) % 4294967296

namespace CoverController

/-- A run of scheduler passes at the given counter values. -/
def ticks (ts : List Nat) (s : CoverController) : CoverController :=
  ts.foldl (fun s t => loop t s) s

/-- A motion session in flight toward `tgt`, started at `start` with carried
elapsed time `el` and travel duration `T`. -/
def MovingTo (tgt T start el : Nat) (s : CoverController) : Prop :=
  s._currentState = CoverState.COVER_MOVING ∧ s._moveCoverTo = tgt ∧ s._timeToMove = T ∧
  s._startServoTimer = start ∧ s._elapsedMoveTime = el ∧ s._detachPending = false

/-- A session frozen by `haltCover` on its way to `tgt` with carried elapsed
time `el`: the state is Unknown, or Error once the stopped cover timed out. -/
def HaltedTo (tgt T el : Nat) (s : CoverController) : Prop :=
  (s._currentState = CoverState.COVER_UNKNOWN ∨ s._currentState = CoverState.COVER_ERROR) ∧
  s._halt = true ∧ s._previousMoveCoverTo = tgt ∧ s._timeToMove = T ∧ s._elapsedMoveTime = el

/-- Invariant of the reachable states: a set halt flag means the cover is
stopped (Unknown or Error), and at an endpoint no elapsed time is carried. -/
def RestInv (s : CoverController) : Prop :=
  (s._halt = true →
    s._currentState = CoverState.COVER_UNKNOWN ∨ s._currentState = CoverState.COVER_ERROR) ∧
  (s._currentState = CoverState.COVER_CLOSED ∨ s._currentState = CoverState.COVER_OPEN →
    s._elapsedMoveTime = 0)

/-- The reversal scenario: `openCover` at `t0`, scheduler passes `pre` (offsets
from `t0`), `haltCover` and at once `closeCover` at `t0 + h`, then scheduler
passes `mid` (offsets from `t0`). -/
def reversalRun (t0 h : Nat) (pre mid : List Nat) (s0 : CoverController) : CoverController :=
  ticks (mid.map (after32 t0))
    (closeCover (after32 t0 h)
      (haltCover (after32 t0 h) (ticks (pre.map (after32 t0)) (openCover t0 s0))))

/-- The resume scenario up to the second command: `openCover` at `t0`,
scheduler passes `pre` (offsets from `t0`), `haltCover` at `t0 + h`, scheduler
passes at the counter values `idle` while stopped, `openCover` again at `t1`. -/
def resumeStart (t0 h t1 : Nat) (pre idle : List Nat) (s0 : CoverController) : CoverController :=
  openCover t1
    (ticks idle (haltCover (after32 t0 h) (ticks (pre.map (after32 t0)) (openCover t0 s0))))

/-- The resume scenario followed by scheduler passes `mid` (offsets from `t1`). -/
def resumeRun (t0 h t1 : Nat) (pre idle mid : List Nat) (s0 : CoverController) :
    CoverController :=
  ticks (mid.map (after32 t1)) (resumeStart t0 h t1 pre idle s0)

end CoverController

/-- The calls an adapter, the button handler or the scheduler can make on the
cover controller after `begin()`, the inline setters of the header included. -/
inductive CoverCall where
  | openCover (now : Nat)
  | closeCover (now : Nat)
  | haltCover (now : Nat)
  | nudgeServo (direction : Int) (now : Nat)
  | setCurrentAsOpen
  | setCurrentAsClose
  | loop (now : Nat)
  | setServoOpenAngle (angle : Nat)
  | setServoCloseAngle (angle : Nat)
  | setServoMinPulse (pw : Nat)
  | setServoMaxPulse (pw : Nat)
  | setMoveTime (ms : Nat)
  | setRangeMin (angle : Nat)
  | setRangeMax (angle : Nat)
  | setOnCloseComplete (registered : Bool)
  | setOnOpenStart (registered : Bool)
deriving DecidableEq, Repr

/-- The effect of one call. -/
def CoverCall.run (c : CoverCall) (s : CoverController) : CoverController :=
  match c with
  | .openCover now => s.openCover now
  | .closeCover now => s.closeCover now
  | .haltCover now => s.haltCover now
  | .nudgeServo direction now => (s.nudgeServo direction now).1
  | .setCurrentAsOpen => s.setCurrentAsOpen.1
  | .setCurrentAsClose => s.setCurrentAsClose.1
  | .loop now => s.loop now
  | .setServoOpenAngle angle => { s with _openAngle := angle }
  | .setServoCloseAngle angle => { s with _closeAngle := angle }
  | .setServoMinPulse pw => { s with _minPulse := pw }
  | .setServoMaxPulse pw => { s with _maxPulse := pw }
  | .setMoveTime ms => { s with _timeToMove := ms }
  | .setRangeMin angle => { s with _rangeMin := angle }
  | .setRangeMax angle => { s with _rangeMax := angle }
  | .setOnCloseComplete registered => { s with _onCloseComplete := registered }
  | .setOnOpenStart registered => { s with _onOpenStart := registered }

/-- The states the cover controller can be in: `begin()` on the freshly
constructed object, followed by any calls. -/
inductive CoverReachable : CoverController → Prop where
  | begin (st : CoverController.Stored) (now : Nat) :
      CoverReachable (CoverController.begin st now {})
  | call (c : CoverCall) (s : CoverController) :
      CoverReachable s → CoverReachable (c.run s)

/-- The storage contents of a first start with the defaults of `config.h`,
the cover last seen in state `coverState`. -/
def defaultStored (coverState : Nat) : CoverController.Stored :=
  { coverState := coverState, openAngle := DEFAULT_SERVO_OPEN_ANGLE,
    closeAngle := DEFAULT_SERVO_CLOSE_ANGLE, minPulse := DEFAULT_SERVO_MIN_PULSE,
    maxPulse := DEFAULT_SERVO_MAX_PULSE, moveTime := DEFAULT_TIME_TO_MOVE,
    rangeMin := DEFAULT_SERVO_RANGE_MIN, rangeMax := DEFAULT_SERVO_RANGE_MAX }

/-! ## Vocabulary for runs, traces and invariants -/

/-- The angles commanded to the servo, most recent first. -/
def commandedAngles (log : List ServoEvent) : List Int :=
  log.filterMap fun e => match e with
    | ServoEvent.writeMicroseconds angle _ => some angle
    | _ => none

/-- The controller after `begin()` at `now` with the stored values `st`,
followed by the given calls. -/
def coverRun (st : CoverController.Stored) (now : Nat) (calls : List CoverCall) :
    CoverController :=
  calls.foldl (fun s c => c.run s) (CoverController.begin st now {})

/-- One scheduler pass of the heater: the cover-moving flag, the counter value
and what the sensors would return. -/
structure HeaterTick where
  coverMoving : Bool
  now : Nat
  r : Readings

namespace HeaterController

/-- A run of scheduler passes. -/
def ticks (dew : DewFormula) (ts : List HeaterTick) (s : HeaterController) : HeaterController :=
  ts.foldl (fun s t => loop dew t.coverMoving t.now t.r s) s

end HeaterController

/-- The calls an adapter, the coordinator or the scheduler can make on the
light controller after `begin()`, the inline setters of the header included. -/
inductive LightCall where
  | turnPanelTo (value : Nat) (now : Nat)
  | turnPanelOff
  | restorePreviousLight (now : Nat)
  | loop (now : Nat)
  | setAutoON (value : Bool)
  | setStabilizeTime (ms : Nat)
  | setMaxBrightness (value : Nat)
  | saveBroadband
  | saveNarrowband
  | setBroadband (value : Nat)
  | setNarrowband (value : Nat)
deriving DecidableEq, Repr

/-- The effect of one call. -/
def LightCall.run (c : LightCall) (s : LightController) : LightController :=
  match c with
  | .turnPanelTo value now => s.turnPanelTo value now
  | .turnPanelOff => s.turnPanelOff
  | .restorePreviousLight now => s.restorePreviousLight now
  | .loop now => s.loop now
  | .setAutoON value => { s with _autoON := value }
  | .setStabilizeTime ms => { s with _stabilizeTime := ms }
  | .setMaxBrightness value => s.setMaxBrightness value
  | .saveBroadband => s.saveBroadband
  | .saveNarrowband => s.saveNarrowband
  | .setBroadband value => { s with _broadbandValue := value }
  | .setNarrowband value => { s with _narrowbandValue := value }

/-- The light controller after `begin()` with the stored values `st`, followed
by the given calls. -/
def lightRun (st : LightController.Stored) (calls : List LightCall) : LightController :=
  calls.foldl (fun s c => c.run s) (LightController.begin st {})

/-- The calls that leave the settle duration alone. -/
def LightCall.keepsSettle : LightCall → Bool
  | .setStabilizeTime _ => false
  | _ => true

/-- The light controller together with two observations of its history: the
time of the most recent `turnPanelTo` (direct or through
`restorePreviousLight`), and the time of the scheduler pass that made the
panel Ready since then. -/
structure LightHistory where
  panel : LightController
  lastTurn : Option Nat
  readyAt : Option Nat

/-- One call, with the two observations kept up to date. -/
def LightCall.track (c : LightCall) (h : LightHistory) : LightHistory :=
  match c with
  | .turnPanelTo _ now => { panel := c.run h.panel, lastTurn := some now, readyAt := none }
  | .restorePreviousLight now =>
    if h.panel._autoON then { panel := c.run h.panel, lastTurn := some now, readyAt := none }
    else { h with panel := c.run h.panel }
  | .loop now =>
    if h.panel._calibratorState ≠ CalibratorState.CAL_READY ∧
        (c.run h.panel)._calibratorState = CalibratorState.CAL_READY then
      { h with panel := c.run h.panel, readyAt := some now }
    else { h with panel := c.run h.panel }
  | _ => { h with panel := c.run h.panel }

/-- The history after `begin()` and the given calls. -/
def lightHistory (st : LightController.Stored) (calls : List LightCall) : LightHistory :=
  calls.foldl (fun h c => c.track h) { panel := LightController.begin st {}, lastTurn := none, readyAt := none }

/-- The relay level most recently written, if any (the log is most recent first). -/
def relayState (log : List LightEvent) : Option Bool :=
  log.findSome? fun e => match e with
    | LightEvent.digitalWrite relayOn => some relayOn
    | _ => none

/-- The panel PWM value most recently written, if any. -/
def lastPWM (log : List LightEvent) : Option Nat :=
  log.findSome? fun e => match e with
    | LightEvent.analogWrite pwm => some pwm
    | _ => none

/-- At the instant after the writes of `log`: a nonzero PWM value on the pin
means the relay is energized. -/
def RelayGuardsPWM (log : List LightEvent) : Prop :=
  ∀ v, lastPWM log = some v → v ≠ 0 → relayState log = some true

/-- The same at every instant of the trace, that is for every suffix of the
most-recent-first log. -/
def OrderedTrace (log : List LightEvent) : Prop :=
  ∀ l, l <:+ log → RelayGuardsPWM l

namespace LightController

/-- Invariant behind the settle guarantee, for settle duration `S`. -/
def SettleInv (S : Nat) (h : LightHistory) : Prop :=
  h.panel._stabilizeTime = S ∧
  (h.panel._calibratorState = CalibratorState.CAL_NOT_READY →
    h.lastTurn = some h.panel._startLightTimer) ∧
  (h.panel._calibratorState = CalibratorState.CAL_READY →
    ∃ t0 now, h.lastTurn = some t0 ∧ h.readyAt = some now ∧ S ≤ sub32 now t0)

end LightController

/-! ## esp32_firmware/src/main.cpp (the monolithic firmware): opening the cover -/

namespace Monolith

/-- What the functions embedded here do to the pins. -/
inductive PinEvent where
  | analogWrite (pin : Nat) (value : Nat)
  | servoAttach (pin : Nat) (minPulse maxPulse : Nat)
deriving DecidableEq, Repr

def timeToMoveCover : Nat := 5000
def primaryServoMinPulseWidth : Nat := 500
def primaryServoMaxPulseWidth : Nat := 2500
def primaryServoOpenCoverAngle : Nat := 0
def primaryServoCloseCoverAngle : Nat := 180
def primeServo : Nat := 10
def lightPanel : Nat := 12
def chOneHeater : Nat := 13
def chTwoHeater : Nat := 14

/-- The global variables of `main.cpp` that `openCover()` and
`setHeaterState()` read or write, and the log of pin writes, most recent
first.  The states are the numeric codes of the source (cover 1 Closed,
2 Moving, 3 Open; heater 1 Off, 2 Auto, 3 On, 4 Unknown, 5 Error, 6 Set). -/
structure Firmware where
  currentCoverState : Nat := 0
  calibratorState : Nat := 1
  heaterState : Nat := 0
  moveCoverTo : Nat := 0
  previousMoveCoverTo : Nat := 0
  startServoTimer : Nat := 0
  elapsedMoveTime : Nat := 0
  halt : Bool := false
  detachServo : Bool := false
  primaryServoLastPosition : Nat := 0
  lightValue : Nat := 0
  autoHeat : Bool := false
  manualHeat : Bool := false
  heatOnClose : Bool := false
  heaterError : Bool := false
  heaterUnknown : Bool := false
  errorCounter : Nat := 0
  log : List PinEvent := []
deriving DecidableEq, Repr

def turnPanelOff (s : Firmware) : Firmware :=
  { s with log := PinEvent.analogWrite lightPanel 0 :: s.log, lightValue := 0, calibratorState := 1 }

def attachServo (s : Firmware) : Firmware :=
  { s with log := PinEvent.servoAttach primeServo primaryServoMinPulseWidth
                    primaryServoMaxPulseWidth :: s.log }

/-- The function `setMovement()`, the `USE_LINEAR` branch; `servoRead` is what
`primaryServo.read()` returns. -/
def setMovement (servoRead now : Nat) (s : Firmware) : Firmware :=
  let s := { s with detachServo := false }
  let s :=
    if !s.halt then { s with primaryServoLastPosition := servoRead }
    else if s.moveCoverTo ≠ s.previousMoveCoverTo then
      { s with elapsedMoveTime := sub32 timeToMoveCover s.elapsedMoveTime,
               primaryServoLastPosition :=
                 if s.moveCoverTo = 3 then primaryServoCloseCoverAngle
                 else primaryServoOpenCoverAngle }
    else s
  let s := attachServo s
  { s with currentCoverState := 2, startServoTimer := now, halt := false }

/-- The function `openCover()` with `LIGHT_INSTALLED` and `HEATER_INSTALLED`. -/
def openCover (servoRead now : Nat) (s : Firmware) : Firmware :=
  if s.currentCoverState ≠ 2 ∧ s.currentCoverState ≠ 3 ∧ s.currentCoverState ≠ 0 then
    let s :=
      if s.currentCoverState = 1 then
        let s := if s.calibratorState ≠ 0 ∧ s.calibratorState ≠ 1 then turnPanelOff s else s
        if s.heaterState = 3 then { s with manualHeat := false } else s
      else s
    setMovement servoRead now { s with moveCoverTo := 3 }
  else s

def resetErrorReadings (s : Firmware) : Firmware :=
  { s with errorCounter := 0, heaterUnknown := false, heaterError := false }

/-- The function `setHeaterState()` with both heater channels installed. -/
def setHeaterState (s : Firmware) : Firmware :=
  let s :=
    if s.heaterError then { s with heaterState := 5 }
    else if s.heaterUnknown then { s with heaterState := 4 }
    else if s.manualHeat then { s with heaterState := 3 }
    else if s.autoHeat then { s with heaterState := 2 }
    else if s.heatOnClose then { s with heaterState := 6 }
    else resetErrorReadings { s with heaterState := 1 }
  if s.heaterState ≠ 2 ∧ s.heaterState ≠ 3 then
    { s with log := PinEvent.analogWrite chTwoHeater 0 :: PinEvent.analogWrite chOneHeater 0 :: s.log }
  else s

/-- The cover Closed and manual heating running at duty 200 on both channels. -/
def closedAndHeating : Firmware :=
  { currentCoverState := 1, heaterState := 3, manualHeat := true,
    log := [PinEvent.analogWrite chTwoHeater 200, PinEvent.analogWrite chOneHeater 200] }

end Monolith

/-! ## cover_controller.cpp: the easing profiles, over the reals -/

/-- The motion profiles of `config.h`; exactly one is selected at build time. -/
inductive EasingProfile where
  | USE_LINEAR
  | USE_CIRCULAR
  | USE_CUBIC
  | USE_EXPO
  | USE_QUAD
  | USE_QUART
  | USE_QUINT
  | USE_SINE
deriving DecidableEq, Repr

namespace CoverController

/-- The method `calculateEasedProgress(float progress)` read over the real numbers, one
branch per build option (`USE_LINEAR` takes the final `#else`).  `pow` with an
integer exponent is the power, `pow(2.0f, x)` the real exponential, `sqrt`
and `cos` the real functions. -/
noncomputable def calculateEasedProgress (profile : EasingProfile) (progress : ℝ) : ℝ :=
  match profile with
  | .USE_CIRCULAR =>
    if progress < 0.5 then 0.5 * (1 - Real.sqrt (1 - 4 * progress ^ 2))
    else 0.5 * (Real.sqrt ((-((2 * progress) - 3)) * ((2 * progress) - 1)) + 1)
  | .USE_CUBIC =>
    if progress < 0.5 then 4 * progress * progress * progress
    else 1 - (-2 * progress + 2) ^ 3 / 2
  | .USE_EXPO =>
    if progress = 0 then 0
    else if progress = 1 then 1
    else if progress < 0.5 then (2 : ℝ) ^ (20 * progress - 10) / 2
    else (2 - (2 : ℝ) ^ (-20 * progress + 10)) / 2
  | .USE_QUAD =>
    if progress < 0.5 then 2 * progress * progress
    else 1 - (-2 * progress + 2) ^ 2 / 2
  | .USE_QUART =>
    if progress < 0.5 then 8 * progress * progress * progress * progress
    else 1 - (-2 * progress + 2) ^ 4 / 2
  | .USE_QUINT =>
    if progress < 0.5 then 16 * progress * progress * progress * progress * progress
    else 1 - (-2 * progress + 2) ^ 5 / 2
  | .USE_SINE => -(Real.cos (Real.pi * progress) - 1) / 2
  | .USE_LINEAR => progress

end CoverController

namespace CoverController

/-- The value of the local `currentAngle` of `processCoverMovement` in a pass
at `now`: the single-precision interpolation between `_lastPosition` and the
target endpoint at the progress of the pass, converted to `int16_t`. -/
def currentAngleAt (now : Nat) (s : CoverController) : Int :=
  toInt16 (calculateServoPosition (toInt16 s._lastPosition)
    (toInt16 (if s._moveCoverTo = 3 then (s._openAngle : Int) else (s._closeAngle : Int)))
    (progressAt now s))

end CoverController

/-! ## button_handler.cpp (with `COVER_INSTALLED` and `LIGHT_INSTALLED`) -/

/-- The `enum ButtonState` of `button_handler.h`. -/
inductive ButtonState where
  | BTN_IDLE
  | BTN_PRESSED
  | BTN_AWAITING_RELEASE
deriving DecidableEq, Repr

/-- The level read from the button pin; the button is active LOW. -/
inductive PinLevel where
  | LOW
  | HIGH
deriving DecidableEq, Repr

def DEBOUNCE_DELAY : Nat := 150
def LONG_PRESS_TIME : Nat := 1000

/-- The member variables of `class ButtonHandler`. -/
structure ButtonHandler where
  _state : ButtonState := ButtonState.BTN_IDLE
  _pressStartTime : Nat := 0
  _lastDebounceTime : Nat := 0
  _lastButtonState : PinLevel := PinLevel.HIGH
  _longPressHandled : Bool := false
deriving DecidableEq, Repr

/-- The calls `ButtonHandler::loop` makes on the cover and light controllers. -/
inductive ButtonCommand where
  | haltCover
  | openCover
  | closeCover
  | turnPanelTo (value : Nat)
  | turnPanelOff
deriving DecidableEq, Repr

/-- The button handler together with the two controllers it commands, and the
commands it has issued, most recent first. -/
structure ButtonWorld where
  button : ButtonHandler := {}
  cover : CoverController := {}
  light : LightController := {}
  issued : List ButtonCommand := []

namespace ButtonHandler

/-- The method `loop()`; `reading` is what `digitalRead(PIN_BUTTON)` returns. -/
def loop (reading : PinLevel) (now : Nat) (w : ButtonWorld) : ButtonWorld :=
  let w :=
    match w.button._state with
    | ButtonState.BTN_IDLE =>
      if reading = PinLevel.LOW ∧ w.button._lastButtonState = PinLevel.HIGH then
        if DEBOUNCE_DELAY < sub32 now w.button._lastDebounceTime then
          let b := { w.button with _lastDebounceTime := now, _pressStartTime := now,
                                   _longPressHandled := false }
          if w.cover._currentState = CoverState.COVER_MOVING then
            { w with button := { b with _state := ButtonState.BTN_AWAITING_RELEASE },
                     cover := w.cover.haltCover now,
                     issued := ButtonCommand.haltCover :: w.issued }
          else { w with button := { b with _state := ButtonState.BTN_PRESSED } }
        else w
      else w
    | ButtonState.BTN_PRESSED =>
      if reading = PinLevel.LOW then
        if !w.button._longPressHandled &&
            decide (LONG_PRESS_TIME ≤ sub32 now w.button._pressStartTime) then
          let w := { w with button := { w.button with _longPressHandled := true } }
          let cs := w.cover._currentState
          let w :=
            if cs = CoverState.COVER_CLOSED ∨ cs = CoverState.COVER_UNKNOWN ∨
                cs = CoverState.COVER_ERROR then
              { w with cover := w.cover.openCover now,
                       issued := ButtonCommand.openCover :: w.issued }
            else if cs = CoverState.COVER_OPEN then
              { w with cover := w.cover.closeCover now,
                       issued := ButtonCommand.closeCover :: w.issued }
            else w
          { w with button := { w.button with _state := ButtonState.BTN_AWAITING_RELEASE } }
        else w
      else
        let w :=
          if !w.button._longPressHandled &&
              decide (sub32 now w.button._pressStartTime < LONG_PRESS_TIME) then
            if w.light._calibratorState = CalibratorState.CAL_OFF then
              { w with light := w.light.turnPanelTo w.light._maxBrightness now,
                       issued := ButtonCommand.turnPanelTo w.light._maxBrightness :: w.issued }
            else
              { w with light := w.light.turnPanelOff,
                       issued := ButtonCommand.turnPanelOff :: w.issued }
          else w
        { w with button := { w.button with _state := ButtonState.BTN_IDLE } }
    | ButtonState.BTN_AWAITING_RELEASE =>
      if reading = PinLevel.HIGH then
        { w with button := { w.button with _state := ButtonState.BTN_IDLE } }
      else w
  { w with button := { w.button with _lastButtonState := reading } }

end ButtonHandler

/-- One pass of the button handler: the pin level it reads, the counter value,
and the controllers as it finds them (whatever the scheduler and the other
handlers made of them since the previous pass). -/
structure ButtonTick where
  reading : PinLevel
  now : Nat
  cover : CoverController
  light : LightController

/-- One pass of the button handler on the controllers it finds. -/
def buttonStep (w : ButtonWorld) (t : ButtonTick) : ButtonWorld :=
  ButtonHandler.loop t.reading t.now { w with cover := t.cover, light := t.light }

/-- A run of passes of the button handler. -/
def buttonRun (ts : List ButtonTick) (w : ButtonWorld) : ButtonWorld :=
  ts.foldl buttonStep w

/-- The number of temperature-conversion requests in a heater log. -/
def requests (log : List HeaterEvent) : Nat := log.count HeaterEvent.requestTemperatures

/-- The number of sensor reads in a heater log. -/
def reads (log : List HeaterEvent) : Nat := log.count HeaterEvent.getTempCByIndex

/-- The heater controller together with two observations of the two-stage
acquisition: the time of the pass whose conversion request is still
outstanding, and for every read made by the sampling block so far the
outstanding request it found and the time of the read, most recent first. -/
structure HeaterHistory where
  heater : HeaterController
  requestAt : Option Nat
  samples : List (Option Nat × Nat)

/-- One call, with the observations kept up to date.  The flag
`_asyncConversionStarted` is set only where the sampling block requests a
conversion and cleared only where it goes on to read the sensors. -/
def HeaterCall.track (dew : DewFormula) (c : HeaterCall) (h : HeaterHistory) : HeaterHistory :=
  match c with
  | .loop _ now _ =>
    if h.heater._asyncConversionStarted = false ∧
        (c.run dew h.heater)._asyncConversionStarted = true then
      { heater := c.run dew h.heater, requestAt := some now, samples := h.samples }
    else if h.heater._asyncConversionStarted = true ∧
        (c.run dew h.heater)._asyncConversionStarted = false then
      { heater := c.run dew h.heater, requestAt := none,
        samples := (h.requestAt, now) :: h.samples }
    else { h with heater := c.run dew h.heater }
  | _ => { h with heater := c.run dew h.heater }

/-- The history after `begin()` and the given calls. -/
def heaterHistory (dew : DewFormula) (bmeStatus : Bool) (delta : ℚ) (shutoff : Nat)
    (calls : List HeaterCall) : HeaterHistory :=
  calls.foldl (fun h c => c.track dew h)
    { heater := HeaterController.begin bmeStatus delta shutoff {}, requestAt := none, samples := [] }

namespace HeaterController

/-- A step that issues no conversion request and leaves the acquisition
state alone. -/
def Quiet (s t : HeaterController) : Prop :=
  requests t.log = requests s.log ∧
  t._asyncConversionStarted = s._asyncConversionStarted ∧
  t._conversionStartTime = s._conversionStartTime

/-- What a call at `now` can do to the two-stage acquisition: nothing, only
request a conversion, or consume the outstanding request by reading. -/
def SamplingStep (now : Nat) (s t : HeaterController) : Prop :=
  Quiet s t ∨
  (t.log = HeaterEvent.requestTemperatures :: s.log ∧ s._asyncConversionStarted = false ∧
    t._asyncConversionStarted = true ∧ t._conversionStartTime = now) ∨
  (requests t.log = requests s.log ∧ s._asyncConversionStarted = true ∧
    t._asyncConversionStarted = false ∧ 750 ≤ sub32 now s._conversionStartTime ∧
    reads s.log < reads t.log)

/-- Invariant behind the two-stage acquisition. -/
def SamplingInv (h : HeaterHistory) : Prop :=
  (h.heater._asyncConversionStarted = true → h.requestAt = some h.heater._conversionStartTime) ∧
  ∀ q ∈ h.samples, ∃ t, q.1 = some t ∧ 750 ≤ sub32 q.2 t

end HeaterController

/-! ## heater_controller.cpp: the dew-point formula, over the reals -/

/-- The constant `DEW_POINT_ALPHA = 17.27f` of `config.h`. -/
def DEW_POINT_ALPHA : ℚ := 1727 / 100

/-- The constant `DEW_POINT_BETA = 237.7f` of `config.h`. -/
def DEW_POINT_BETA : ℚ := 2377 / 10

namespace HeaterController

/-- The local `temp` of `manageHeat`, read over the real numbers:
`(DEW_POINT_ALPHA * _outsideTemp) / (DEW_POINT_BETA + _outsideTemp)
+ log(_humidityLevel / 100.0f)`. -/
noncomputable def dewTemp (outsideTemp humidityLevel : ℝ) : ℝ :=
  ((DEW_POINT_ALPHA : ℝ) * outsideTemp) / ((DEW_POINT_BETA : ℝ) + outsideTemp)
    + Real.log (humidityLevel / 100)

/-- The value assigned to `_dewPoint` in `manageHeat`, read over the real numbers:
`(DEW_POINT_BETA * temp) / (DEW_POINT_ALPHA - temp)`. -/
noncomputable def dewPointOf (outsideTemp humidityLevel : ℝ) : ℝ :=
  ((DEW_POINT_BETA : ℝ) * dewTemp outsideTemp humidityLevel)
    / ((DEW_POINT_ALPHA : ℝ) - dewTemp outsideTemp humidityLevel)

end HeaterController

/-! ## Theorems: machine arithmetic -/

theorem sub32_after32 (t0 a e : Nat) :
    sub32 (after32 t0 (a + e)) (after32 t0 a) = e % 4294967296 := by
  unfold sub32 after32
  omega

theorem sub32_after32_zero (t0 e : Nat) :
    sub32 (after32 t0 e) t0 = e % 4294967296 := by
  unfold sub32 after32
  omega

theorem sub32_after32_le (t0 a d : Nat) (h : a ≤ d) :
    sub32 (after32 t0 d) (after32 t0 a) = (d - a) % 4294967296 := by
  unfold sub32 after32
  omega

/-! ## Theorems: single-precision arithmetic -/

/-- The leading-bit position brackets the number between two powers of 2. -/
theorem ilog2_spec (fuel : Nat) : ∀ n : Nat, 1 ≤ n → n < 2 ^ fuel →
    2 ^ ilog2 fuel n ≤ n ∧ n < 2 ^ (ilog2 fuel n + 1) := by
  induction fuel with
  | zero => intro n h1 h2; simp at h2; omega
  | succ f ih =>
    intro n h1 h2
    unfold ilog2
    by_cases h : n < 2
    · rw [if_pos h]; simp; omega
    · rw [if_neg h]
      have h3 : n / 2 < 2 ^ f := by
        rw [pow_succ] at h2; omega
      obtain ⟨a, b⟩ := ih (n / 2) (by omega) h3
      constructor
      · rw [pow_succ]; omega
      · rw [pow_succ]; omega

theorem ilog2_self (n : Nat) (h1 : 1 ≤ n) :
    2 ^ ilog2 n n ≤ n ∧ n < 2 ^ (ilog2 n n + 1) :=
  ilog2_spec n n h1 (Nat.lt_two_pow n)

theorem two_zpow_split (z : Int) :
    (2 : ℚ) ^ z = (2 : ℚ) ^ z.toNat / (2 : ℚ) ^ (-z).toNat := by
  rcases Int.eq_nat_or_neg z with ⟨n, rfl | rfl⟩
  · simp
  · cases n with
    | zero => simp
    | succ m =>
      have e1 : (-((m + 1 : Nat) : Int)).toNat = 0 := by simp; omega
      have e2 : (- -((m + 1 : Nat) : Int)).toNat = m + 1 := by simp
      rw [e1, e2, zpow_neg, zpow_natCast]
      simp

namespace F32

theorem den_pos (x : F32) : 0 < x.den := by
  unfold den
  positivity

theorem val_mk (m e : Int) : val ⟨m, e⟩ = m * (2 : ℚ) ^ e := by
  unfold val num den
  rw [two_zpow_split e]
  push_cast
  ring

theorem val_eq (x : F32) : val x = x.mant * (2 : ℚ) ^ x.expo := val_mk x.mant x.expo


/-- The rounding of a positive quotient: the exponent is not above that of
the quotient, and the mantissa is within one half of the scaled quotient. -/
theorem roundPos_spec (a b : Nat) (ha : 0 < a) (hb : 0 < b) :
    ∃ e : Int, (roundPos a b).expo = e - 23 ∧ (2 : ℚ) ^ e ≤ (a : ℚ) / b ∧
      |((roundPos a b).mant : ℚ) - (a : ℚ) / b * (2 : ℚ) ^ (23 - e)| ≤ 1 / 2 := by
  have hA : (0 : ℚ) < a := by exact_mod_cast ha
  have hB : (0 : ℚ) < b := by exact_mod_cast hb
  obtain ⟨a1, a2⟩ := ilog2_self a ha
  obtain ⟨b1, b2⟩ := ilog2_self b hb
  generalize hk : ((ilog2 a a : Int) - (ilog2 b b : Int)) = k
  generalize he : (if b * 2 ^ k.toNat ≤ a * 2 ^ (-k).toNat then k else k - 1) = e
  have hexp : (2 : ℚ) ^ e ≤ (a : ℚ) / b := by
    rw [le_div_iff₀ hB]
    by_cases ht : b * 2 ^ k.toNat ≤ a * 2 ^ (-k).toNat
    · rw [if_pos ht] at he
      subst he
      have ht2 : (b : ℚ) * 2 ^ k.toNat ≤ a * 2 ^ (-k).toNat := by exact_mod_cast ht
      rw [two_zpow_split k, div_mul_eq_mul_div, div_le_iff₀ (by positivity)]
      linarith
    · rw [if_neg ht] at he
      subst he
      have e1 : (2 : ℚ) ^ (k - 1) = (2 : ℚ) ^ (ilog2 a a) / (2 : ℚ) ^ (ilog2 b b + 1) := by
        rw [← hk, show ((ilog2 a a : Int) - (ilog2 b b : Int) - 1)
          = (ilog2 a a : Int) - ((ilog2 b b + 1 : Nat) : Int) by push_cast; ring]
        rw [zpow_sub₀ (by norm_num), zpow_natCast, zpow_natCast]
      rw [e1, div_mul_eq_mul_div, div_le_iff₀ (by positivity)]
      have a1q : (2 : ℚ) ^ (ilog2 a a) ≤ a := by exact_mod_cast a1
      have b2q : (b : ℚ) ≤ (2 : ℚ) ^ (ilog2 b b + 1) := by exact_mod_cast b2.le
      calc (2 : ℚ) ^ (ilog2 a a) * b ≤ a * b := by gcongr
        _ ≤ a * (2 : ℚ) ^ (ilog2 b b + 1) := by gcongr
  refine ⟨e, ?_, hexp, ?_⟩
  · unfold roundPos
    simp only [hk, he]
  · generalize hn : a * 2 ^ (23 - e).toNat = n
    generalize hd : b * 2 ^ (e - 23).toNat = d
    have hdpos : 0 < d := by rw [← hd]; positivity
    have hD : (0 : ℚ) < d := by exact_mod_cast hdpos
    have hmant : (roundPos a b).mant
        = if d < 2 * (n % d) ∨ (d = 2 * (n % d) ∧ (n / d) % 2 = 1) then ((n / d : Nat) : Int) + 1
          else ((n / d : Nat) : Int) := by
      unfold roundPos
      simp only [hk, he, hn, hd]
    have hq : (a : ℚ) / b * (2 : ℚ) ^ (23 - e) = (n : ℚ) / d := by
      rw [two_zpow_split (23 - e), ← hn, ← hd, show -(23 - e) = e - 23 by ring]
      push_cast
      field_simp
    have hdm : (n : ℚ) = d * (n / d : Nat) + (n % d : Nat) := by
      exact_mod_cast (Nat.div_add_mod n d).symm
    have hr : (n % d : Nat) < d := Nat.mod_lt n hdpos
    have hrq : ((n % d : Nat) : ℚ) < d := by exact_mod_cast hr
    have hr0 : (0 : ℚ) ≤ ((n % d : Nat) : ℚ) := by positivity
    have hnd : (n : ℚ) / d = (n / d : Nat) + ((n % d : Nat) : ℚ) / d := by
      rw [hdm]
      field_simp
      ring
    have ht0 : 0 ≤ ((n % d : Nat) : ℚ) / d := by positivity
    have ht1 : ((n % d : Nat) : ℚ) / d ≤ 1 := by
      rw [div_le_one hD]; exact hrq.le
    rw [hq, hnd, hmant]
    by_cases hc : d < 2 * (n % d) ∨ (d = 2 * (n % d) ∧ (n / d) % 2 = 1)
    · rw [if_pos hc]
      have h2 : d ≤ 2 * (n % d) := by rcases hc with h | ⟨h, _⟩ <;> omega
      have h2q : (d : ℚ) ≤ 2 * ((n % d : Nat) : ℚ) := by exact_mod_cast h2
      have ht2 : 1 / 2 ≤ ((n % d : Nat) : ℚ) / d := by
        rw [le_div_iff₀ hD]; linarith
      simp only [Int.cast_add, Int.cast_one, Int.cast_natCast]
      rw [abs_le]
      constructor <;> linarith
    · rw [if_neg hc]
      have h2 : 2 * (n % d) ≤ d := by
        by_contra hcon
        exact hc (Or.inl (by omega))
      have h2q : 2 * ((n % d : Nat) : ℚ) ≤ d := by exact_mod_cast h2
      have ht2 : ((n % d : Nat) : ℚ) / d ≤ 1 / 2 := by
        rw [div_le_iff₀ hD]; linarith
      simp only [Int.cast_add, Int.cast_one, Int.cast_natCast]
      rw [abs_le]
      constructor <;> linarith


/-- Two integers within one half of each other are equal. -/
theorem int_eq_of_abs_le_half (m j : Int) (h : |(m : ℚ) - j| ≤ 1 / 2) : m = j := by
  by_contra hne
  have h1 : (1 : Int) ≤ |m - j| := Int.one_le_abs (sub_ne_zero.mpr hne)
  have h2 : ((1 : Int) : ℚ) ≤ ((|m - j| : Int) : ℚ) := Int.cast_le.mpr h1
  rw [Int.cast_abs, Int.cast_sub, Int.cast_one] at h2
  linarith

/-- The rounding of a positive quotient has relative error at most `2 ^ -24`
and is exact on the integers up to `2 ^ 24`. -/
theorem val_roundPos (a b : Nat) (ha : 0 < a) (hb : 0 < b) :
    |val (roundPos a b) - (a : ℚ) / b| ≤ (a : ℚ) / b / 16777216 ∧
    (∀ k : Nat, (a : ℚ) / b = k → k ≤ 16777216 → val (roundPos a b) = k) := by
  obtain ⟨e, h1, h2, h3⟩ := roundPos_spec a b ha hb
  have hv : val (roundPos a b) = (roundPos a b).mant * (2 : ℚ) ^ (e - 23) := by
    rw [val_eq, h1]
  have hone : (2 : ℚ) ^ (23 - e) * (2 : ℚ) ^ (e - 23) = 1 := by
    rw [← zpow_add₀ (by norm_num), show 23 - e + (e - 23) = 0 by ring, zpow_zero]
  have e23 : (2 : ℚ) ^ (e - 23) = (2 : ℚ) ^ e / 8388608 := by
    rw [zpow_sub₀ (by norm_num)]
    norm_num
  have hpos : (0 : ℚ) < (2 : ℚ) ^ (e - 23) := by positivity
  have hdiff : val (roundPos a b) - (a : ℚ) / b
      = (((roundPos a b).mant : ℚ) - (a : ℚ) / b * (2 : ℚ) ^ (23 - e)) * (2 : ℚ) ^ (e - 23) := by
    rw [hv, sub_mul, mul_assoc, hone, mul_one]
  constructor
  · rw [hdiff, abs_mul, abs_of_pos hpos]
    calc |((roundPos a b).mant : ℚ) - (a : ℚ) / b * (2 : ℚ) ^ (23 - e)| * (2 : ℚ) ^ (e - 23)
        ≤ 1 / 2 * (2 : ℚ) ^ (e - 23) := by gcongr
      _ = (2 : ℚ) ^ e / 16777216 := by rw [e23]; ring
      _ ≤ (a : ℚ) / b / 16777216 := by gcongr
  · intro k hk hk2
    have hkq : (k : ℚ) ≤ 16777216 := by exact_mod_cast hk2
    have he24 : e ≤ 24 := by
      by_contra hcon
      have h25 : (2 : ℚ) ^ (25 : Int) ≤ (2 : ℚ) ^ e := zpow_le_zpow_right₀ (by norm_num) (by omega)
      have : (2 : ℚ) ^ (25 : Int) = 33554432 := by norm_num
      rw [hk] at h2
      linarith
    have hj : ∃ j : Int, (a : ℚ) / b * (2 : ℚ) ^ (23 - e) = j := by
      by_cases he23 : e ≤ 23
      · refine ⟨(k : Int) * 2 ^ (23 - e).toNat, ?_⟩
        have : (2 : ℚ) ^ (23 - e) = (2 : ℚ) ^ (23 - e).toNat := by
          rw [← zpow_natCast, Int.toNat_of_nonneg (by omega)]
        rw [hk, this]
        push_cast
        ring
      · have e24 : e = 24 := by omega
        subst e24
        have h24 : (2 : ℚ) ^ (24 : Int) = 16777216 := by norm_num
        rw [hk, h24] at h2
        have hk3 : (k : ℚ) = 16777216 := le_antisymm hkq h2
        refine ⟨8388608, ?_⟩
        rw [hk, hk3]
        norm_num
    obtain ⟨j, hj⟩ := hj
    rw [hj] at h3
    have hm := int_eq_of_abs_le_half _ _ h3
    rw [hv, hm, ← hj, mul_assoc, hone, mul_one, hk]

/-- The value of a sign-adjusted mantissa. -/
theorem val_sign (n : Int) (r : F32) :
    val ⟨(if n < 0 then -1 else 1) * r.mant, r.expo⟩
      = (if n < 0 then (-1 : ℚ) else 1) * val r := by
  rw [val_mk, val_eq]
  split_ifs <;> push_cast <;> ring

theorem cast_sign_natAbs (n : Int) :
    (n : ℚ) = (if n < 0 then (-1 : ℚ) else 1) * (n.natAbs : ℚ) := by
  rw [Nat.cast_natAbs, Int.cast_abs]
  split_ifs with h
  · rw [abs_of_neg (by exact_mod_cast h)]; ring
  · rw [abs_of_nonneg (by exact_mod_cast (not_lt.mp h))]; ring

/-- The rounding of a quotient has relative error at most `2 ^ -24`. -/
theorem val_round_err (n : Int) (d : Nat) (hd : 0 < d) :
    |val (round n d) - (n : ℚ) / d| ≤ |(n : ℚ) / d| / 16777216 := by
  have hD : (0 : ℚ) < d := by exact_mod_cast hd
  unfold round
  by_cases h0 : n = 0
  · rw [if_pos (Or.inl h0), h0]
    simp [val_mk]
  · rw [if_neg (by rintro (h | h) <;> omega), val_sign]
    have hpos : 0 < n.natAbs := Int.natAbs_pos.mpr h0
    obtain ⟨h1, _⟩ := val_roundPos n.natAbs d hpos hd
    have hq : (0 : ℚ) ≤ (n.natAbs : ℚ) / d := div_nonneg (Nat.cast_nonneg _) hD.le
    have hn := cast_sign_natAbs n
    by_cases hneg : n < 0
    · simp only [hneg, if_true] at hn ⊢
      rw [hn]
      have e1 : -1 * val (roundPos n.natAbs d) - -1 * (n.natAbs : ℚ) / d
          = -(val (roundPos n.natAbs d) - (n.natAbs : ℚ) / d) := by ring
      have e2 : -1 * (n.natAbs : ℚ) / d = -((n.natAbs : ℚ) / d) := by ring
      rw [e1, e2, abs_neg, abs_neg, abs_of_nonneg hq]
      exact h1
    · simp only [hneg, if_false] at hn ⊢
      rw [hn, one_mul, one_mul, abs_of_nonneg hq]
      exact h1

/-- The rounding is exact on the integers up to `2 ^ 24` in magnitude. -/
theorem val_round_exact (n : Int) (d : Nat) (hd : 0 < d) (k : Int)
    (hk : (n : ℚ) / d = k) (hk2 : |k| ≤ 16777216) : val (round n d) = k := by
  have hD : (0 : ℚ) < d := by exact_mod_cast hd
  unfold round
  by_cases h0 : n = 0
  · rw [if_pos (Or.inl h0)]
    rw [h0] at hk
    simp at hk
    simp [val_mk, ← hk]
  · rw [if_neg (by rintro (h | h) <;> omega), val_sign]
    have hpos : 0 < n.natAbs := Int.natAbs_pos.mpr h0
    obtain ⟨_, h1⟩ := val_roundPos n.natAbs d hpos hd
    have hkabs : ((n.natAbs : ℚ)) / d = (k.natAbs : ℚ) := by
      rw [Nat.cast_natAbs, Nat.cast_natAbs, Int.cast_abs, Int.cast_abs, ← hk, abs_div,
        abs_of_pos hD]
    have hk3 : k.natAbs ≤ 16777216 := by
      have := Int.abs_eq_natAbs k
      omega
    have h2 := h1 k.natAbs hkabs hk3
    have hn := cast_sign_natAbs n
    have hkk := cast_sign_natAbs k
    rw [h2]
    by_cases hneg : n < 0
    · have hkneg : k < 0 := by
        have : (n : ℚ) / d < 0 := div_neg_of_neg_of_pos (by exact_mod_cast hneg) hD
        rw [hk] at this
        exact_mod_cast this
      simp only [hneg, hkneg, if_true] at hkk ⊢
      rw [hkk]
    · have hkneg : ¬ k < 0 := by
        have : (0 : ℚ) ≤ (n : ℚ) / d := div_nonneg (by exact_mod_cast (not_lt.mp hneg)) hD.le
        rw [hk] at this
        exact not_lt.mpr (by exact_mod_cast this)
      simp only [hneg, hkneg, if_false] at hkk ⊢
      rw [hkk]


theorem val_ofInt_err (n : Int) : |val (ofInt n) - n| ≤ |(n : ℚ)| / 16777216 := by
  have h := val_round_err n 1 (by decide)
  simpa [ofInt] using h

theorem val_ofInt_exact (n : Int) (h : |n| ≤ 16777216) : val (ofInt n) = n :=
  val_round_exact n 1 (by decide) n (by simp) h

theorem add_frac (x y : F32) :
    (((x.num * y.den + y.num * x.den : Int)) : ℚ) / ((x.den * y.den : Nat) : ℚ)
      = val x + val y := by
  have hx : ((x.den : Nat) : ℚ) ≠ 0 := by exact_mod_cast (den_pos x).ne'
  have hy : ((y.den : Nat) : ℚ) ≠ 0 := by exact_mod_cast (den_pos y).ne'
  unfold val
  push_cast
  field_simp

theorem mul_frac (x y : F32) :
    (((x.num * y.num : Int)) : ℚ) / ((x.den * y.den : Nat) : ℚ) = val x * val y := by
  have hx : ((x.den : Nat) : ℚ) ≠ 0 := by exact_mod_cast (den_pos x).ne'
  have hy : ((y.den : Nat) : ℚ) ≠ 0 := by exact_mod_cast (den_pos y).ne'
  unfold val
  push_cast
  field_simp

theorem num_pos_iff (x : F32) : 0 < x.num ↔ 0 < val x := by
  have hx : (0 : ℚ) < ((x.den : Nat) : ℚ) := by exact_mod_cast den_pos x
  unfold val
  rw [div_pos_iff_of_pos_right hx]
  exact Int.cast_pos.symm

theorem div_eq (x y : F32) (hy : 0 < val y) :
    div x y = round (x.num * y.den) (x.den * y.num.natAbs) := by
  have h := (num_pos_iff y).mpr hy
  unfold div
  rw [if_neg (by omega), one_mul]

theorem div_frac (x y : F32) (hy : 0 < val y) :
    (((x.num * y.den : Int)) : ℚ) / ((x.den * y.num.natAbs : Nat) : ℚ) = val x / val y := by
  have h := (num_pos_iff y).mpr hy
  have hx : ((x.den : Nat) : ℚ) ≠ 0 := by exact_mod_cast (den_pos x).ne'
  have hyd : ((y.den : Nat) : ℚ) ≠ 0 := by exact_mod_cast (den_pos y).ne'
  have hn : ((y.num.natAbs : Nat) : ℚ) = (y.num : ℚ) := by
    rw [Nat.cast_natAbs, abs_of_pos h]
  have hyn : (y.num : ℚ) ≠ 0 := by exact_mod_cast h.ne'
  unfold val
  push_cast
  rw [hn]
  field_simp

theorem div_den_pos (x y : F32) (hy : 0 < val y) : 0 < x.den * y.num.natAbs := by
  have h := (num_pos_iff y).mpr hy
  exact Nat.mul_pos (den_pos x) (Int.natAbs_pos.mpr h.ne')

theorem val_add_err (x y : F32) :
    |val (add x y) - (val x + val y)| ≤ |val x + val y| / 16777216 := by
  have h := val_round_err (x.num * y.den + y.num * x.den) (x.den * y.den)
    (Nat.mul_pos (den_pos x) (den_pos y))
  rw [add_frac] at h
  exact h

theorem val_add_exact (x y : F32) (k : Int) (hk : val x + val y = k) (hk2 : |k| ≤ 16777216) :
    val (add x y) = k :=
  val_round_exact _ _ (Nat.mul_pos (den_pos x) (den_pos y)) k ((add_frac x y).trans hk) hk2

theorem val_mul_err (x y : F32) :
    |val (mul x y) - val x * val y| ≤ |val x * val y| / 16777216 := by
  have h := val_round_err (x.num * y.num) (x.den * y.den)
    (Nat.mul_pos (den_pos x) (den_pos y))
  rw [mul_frac] at h
  exact h

theorem val_mul_exact (x y : F32) (k : Int) (hk : val x * val y = k) (hk2 : |k| ≤ 16777216) :
    val (mul x y) = k :=
  val_round_exact _ _ (Nat.mul_pos (den_pos x) (den_pos y)) k ((mul_frac x y).trans hk) hk2

theorem val_div_err (x y : F32) (hy : 0 < val y) :
    |val (div x y) - val x / val y| ≤ |val x / val y| / 16777216 := by
  have h := val_round_err (x.num * y.den) (x.den * y.num.natAbs) (div_den_pos x y hy)
  rw [div_frac x y hy] at h
  rw [div_eq x y hy]
  exact h

theorem val_div_exact (x y : F32) (hy : 0 < val y) (k : Int) (hk : val x / val y = k)
    (hk2 : |k| ≤ 16777216) : val (div x y) = k := by
  rw [div_eq x y hy]
  exact val_round_exact _ _ (div_den_pos x y hy) k ((div_frac x y hy).trans hk) hk2

theorem lt_iff (x y : F32) : lt x y = true ↔ val x < val y := by
  have hx : (0 : ℚ) < ((x.den : Nat) : ℚ) := by exact_mod_cast den_pos x
  have hy : (0 : ℚ) < ((y.den : Nat) : ℚ) := by exact_mod_cast den_pos y
  unfold lt val
  rw [decide_eq_true_iff, div_lt_div_iff₀ hx hy]
  constructor
  · intro h; exact_mod_cast h
  · intro h; exact_mod_cast h

/-- The clamp of a value to `[0, 1]`. -/
theorem val_constrain01 (x : F32) :
    val (constrain x (ofInt 0) (ofInt 1))
      = if val x < 0 then 0 else if 1 < val x then 1 else val x := by
  have h0 : val (ofInt 0) = 0 := by
    have := val_ofInt_exact 0 (by norm_num)
    simpa using this
  have h1 : val (ofInt 1) = 1 := by
    have := val_ofInt_exact 1 (by norm_num)
    simpa using this
  unfold constrain
  by_cases a : lt x (ofInt 0) = true
  · rw [if_pos a]
    rw [lt_iff, h0] at a
    rw [if_pos a, h0]
  · rw [if_neg a]
    rw [lt_iff, h0] at a
    rw [if_neg a]
    by_cases b : lt (ofInt 1) x = true
    · rw [if_pos b]
      rw [lt_iff, h1] at b
      rw [if_pos b, h1]
    · rw [if_neg b]
      rw [lt_iff, h1] at b
      rw [if_neg b]

end F32

/-- Truncating integer division is the truncation of the exact quotient. -/
theorem tdiv_eq_truncQ (a : Int) {T : Nat} (hT : 0 < T) :
    Int.tdiv a T = truncQ ((a : ℚ) / T) := by
  have hTq : (0 : ℚ) < (T : ℚ) := by exact_mod_cast hT
  unfold truncQ
  by_cases ha : 0 ≤ a
  · have h0 : (0 : ℚ) ≤ (a : ℚ) / T := div_nonneg (by exact_mod_cast ha) hTq.le
    rw [if_pos h0, Rat.floor_intCast_div_natCast, Int.tdiv_eq_ediv ha (by omega)]
  · have hneg : (a : ℚ) / T < 0 := div_neg_of_neg_of_pos (by exact_mod_cast (not_le.mp ha)) hTq
    rw [if_neg (not_le.mpr hneg)]
    have e : (a : ℚ) / T = -(((-a : Int) : ℚ) / T) := by push_cast; ring
    rw [e, Int.ceil_neg, Rat.floor_intCast_div_natCast]
    have h1 : (-a).tdiv (T : Int) = (-a) / (T : Int) := Int.tdiv_eq_ediv (by omega) (by omega)
    rw [← h1, Int.neg_tdiv]
    omega

theorem F32.toInt_eq (x : F32) : F32.toInt x = truncQ (F32.val x) :=
  tdiv_eq_truncQ x.num (F32.den_pos x)

theorem truncQ_intCast (k : Int) : truncQ (k : ℚ) = k := by
  unfold truncQ
  split_ifs <;> simp

/-- Truncation moves two values that are within one half of each other at
most one apart. -/
theorem truncQ_close (s t : ℚ) (h : |s - t| ≤ 1 / 2) : |truncQ s - truncQ t| ≤ 1 := by
  rw [abs_le] at h
  obtain ⟨h1, h2⟩ := h
  have key : ((|truncQ s - truncQ t| : Int) : ℚ) < 2 := by
    rw [Int.cast_abs, Int.cast_sub, abs_lt]
    unfold truncQ
    have fs := Int.floor_le s
    have fs2 := Int.lt_floor_add_one s
    have ft := Int.floor_le t
    have ft2 := Int.lt_floor_add_one t
    have cs := Int.le_ceil s
    have cs2 := Int.ceil_lt_add_one s
    have ct := Int.le_ceil t
    have ct2 := Int.ceil_lt_add_one t
    by_cases hs : 0 ≤ s
    · by_cases ht : 0 ≤ t
      · rw [if_pos hs, if_pos ht]
        constructor <;> linarith
      · rw [if_pos hs, if_neg ht]
        have hc : ⌈t⌉ = 0 := by
          rw [Int.ceil_eq_iff]
          constructor
          · simp; linarith
          · simp; linarith
        have hf : ⌊s⌋ = 0 := by
          rw [Int.floor_eq_iff]
          constructor
          · simpa using hs
          · simp; linarith
        rw [hc, hf]
        norm_num
    · by_cases ht : 0 ≤ t
      · rw [if_neg hs, if_pos ht]
        have hc : ⌈s⌉ = 0 := by
          rw [Int.ceil_eq_iff]
          constructor
          · simp; linarith
          · simp; linarith
        have hf : ⌊t⌋ = 0 := by
          rw [Int.floor_eq_iff]
          constructor
          · simpa using ht
          · simp; linarith
        rw [hc, hf]
        norm_num
      · rw [if_neg hs, if_neg ht]
        constructor <;> linarith
  have : |truncQ s - truncQ t| < 2 := by exact_mod_cast key
  omega

/-- Truncation keeps a value inside integer bounds it exceeds by less than one. -/
theorem truncQ_bounds (s : ℚ) (lo hi : Int) (hlo : lo ≤ 0) (hhi : 0 ≤ hi)
    (h1 : (lo : ℚ) - 1 < s) (h2 : s < hi + 1) : lo ≤ truncQ s ∧ truncQ s ≤ hi := by
  unfold truncQ
  by_cases hs : 0 ≤ s
  · rw [if_pos hs]
    constructor
    · have : (0 : Int) ≤ ⌊s⌋ := Int.floor_nonneg.mpr hs
      omega
    · have : ⌊s⌋ < hi + 1 := by
        rw [Int.floor_lt]; push_cast; exact h2
      omega
  · rw [if_neg hs]
    constructor
    · have : lo - 1 < ⌈s⌉ := by
        rw [Int.lt_ceil]; push_cast; exact h1
      omega
    · have : ⌈s⌉ ≤ 0 := by
        rw [Int.ceil_le]; push_cast; linarith
      omega

/-- The float progress of a finished session is exactly 1. -/
theorem Progress.toFloat_full {T : Nat} (hT : 0 < T) :
    F32.val (Progress.toFloat ⟨T, T⟩) = 1 := by
  have hTq : (0 : ℚ) < (T : ℚ) := by exact_mod_cast hT
  have hy : 0 < F32.val (F32.ofInt (T : Int)) := by
    have h := F32.val_ofInt_err (T : Int)
    rw [abs_le] at h
    have e : |((T : Int) : ℚ)| = (T : ℚ) := by simp
    rw [e] at h
    have : ((T : Int) : ℚ) = (T : ℚ) := by simp
    rw [this] at h
    linarith [h.1]
  have hd : F32.val (F32.div (F32.ofInt (T : Int)) (F32.ofInt (T : Int))) = ((1 : Int) : ℚ) :=
    F32.val_div_exact _ _ hy 1 (by rw [div_self hy.ne']; simp) (by norm_num)
  unfold Progress.toFloat
  rw [F32.val_constrain01, hd]
  norm_num

/-- The float progress is within `5 * 2 ^ -24` of the exact fraction. -/
theorem Progress.toFloat_err {pn pd : Nat} (hpd : 0 < pd) (hle : pn ≤ pd) :
    |F32.val (Progress.toFloat ⟨pn, pd⟩) - (pn : ℚ) / pd| ≤ 5 / 16777216 ∧
    0 ≤ F32.val (Progress.toFloat ⟨pn, pd⟩) ∧ F32.val (Progress.toFloat ⟨pn, pd⟩) ≤ 1 := by
  have hP : (0 : ℚ) < (pd : ℚ) := by exact_mod_cast hpd
  have hN : (0 : ℚ) ≤ (pn : ℚ) := Nat.cast_nonneg _
  have hNP : (pn : ℚ) ≤ (pd : ℚ) := by exact_mod_cast hle
  have hx := F32.val_ofInt_err (pn : Int)
  have hy := F32.val_ofInt_err (pd : Int)
  have ex : ((pn : Int) : ℚ) = (pn : ℚ) := by simp
  have ey : ((pd : Int) : ℚ) = (pd : ℚ) := by simp
  rw [ex, abs_of_nonneg hN, abs_le] at hx
  rw [ey, abs_of_pos hP, abs_le] at hy
  have hypos : 0 < F32.val (F32.ofInt (pd : Int)) := by linarith [hy.1]
  have hz := F32.val_div_err (F32.ofInt (pn : Int)) (F32.ofInt (pd : Int)) hypos
  have hcl := F32.val_constrain01 (F32.div (F32.ofInt (pn : Int)) (F32.ofInt (pd : Int)))
  show |F32.val (F32.constrain (F32.div (F32.ofInt (pn : Int)) (F32.ofInt (pd : Int)))
      (F32.ofInt 0) (F32.ofInt 1)) - (pn : ℚ) / pd| ≤ 5 / 16777216 ∧
    0 ≤ F32.val (F32.constrain (F32.div (F32.ofInt (pn : Int)) (F32.ofInt (pd : Int)))
      (F32.ofInt 0) (F32.ofInt 1)) ∧
    F32.val (F32.constrain (F32.div (F32.ofInt (pn : Int)) (F32.ofInt (pd : Int)))
      (F32.ofInt 0) (F32.ofInt 1)) ≤ 1
  rw [hcl]
  generalize F32.val (F32.div (F32.ofInt (pn : Int)) (F32.ofInt (pd : Int))) = z at hz ⊢
  generalize F32.val (F32.ofInt (pn : Int)) = x at hx hz
  generalize F32.val (F32.ofInt (pd : Int)) = y at hy hz hypos
  generalize (pn : ℚ) = N at hx hN hNP ⊢
  generalize (pd : ℚ) = P at hy hP hNP ⊢
  have ht : N / P * P = N := div_mul_cancel₀ N hP.ne'
  have hqy : x / y * y = x := div_mul_cancel₀ x hypos.ne'
  have ht0 : 0 ≤ N / P := div_nonneg hN hP.le
  have ht1 : N / P ≤ 1 := (div_le_one hP).mpr hNP
  have hq0 : 0 ≤ x / y := div_nonneg (by linarith [hx.1]) hypos.le
  generalize N / P = t at ht ht0 ht1 ⊢
  generalize x / y = q at hqy hq0 hz
  have m1 : t * (P - P / 16777216) ≤ t * y := mul_le_mul_of_nonneg_left (by linarith [hy.1]) ht0
  have m2 : t * y ≤ t * (P + P / 16777216) := mul_le_mul_of_nonneg_left (by linarith [hy.2]) ht0
  have hq1 : q - t ≤ 3 / 16777216 := by
    by_contra hc
    have hc2 : t + 3 / 16777216 < q := by linarith
    have := mul_lt_mul_of_pos_right hc2 hypos
    nlinarith [hx.1, hx.2, hy.1, hy.2]
  have hq2 : -(3 / 16777216) ≤ q - t := by
    by_contra hc
    have hc2 : q < t - 3 / 16777216 := by linarith
    have := mul_lt_mul_of_pos_right hc2 hypos
    nlinarith [hx.1, hx.2, hy.1, hy.2]
  rw [abs_of_nonneg hq0, abs_le] at hz
  have hz1 : z - t ≤ 5 / 16777216 := by linarith [hz.2]
  have hz2 : -(5 / 16777216) ≤ z - t := by linarith [hz.1]
  by_cases a : z < 0
  · rw [if_pos a]
    refine ⟨?_, le_refl _, by norm_num⟩
    rw [abs_le]
    constructor <;> linarith
  · rw [if_neg a]
    by_cases b : 1 < z
    · rw [if_pos b]
      refine ⟨?_, by norm_num, le_refl _⟩
      rw [abs_le]
      constructor <;> linarith
    · rw [if_neg b]
      refine ⟨?_, not_lt.mp a, not_lt.mp b⟩
      rw [abs_le]
      constructor <;> linarith

namespace F32

/-- The rounding of a positive quotient brackets it: the exponent is that of
the quotient and the mantissa has 24 bits. -/
theorem roundPos_bracket (a b : Nat) (ha : 0 < a) (hb : 0 < b) :
    ∃ e : Int, (roundPos a b).expo = e - 23 ∧ (2 : ℚ) ^ e ≤ (a : ℚ) / b ∧
      (a : ℚ) / b < (2 : ℚ) ^ (e + 1) ∧
      |((roundPos a b).mant : ℚ) - (a : ℚ) / b * (2 : ℚ) ^ (23 - e)| ≤ 1 / 2 ∧
      8388608 ≤ (roundPos a b).mant ∧ (roundPos a b).mant ≤ 16777216 := by
  obtain ⟨e, h1, h2, h3⟩ := roundPos_spec a b ha hb
  have hA : (0 : ℚ) < a := by exact_mod_cast ha
  have hB : (0 : ℚ) < b := by exact_mod_cast hb
  -- the exponent chosen by `roundPos`
  have hup : (a : ℚ) / b < (2 : ℚ) ^ (e + 1) := by
    obtain ⟨a1, a2⟩ := ilog2_self a ha
    obtain ⟨b1, b2⟩ := ilog2_self b hb
    have he : (roundPos a b).expo
        = (if b * 2 ^ ((ilog2 a a : Int) - (ilog2 b b : Int)).toNat
              ≤ a * 2 ^ (-((ilog2 a a : Int) - (ilog2 b b : Int))).toNat
            then ((ilog2 a a : Int) - (ilog2 b b : Int))
            else ((ilog2 a a : Int) - (ilog2 b b : Int)) - 1) - 23 := rfl
    rw [h1] at he
    generalize hk : ((ilog2 a a : Int) - (ilog2 b b : Int)) = k at he
    rw [div_lt_iff₀ hB]
    by_cases ht : b * 2 ^ k.toNat ≤ a * 2 ^ (-k).toNat
    · rw [if_pos ht] at he
      have : e = k := by omega
      subst this
      have e1 : (2 : ℚ) ^ (e + 1) = (2 : ℚ) ^ (ilog2 a a + 1) / (2 : ℚ) ^ (ilog2 b b) := by
        rw [← hk, show ((ilog2 a a : Int) - (ilog2 b b : Int) + 1)
          = ((ilog2 a a + 1 : Nat) : Int) - ((ilog2 b b : Nat) : Int) by push_cast; ring]
        rw [zpow_sub₀ (by norm_num), zpow_natCast, zpow_natCast]
      rw [e1, div_mul_eq_mul_div, lt_div_iff₀ (by positivity)]
      have a2q : (a : ℚ) < (2 : ℚ) ^ (ilog2 a a + 1) := by exact_mod_cast a2
      have b1q : (2 : ℚ) ^ (ilog2 b b) ≤ (b : ℚ) := by exact_mod_cast b1
      calc (a : ℚ) * (2 : ℚ) ^ (ilog2 b b) ≤ a * b := by gcongr
        _ < (2 : ℚ) ^ (ilog2 a a + 1) * b := by gcongr
    · rw [if_neg ht] at he
      have : e = k - 1 := by omega
      subst this
      have ht2 : (a : ℚ) * 2 ^ (-k).toNat < (b : ℚ) * 2 ^ k.toNat := by
        exact_mod_cast not_le.mp ht
      rw [show k - 1 + 1 = k by ring, two_zpow_split k, div_mul_eq_mul_div,
        lt_div_iff₀ (by positivity)]
      linarith
  refine ⟨e, h1, h2, hup, h3, ?_, ?_⟩
  · have hs : (2 : ℚ) ^ (23 : Int) ≤ (a : ℚ) / b * (2 : ℚ) ^ (23 - e) := by
      have : (2 : ℚ) ^ (23 : Int) = (2 : ℚ) ^ e * (2 : ℚ) ^ (23 - e) := by
        rw [← zpow_add₀ (by norm_num)]; congr 1; ring
      rw [this]
      gcongr
    have h23 : (2 : ℚ) ^ (23 : Int) = 8388608 := by norm_num
    rw [h23] at hs
    rw [abs_le] at h3
    have : (8388608 : ℚ) - 1 / 2 ≤ ((roundPos a b).mant : ℚ) := by linarith [h3.1]
    have h4 : ((8388607 : Int) : ℚ) < ((roundPos a b).mant : ℚ) := by push_cast; linarith
    have := Int.cast_lt.mp h4
    omega
  · have hs : (a : ℚ) / b * (2 : ℚ) ^ (23 - e) < (2 : ℚ) ^ (24 : Int) := by
      have : (2 : ℚ) ^ (24 : Int) = (2 : ℚ) ^ (e + 1) * (2 : ℚ) ^ (23 - e) := by
        rw [← zpow_add₀ (by norm_num)]; congr 1; ring
      rw [this]
      gcongr
    have h24 : (2 : ℚ) ^ (24 : Int) = 16777216 := by norm_num
    rw [h24] at hs
    rw [abs_le] at h3
    have h4 : ((roundPos a b).mant : ℚ) < ((16777217 : Int) : ℚ) := by push_cast; linarith [h3.2]
    have := Int.cast_lt.mp h4
    omega


theorem ofInt_pos (x : Nat) (hx : 0 < x) : ofInt (x : Int) = roundPos x 1 := by
  unfold ofInt round
  rw [if_neg (by rintro (h | h) <;> omega), if_neg (by omega), one_mul, Int.natAbs_ofNat]

/-- The conversion of a natural number to `float` is monotone. -/
theorem ofInt_mono (T x : Nat) (hT : 0 < T) (hx : T ≤ x) :
    val (ofInt (T : Int)) ≤ val (ofInt (x : Int)) := by
  have hx0 : 0 < x := by omega
  rw [ofInt_pos T hT, ofInt_pos x hx0]
  obtain ⟨e, a1, a2, a3, a4, a5, a6⟩ := roundPos_bracket T 1 hT (by decide)
  obtain ⟨f, b1, b2, b3, b4, b5, b6⟩ := roundPos_bracket x 1 hx0 (by decide)
  rw [val_eq, val_eq, a1, b1]
  simp only [Nat.cast_one, div_one] at a2 a3 a4 b2 b3 b4
  have hTx : (T : ℚ) ≤ (x : ℚ) := by exact_mod_cast hx
  have hef : e ≤ f := by
    by_contra hc
    have h1 : (2 : ℚ) ^ (f + 1) ≤ (2 : ℚ) ^ e := zpow_le_zpow_right₀ (by norm_num) (by omega)
    linarith
  have m5 : (8388608 : ℚ) ≤ ((roundPos x 1).mant : ℚ) := by exact_mod_cast b5
  have m6 : ((roundPos T 1).mant : ℚ) ≤ 16777216 := by exact_mod_cast a6
  rcases lt_or_eq_of_le hef with hlt | heq
  · have h1 : (2 : ℚ) ^ (e + 1) ≤ (2 : ℚ) ^ f := zpow_le_zpow_right₀ (by norm_num) (by omega)
    have e1 : (2 : ℚ) ^ (e - 23) = (2 : ℚ) ^ (e + 1) / 16777216 := by
      rw [show e - 23 = e + 1 - 24 by ring, zpow_sub₀ (by norm_num)]
      norm_num
    have e2 : (2 : ℚ) ^ (f - 23) = (2 : ℚ) ^ f / 8388608 := by
      rw [zpow_sub₀ (by norm_num)]
      norm_num
    have p1 : (0 : ℚ) < (2 : ℚ) ^ (e + 1) := by positivity
    have p2 : (0 : ℚ) < (2 : ℚ) ^ f := by positivity
    calc ((roundPos T 1).mant : ℚ) * (2 : ℚ) ^ (e - 23)
        ≤ 16777216 * (2 : ℚ) ^ (e - 23) := by gcongr
      _ = (2 : ℚ) ^ (e + 1) := by rw [e1]; ring
      _ ≤ (2 : ℚ) ^ f := h1
      _ = 8388608 * (2 : ℚ) ^ (f - 23) := by rw [e2]; ring
      _ ≤ ((roundPos x 1).mant : ℚ) * (2 : ℚ) ^ (f - 23) := by gcongr
  · subst heq
    have hpos : (0 : ℚ) < (2 : ℚ) ^ (23 - e) := by positivity
    have hg : (0 : ℚ) < (2 : ℚ) ^ (e - 23) := by positivity
    have hmm : (roundPos T 1).mant ≤ (roundPos x 1).mant := by
      by_contra hc
      have hc2 : (roundPos x 1).mant + 1 ≤ (roundPos T 1).mant := by omega
      have hc3 : ((roundPos x 1).mant : ℚ) + 1 ≤ ((roundPos T 1).mant : ℚ) := by
        exact_mod_cast hc2
      rw [abs_le] at a4 b4
      have t1 : (T : ℚ) * (2 : ℚ) ^ (23 - e) ≤ (x : ℚ) * (2 : ℚ) ^ (23 - e) := by gcongr
      have t2 : (x : ℚ) * (2 : ℚ) ^ (23 - e) ≤ (T : ℚ) * (2 : ℚ) ^ (23 - e) := by
        linarith [a4.1, b4.2]
      have t3 : (x : ℚ) ≤ (T : ℚ) := le_of_mul_le_mul_right t2 hpos
      have t4 : x = T := by
        have : (x : ℚ) = (T : ℚ) := le_antisymm t3 hTx
        exact_mod_cast this
      rw [t4] at hc
      exact hc (le_refl _)
    have : ((roundPos T 1).mant : ℚ) ≤ ((roundPos x 1).mant : ℚ) := by exact_mod_cast hmm
    gcongr

/-- A quotient of at least 1 clamps to the `float` 1. -/
theorem constrain_div_ge (a b : F32) (hb : 0 < val b) (hab : val b ≤ val a) :
    constrain (div a b) (ofInt 0) (ofInt 1) = ⟨8388608, -23⟩ := by
  have ha : 0 < val a := lt_of_lt_of_le hb hab
  have hna := (num_pos_iff a).mpr ha
  have hnb := (num_pos_iff b).mpr hb
  have h1 : ofInt 1 = ⟨8388608, -23⟩ := by decide
  have h0 : val (ofInt 0) = 0 := by
    have := val_ofInt_exact 0 (by norm_num)
    simpa using this
  have h1v : val (ofInt 1) = 1 := by
    have := val_ofInt_exact 1 (by norm_num)
    simpa using this
  -- the quotient as a rounded positive fraction
  have hn : 0 < a.num * (b.den : Int) := Int.mul_pos hna (by exact_mod_cast den_pos b)
  have hd : 0 < a.den * b.num.natAbs := div_den_pos a b hb
  have hq : div a b = roundPos (a.num * (b.den : Int)).natAbs (a.den * b.num.natAbs) := by
    rw [div_eq a b hb]
    unfold round
    rw [if_neg (by rintro (h | h) <;> omega), if_neg (by omega), one_mul]
  obtain ⟨e, c1, c2, c3, c4, c5, c6⟩ :=
    roundPos_bracket (a.num * (b.den : Int)).natAbs (a.den * b.num.natAbs)
      (Int.natAbs_pos.mpr hn.ne') hd
  have hfrac : (((a.num * (b.den : Int)).natAbs : Nat) : ℚ) / ((a.den * b.num.natAbs : Nat) : ℚ)
      = val a / val b := by
    rw [← div_frac a b hb, Nat.cast_natAbs, abs_of_pos hn]
  rw [hfrac] at c2 c3 c4
  have hge : 1 ≤ val a / val b := (one_le_div hb).mpr hab
  have he0 : 0 ≤ e := by
    by_contra hc
    have : (2 : ℚ) ^ (e + 1) ≤ (2 : ℚ) ^ (0 : Int) := zpow_le_zpow_right₀ (by norm_num) (by omega)
    rw [zpow_zero] at this
    linarith
  generalize hr : roundPos (a.num * (b.den : Int)).natAbs (a.den * b.num.natAbs) = q at *
  have hv : val q = (q.mant : ℚ) * (2 : ℚ) ^ (e - 23) := by rw [val_eq, c1]
  have e23 : (2 : ℚ) ^ (e - 23) = (2 : ℚ) ^ e / 8388608 := by
    rw [zpow_sub₀ (by norm_num)]
    norm_num
  have hpe : (1 : ℚ) ≤ (2 : ℚ) ^ e := by
    have := zpow_le_zpow_right₀ (a := (2 : ℚ)) (by norm_num) he0
    rwa [zpow_zero] at this
  have m5 : (8388608 : ℚ) ≤ (q.mant : ℚ) := by exact_mod_cast c5
  have hv1 : 1 ≤ val q := by
    rw [hv, e23, ← mul_div_assoc, le_div_iff₀ (by norm_num)]
    nlinarith
  rw [hq]
  unfold constrain
  have l0 : lt q (ofInt 0) = false := by
    rw [Bool.eq_false_iff, Ne, lt_iff, h0]
    linarith
  rw [l0]
  simp only [Bool.false_eq_true, if_false]
  by_cases hl : lt (ofInt 1) q = true
  · rw [if_pos hl, h1]
  · rw [if_neg hl]
    rw [lt_iff, h1v] at hl
    have hv2 : val q = 1 := le_antisymm (not_lt.mp hl) hv1
    rw [hv, e23] at hv2
    have hm : (q.mant : ℚ) * (2 : ℚ) ^ e = 8388608 := by
      field_simp at hv2
      linarith
    have hm1 : (q.mant : ℚ) = 8388608 := by nlinarith
    have hm2 : q.mant = 8388608 := by exact_mod_cast hm1
    have he1 : (2 : ℚ) ^ e = 1 := by
      rw [hm1] at hm
      linarith
    have he2 : e = 0 := by
      by_contra hc
      have : (2 : ℚ) ^ (1 : Int) ≤ (2 : ℚ) ^ e := zpow_le_zpow_right₀ (by norm_num) (by omega)
      rw [zpow_one] at this
      linarith
    have hx : q.expo = -23 := by rw [c1, he2]; rfl
    cases q with
    | mk m x =>
      simp only at hm2 hx
      rw [hm2, hx]

end F32

/-- Capping the elapsed time at the travel time before the conversion to
`float` does not change the clamped progress: for `T ≤ x` the quotient of the
converted counters is at least 1 and clamps to the `float` 1, which is also
the quotient of `T` by itself. -/
theorem Progress.toFloat_cap (x T : Nat) (hT : 0 < T) :
    F32.constrain (F32.div (F32.ofInt (x : Int)) (F32.ofInt (T : Int))) (F32.ofInt 0)
      (F32.ofInt 1) = Progress.toFloat ⟨min x T, T⟩ := by
  have hTq : (0 : ℚ) < (T : ℚ) := by exact_mod_cast hT
  have hy : 0 < F32.val (F32.ofInt (T : Int)) := by
    have h := F32.val_ofInt_err (T : Int)
    rw [abs_le] at h
    have e : |((T : Int) : ℚ)| = (T : ℚ) := by simp
    rw [e] at h
    have : ((T : Int) : ℚ) = (T : ℚ) := by simp
    rw [this] at h
    linarith [h.1]
  by_cases h : x ≤ T
  · rw [Nat.min_eq_left h]
    rfl
  · rw [Nat.min_eq_right (by omega)]
    unfold Progress.toFloat
    rw [F32.constrain_div_ge _ _ hy (F32.ofInt_mono T x hT (by omega)),
      F32.constrain_div_ge _ _ hy (le_refl _)]

/-- Before the travel time has elapsed the `float` progress is below 1, for
travel times up to `2 ^ 24` ms. -/
theorem Progress.toFloat_lt_one {pn pd : Nat} (h24 : pd ≤ 16777216) (hlt : pn < pd) :
    F32.val (Progress.toFloat ⟨pn, pd⟩) < 1 := by
  have hpd : 0 < pd := by omega
  have hP : (0 : ℚ) < (pd : ℚ) := by exact_mod_cast hpd
  have hN : (0 : ℚ) ≤ (pn : ℚ) := Nat.cast_nonneg _
  have hNP : (pn : ℚ) + 1 ≤ (pd : ℚ) := by exact_mod_cast hlt
  have hP24 : (pd : ℚ) ≤ 16777216 := by exact_mod_cast h24
  have hx : F32.val (F32.ofInt (pn : Int)) = ((pn : Int) : ℚ) :=
    F32.val_ofInt_exact _ (by rw [abs_le]; omega)
  have hy : F32.val (F32.ofInt (pd : Int)) = ((pd : Int) : ℚ) :=
    F32.val_ofInt_exact _ (by rw [abs_le]; omega)
  have hypos : 0 < F32.val (F32.ofInt (pd : Int)) := by rw [hy]; exact_mod_cast hpd
  have hz := F32.val_div_err (F32.ofInt (pn : Int)) (F32.ofInt (pd : Int)) hypos
  rw [hx, hy] at hz
  have ex : ((pn : Int) : ℚ) = (pn : ℚ) := by simp
  have ey : ((pd : Int) : ℚ) = (pd : ℚ) := by simp
  rw [ex, ey, abs_of_nonneg (div_nonneg hN hP.le), abs_le] at hz
  have hq : (pn : ℚ) / pd * (1 + 1 / 16777216) < 1 := by
    rw [div_mul_eq_mul_div, div_lt_one hP]
    nlinarith
  have hcl := F32.val_constrain01 (F32.div (F32.ofInt (pn : Int)) (F32.ofInt (pd : Int)))
  show F32.val (F32.constrain (F32.div (F32.ofInt (pn : Int)) (F32.ofInt (pd : Int)))
      (F32.ofInt 0) (F32.ofInt 1)) < 1
  rw [hcl]
  split_ifs with a b
  · norm_num
  · linarith [hz.2]
  · linarith [hz.2]

/-- The completion test `progress >= 1.0f` on the `float` progress agrees with
the test on the exact fraction, for travel times up to `2 ^ 24` ms. -/
theorem Progress.complete_iff_toFloat {pn pd : Nat} (hpd : 0 < pd) (h24 : pd ≤ 16777216)
    (hle : pn ≤ pd) :
    Progress.complete ⟨pn, pd⟩ = true ↔ F32.lt (Progress.toFloat ⟨pn, pd⟩) (F32.ofInt 1) = false := by
  have h1v : F32.val (F32.ofInt 1) = 1 := by
    have := F32.val_ofInt_exact 1 (by norm_num)
    simpa using this
  rw [Bool.eq_false_iff, Ne, F32.lt_iff, h1v]
  simp only [Progress.complete, Bool.and_eq_true, decide_eq_true_eq]
  constructor
  · rintro ⟨_, h⟩
    have : pn = pd := le_antisymm hle h
    rw [this, Progress.toFloat_full hpd]
    exact lt_irrefl _
  · intro h
    refine ⟨hpd, ?_⟩
    by_contra hc
    exact h (Progress.toFloat_lt_one h24 (by omega))

/-! ## Theorems: cover controller -/

namespace CoverController

theorem movingTo_writeAngle {tgt T start el : Nat} {s : CoverController} (a : Int)
    (h : MovingTo tgt T start el s) : MovingTo tgt T start el (writeAngle a s) := by
  simpa [MovingTo, writeAngle] using h

theorem processCoverMovement_incomplete {tgt T start el now : Nat} {s : CoverController}
    (h : MovingTo tgt T start el s) (hto : sub32 now start < mul32 T 2)
    (hp : add32 (sub32 now start) el < T) :
    processCoverMovement now s = s ∨ ∃ a, processCoverMovement now s = writeAngle a s := by
  obtain ⟨h1, h2, h3, h4, h5, h6⟩ := h
  have hto' : ¬ mul32 T 2 ≤ sub32 now start := by omega
  have hpc : (progressAt now s).complete = false := by
    simp only [Progress.complete, progressAt, h3, h4, h5]
    have : ¬ T ≤ min (add32 (sub32 now start) el) T := by
      rw [Nat.min_def]; split_ifs <;> omega
    simp [this]
  unfold processCoverMovement
  simp only [h1, h3, h4, hto', hpc, true_or, if_true, if_false, Bool.false_eq_true]
  split_ifs <;> first | exact Or.inr ⟨_, rfl⟩ | exact Or.inl rfl

theorem loop_moving_incomplete {tgt T start el now : Nat} {s : CoverController}
    (h : MovingTo tgt T start el s) (hto : sub32 now start < mul32 T 2)
    (hp : add32 (sub32 now start) el < T) : MovingTo tgt T start el (loop now s) := by
  have hm : MovingTo tgt T start el (processCoverMovement now s) := by
    rcases processCoverMovement_incomplete h hto hp with e | ⟨a, e⟩
    · rw [e]; exact h
    · rw [e]; exact movingTo_writeAngle a h
  unfold loop
  simp only [hm.2.2.2.2.2, Bool.false_eq_true, if_false]
  exact hm

theorem completeDetach_currentState (now : Nat) (s : CoverController) :
    (completeDetach now s)._currentState = s._currentState := by
  unfold completeDetach
  split_ifs <;> rfl

theorem loop_currentState (now : Nat) (s : CoverController) :
    (loop now s)._currentState = (processCoverMovement now s)._currentState := by
  unfold loop
  dsimp only
  split_ifs
  · exact completeDetach_currentState _ _
  · rfl

theorem processCoverMovement_complete {tgt T start el now : Nat} {s : CoverController}
    (h : MovingTo tgt T start el s) (hT : 0 < T) (hto : sub32 now start < mul32 T 2)
    (hp : T ≤ add32 (sub32 now start) el) :
    (processCoverMovement now s)._currentState
      = (if tgt = 3 then CoverState.COVER_OPEN else CoverState.COVER_CLOSED) ∧
    (processCoverMovement now s)._elapsedMoveTime = 0 := by
  obtain ⟨h1, h2, h3, h4, h5, h6⟩ := h
  have hto' : ¬ mul32 T 2 ≤ sub32 now start := by omega
  have hpc : (progressAt now s).complete = true := by
    simp only [Progress.complete, progressAt, h3, h4, h5]
    have : T ≤ min (add32 (sub32 now start) el) T := by
      rw [Nat.min_def]; split_ifs <;> omega
    simp [this, hT]
  unfold processCoverMovement
  simp only [h1, h3, h4, hto', hpc, true_or, if_true, if_false]
  constructor
  · simp only [setDetachTimer]
    split_ifs <;> simp_all [writeAngle]
  · rfl

theorem processCoverMovement_timeout {T now : Nat} {s : CoverController}
    (hs : s._currentState = CoverState.COVER_MOVING ∨ s._currentState = CoverState.COVER_UNKNOWN)
    (h3 : s._timeToMove = T) (hto : mul32 T 2 ≤ sub32 now s._startServoTimer) :
    (processCoverMovement now s)._currentState = CoverState.COVER_ERROR := by
  unfold processCoverMovement
  simp only [hs, h3, hto, if_true]

theorem haltCover_movingTo {tgt T start el : Nat} {s : CoverController} (now : Nat)
    (h : MovingTo tgt T start el s) :
    HaltedTo tgt T (add32 el (sub32 now start)) (haltCover now s) := by
  obtain ⟨h1, h2, h3, h4, h5, h6⟩ := h
  simp [HaltedTo, haltCover, setDetachTimer, h1, h2, h3, h4, h5]

theorem processCoverMovement_not_moving {s : CoverController} (now : Nat)
    (h : s._currentState ≠ CoverState.COVER_MOVING) :
    processCoverMovement now s = s ∨
    processCoverMovement now s =
      { s with _currentState := CoverState.COVER_ERROR,
               log := ServoEvent.saveCoverState CoverState.COVER_ERROR.toUInt8 :: s.log } := by
  unfold processCoverMovement
  by_cases hA : s._currentState = CoverState.COVER_MOVING ∨
      s._currentState = CoverState.COVER_UNKNOWN
  · rw [if_pos hA]
    by_cases hB : mul32 s._timeToMove 2 ≤ sub32 now s._startServoTimer
    · rw [if_pos hB]; exact Or.inr rfl
    · rw [if_neg hB, if_neg h]; exact Or.inl rfl
  · rw [if_neg hA]; exact Or.inl rfl

theorem loop_haltedTo {tgt T el : Nat} {s : CoverController} (now : Nat)
    (h : HaltedTo tgt T el s) : HaltedTo tgt T el (loop now s) := by
  have hnm : s._currentState ≠ CoverState.COVER_MOVING := by
    rcases h.1 with h1 | h1 <;> simp [h1]
  have hp : HaltedTo tgt T el (processCoverMovement now s) := by
    rcases processCoverMovement_not_moving now hnm with e | e
    · rw [e]; exact h
    · rw [e]; exact ⟨Or.inr rfl, h.2⟩
  unfold loop
  dsimp only
  split_ifs
  · unfold completeDetach
    split_ifs
    · exact hp
    · exact hp
  · exact hp

theorem ticks_haltedTo {tgt T el : Nat} (ts : List Nat) {s : CoverController}
    (h : HaltedTo tgt T el s) : HaltedTo tgt T el (ticks ts s) := by
  induction ts generalizing s with
  | nil => exact h
  | cons t ts ih => exact ih (loop_haltedTo t h)

theorem setMovement_resume {tgt T el : Nat} {s : CoverController} (now : Nat)
    (h2 : s._halt = true) (h3 : s._previousMoveCoverTo = tgt) (h4 : s._timeToMove = T)
    (h5 : s._elapsedMoveTime = el) :
    MovingTo s._moveCoverTo T now (if s._moveCoverTo = tgt then el else sub32 T el)
      (setMovement now s) := by
  unfold setMovement
  by_cases hc : s._moveCoverTo = tgt
  · simp [MovingTo, writeAngle, attachServo, h2, h3, h4, h5, hc]
  · simp [MovingTo, writeAngle, attachServo, h2, h3, h4, h5, hc]

theorem setMovement_fresh {s : CoverController} (now : Nat) (h2 : s._halt = false) :
    MovingTo s._moveCoverTo s._timeToMove now s._elapsedMoveTime (setMovement now s) := by
  unfold setMovement
  simp [MovingTo, writeAngle, attachServo, h2]

theorem openCover_haltedTo {tgt T el : Nat} {s : CoverController} (now : Nat)
    (h : HaltedTo tgt T el s) :
    MovingTo 3 T now (if 3 = tgt then el else sub32 T el) (openCover now s) := by
  obtain ⟨h1, h2, h3, h4, h5⟩ := h
  have hg : s._currentState ≠ CoverState.COVER_MOVING ∧ s._currentState ≠ CoverState.COVER_OPEN
      ∧ s._currentState ≠ CoverState.COVER_NOT_PRESENT := by
    rcases h1 with h1 | h1 <;> simp [h1]
  have hc : ¬ (s._currentState = CoverState.COVER_CLOSED ∧ s._onOpenStart = true) := by
    rcases h1 with h1 | h1 <;> simp [h1]
  unfold openCover
  rw [if_pos hg]
  simp only [if_neg hc]
  exact setMovement_resume (s := { s with _moveCoverTo := 3 }) now h2 h3 h4 h5

theorem closeCover_haltedTo {tgt T el : Nat} {s : CoverController} (now : Nat)
    (h : HaltedTo tgt T el s) :
    MovingTo 1 T now (if 1 = tgt then el else sub32 T el) (closeCover now s) := by
  obtain ⟨h1, h2, h3, h4, h5⟩ := h
  have hg : s._currentState ≠ CoverState.COVER_MOVING ∧ s._currentState ≠ CoverState.COVER_CLOSED
      ∧ s._currentState ≠ CoverState.COVER_NOT_PRESENT := by
    rcases h1 with h1 | h1 <;> simp [h1]
  unfold closeCover
  rw [if_pos hg]
  exact setMovement_resume (s := { s with _moveCoverTo := 1 }) now h2 h3 h4 h5

theorem openCover_closed {s : CoverController} (now : Nat)
    (h1 : s._currentState = CoverState.COVER_CLOSED) (h2 : s._halt = false) :
    MovingTo 3 s._timeToMove now s._elapsedMoveTime (openCover now s) := by
  have hg : s._currentState ≠ CoverState.COVER_MOVING ∧ s._currentState ≠ CoverState.COVER_OPEN
      ∧ s._currentState ≠ CoverState.COVER_NOT_PRESENT := by simp [h1]
  unfold openCover
  rw [if_pos hg]
  by_cases hc : s._currentState = CoverState.COVER_CLOSED ∧ s._onOpenStart = true
  · simp only [if_pos hc]
    exact setMovement_fresh
      (s := { s with log := ServoEvent.onOpenStart :: s.log, _moveCoverTo := 3 }) now h2
  · simp only [if_neg hc]
    exact setMovement_fresh (s := { s with _moveCoverTo := 3 }) now h2

/-- What one pass of `processCoverMovement` can do to the state, the halt
flag and the carried elapsed time. -/
theorem processCoverMovement_cases (now : Nat) (s : CoverController) :
    (processCoverMovement now s)._halt = s._halt ∧
    (((processCoverMovement now s)._currentState = s._currentState ∧
        (processCoverMovement now s)._elapsedMoveTime = s._elapsedMoveTime) ∨
      ((processCoverMovement now s)._currentState = CoverState.COVER_ERROR ∧
        s._currentState ≠ CoverState.COVER_CLOSED ∧ s._currentState ≠ CoverState.COVER_OPEN) ∨
      (s._currentState = CoverState.COVER_MOVING ∧
        (processCoverMovement now s)._elapsedMoveTime = 0)) := by
  unfold processCoverMovement
  by_cases hA : s._currentState = CoverState.COVER_MOVING ∨
      s._currentState = CoverState.COVER_UNKNOWN
  · rw [if_pos hA]
    by_cases hB : mul32 s._timeToMove 2 ≤ sub32 now s._startServoTimer
    · rw [if_pos hB]
      refine ⟨rfl, Or.inr (Or.inl ⟨rfl, ?_, ?_⟩)⟩ <;> rcases hA with hA | hA <;> simp [hA]
    · rw [if_neg hB]
      by_cases hM : s._currentState = CoverState.COVER_MOVING
      · rw [if_pos hM]
        by_cases hC : (progressAt now s).complete = true
        · simp only [hC, if_true, setDetachTimer]
          refine ⟨?_, Or.inr (Or.inr ⟨hM, trivial⟩)⟩
          split_ifs <;> simp [writeAngle]
        · simp only [hC, Bool.false_eq_true, if_false]
          split_ifs <;> simp [writeAngle]
      · rw [if_neg hM]
        exact ⟨rfl, Or.inl ⟨rfl, rfl⟩⟩
  · rw [if_neg hA]
    exact ⟨rfl, Or.inl ⟨rfl, rfl⟩⟩

theorem completeDetach_fields (now : Nat) (s : CoverController) :
    (completeDetach now s)._currentState = s._currentState ∧
    (completeDetach now s)._halt = s._halt ∧
    (completeDetach now s)._elapsedMoveTime = s._elapsedMoveTime := by
  unfold completeDetach
  split_ifs <;> exact ⟨rfl, rfl, rfl⟩

theorem loop_fields (now : Nat) (s : CoverController) :
    (loop now s)._currentState = (processCoverMovement now s)._currentState ∧
    (loop now s)._halt = (processCoverMovement now s)._halt ∧
    (loop now s)._elapsedMoveTime = (processCoverMovement now s)._elapsedMoveTime := by
  unfold loop
  dsimp only
  split_ifs
  · exact completeDetach_fields _ _
  · exact ⟨rfl, rfl, rfl⟩

theorem restInv_loop (now : Nat) {s : CoverController} (h : RestInv s) :
    RestInv (loop now s) := by
  obtain ⟨l1, l2, l3⟩ := loop_fields now s
  obtain ⟨p1, p2⟩ := processCoverMovement_cases now s
  obtain ⟨i1, i2⟩ := h
  unfold RestInv
  rw [l1, l2, l3, p1]
  rcases p2 with ⟨a, b⟩ | ⟨a, b, c⟩ | ⟨a, b⟩
  · rw [a, b]; exact ⟨i1, i2⟩
  · rw [a]
    exact ⟨fun _ => Or.inr rfl, fun hc => by rcases hc with hc | hc <;> simp at hc⟩
  · refine ⟨fun hh => ?_, fun _ => b⟩
    rcases i1 hh with hc | hc <;> rw [hc] at a <;> simp at a

theorem setMovement_fields (now : Nat) (s : CoverController) :
    (setMovement now s)._currentState = CoverState.COVER_MOVING ∧
    (setMovement now s)._halt = false := ⟨rfl, rfl⟩

theorem setMovement_moveCoverTo (now : Nat) (s : CoverController) :
    (setMovement now s)._moveCoverTo = s._moveCoverTo := by
  unfold setMovement
  dsimp only
  split_ifs <;> rfl

theorem restInv_setMovement (now : Nat) (s : CoverController) : RestInv (setMovement now s) := by
  obtain ⟨a, b⟩ := setMovement_fields now s
  unfold RestInv
  rw [a, b]
  simp

theorem restInv_call (c : CoverCall) {s : CoverController} (h : RestInv s) :
    RestInv (c.run s) := by
  cases c with
  | openCover now =>
    show RestInv (openCover now s)
    unfold openCover
    split_ifs
    · exact restInv_setMovement _ _
    · exact restInv_setMovement _ _
    · exact h
  | closeCover now =>
    show RestInv (closeCover now s)
    unfold closeCover
    split_ifs
    · exact restInv_setMovement _ _
    · exact h
  | haltCover now =>
    show RestInv (haltCover now s)
    unfold haltCover
    split_ifs
    · simp [RestInv, setDetachTimer]
    · exact h
  | nudgeServo direction now =>
    show RestInv (nudgeServo direction now s).1
    unfold nudgeServo
    split_ifs
    · exact h
    · simp [RestInv, setDetachTimer, writeAngle, attachServo]
  | loop now => exact restInv_loop now h
  | setCurrentAsOpen => exact h
  | setCurrentAsClose => exact h
  | setServoOpenAngle angle => exact h
  | setServoCloseAngle angle => exact h
  | setServoMinPulse pw => exact h
  | setServoMaxPulse pw => exact h
  | setMoveTime ms => exact h
  | setRangeMin angle => exact h
  | setRangeMax angle => exact h
  | setOnCloseComplete registered => exact h
  | setOnOpenStart registered => exact h

theorem restInv_begin (st : Stored) (now : Nat) : RestInv (begin st now {}) := by
  unfold begin
  dsimp only
  split_ifs <;> simp [RestInv, setDetachTimer, writeAngle, attachServo]

theorem restInv_of_reachable {s : CoverController} (h : CoverReachable s) : RestInv s := by
  induction h with
  | begin st now => exact restInv_begin st now
  | call c s _ ih => exact restInv_call c ih

theorem ticks_movingTo {tgt T start el : Nat} (ts : List Nat) {s : CoverController}
    (hts : ∀ t ∈ ts, sub32 t start < mul32 T 2 ∧ add32 (sub32 t start) el < T)
    (h : MovingTo tgt T start el s) : MovingTo tgt T start el (ticks ts s) := by
  induction ts generalizing s with
  | nil => exact h
  | cons t ts ih =>
    have ht := hts t (List.mem_cons_self t ts)
    exact ih (fun u hu => hts u (List.mem_cons_of_mem t hu))
      (loop_moving_incomplete h ht.1 ht.2)

theorem loop_moving_complete {tgt T start el : Nat} (now : Nat) {s : CoverController}
    (h : MovingTo tgt T start el s) (hT : 0 < T) (hto : sub32 now start < mul32 T 2)
    (hp : T ≤ add32 (sub32 now start) el) :
    (loop now s)._currentState
      = (if tgt = 3 then CoverState.COVER_OPEN else CoverState.COVER_CLOSED) := by
  rw [loop_currentState]
  exact (processCoverMovement_complete h hT hto hp).1

/-- The session after `openCover` at `t0` from a reachable Closed state and
passes that do not complete it. -/
theorem open_then_ticks {T : Nat} (t0 bound : Nat) {s0 : CoverController} (hreach : CoverReachable s0)
    (hclosed : s0._currentState = CoverState.COVER_CLOSED) (hdur : s0._timeToMove = T)
    (hT24 : T ≤ 16777216) (pre : List Nat) (hpre : ∀ d ∈ pre, d ≤ bound ∧ d < T) :
    MovingTo 3 T t0 0 (ticks (pre.map (after32 t0)) (openCover t0 s0)) := by
  obtain ⟨i1, i2⟩ := restInv_of_reachable hreach
  have hhalt : s0._halt = false := by
    cases hb : s0._halt with
    | false => rfl
    | true => rcases i1 hb with hc | hc <;> rw [hc] at hclosed <;> simp at hclosed
  have hel : s0._elapsedMoveTime = 0 := i2 (Or.inl hclosed)
  have h1 := openCover_closed t0 hclosed hhalt
  rw [hdur, hel] at h1
  refine ticks_movingTo _ ?_ h1
  intro t ht
  obtain ⟨d, hd, rfl⟩ := List.mem_map.1 ht
  have hdT := (hpre d hd).2
  rw [sub32_after32_zero]
  unfold mul32 add32
  omega

/-- C1 (as amended): reversal symmetry under the linear profile.  For a travel
duration `0 < T ≤ 2^24` ms and `0 < h ≤ T`, starting from a reachable Closed
state: after `openCover` at `t0`, `haltCover` at `t0 + h` while still Moving and
`closeCover` at once, every scheduler pass at `t0 + d` with `h ≤ d < 2h` leaves
the cover Moving, and the first pass with `2h ≤ d` sets it to Closed, provided
that pass comes before the motion timeout (`d < h + 2T`). -/
theorem reversal_symmetry (T h t0 : Nat) (s0 : CoverController)
    (hreach : CoverReachable s0) (hclosed : s0._currentState = CoverState.COVER_CLOSED)
    (hdur : s0._timeToMove = T) (hT : 0 < T) (hT24 : T ≤ 16777216) (hh : 0 < h) (hhT : h ≤ T)
    (pre : List Nat) (hpre : ∀ d ∈ pre, d ≤ h ∧ d < T)
    (mid : List Nat) (hmid : ∀ d ∈ mid, h ≤ d ∧ d < 2 * h) (d : Nat)
    (hd : 2 * h ≤ d) (hdto : d < h + 2 * T) :
    (ticks (pre.map (after32 t0)) (openCover t0 s0))._currentState = CoverState.COVER_MOVING ∧
    (reversalRun t0 h pre mid s0)._currentState = CoverState.COVER_MOVING ∧
    (loop (after32 t0 d) (reversalRun t0 h pre mid s0))._currentState
      = CoverState.COVER_CLOSED := by
  have h1 := open_then_ticks t0 h hreach hclosed hdur hT24 pre hpre
  have h2 := haltCover_movingTo (after32 t0 h) h1
  have h3 := closeCover_haltedTo (after32 t0 h) h2
  have e1 : add32 0 (sub32 (after32 t0 h) t0) = h := by
    rw [sub32_after32_zero]; unfold add32; omega
  rw [e1] at h3
  have e2 : sub32 T h = T - h := by unfold sub32; omega
  rw [if_neg (by decide), e2] at h3
  have h4 : MovingTo 1 T (after32 t0 h) (T - h) (reversalRun t0 h pre mid s0) := by
    refine ticks_movingTo _ ?_ h3
    intro t ht
    obtain ⟨d, hd, rfl⟩ := List.mem_map.1 ht
    obtain ⟨hd1, hd2⟩ := hmid d hd
    rw [sub32_after32_le t0 h d hd1]
    unfold mul32 add32
    omega
  refine ⟨h1.1, h4.1, ?_⟩
  have h5 := loop_moving_complete (after32 t0 d) h4 hT
    (by rw [sub32_after32_le t0 h d (by omega)]; unfold mul32; omega)
    (by rw [sub32_after32_le t0 h d (by omega)]; unfold add32; omega)
  rw [h5, if_neg (by decide)]

/-- Witness for `reversal_symmetry`: `T = 5000`, `h = 2500`, one pass before the
halt and two after the reversal; Closed at exactly `t0 + 5000`. -/
theorem reversal_symmetry_witness :
    (loop 5000 (reversalRun 0 2500 [1000] [3000, 4999] (begin (defaultStored 1) 0 {})))._currentState
      = CoverState.COVER_CLOSED :=
  (reversal_symmetry 5000 2500 0 (begin (defaultStored 1) 0 {}) (CoverReachable.begin _ _)
    (by decide) (by decide) (by decide) (by decide) (by decide) (by decide)
    [1000] (by decide) [3000, 4999] (by decide) 5000 (by decide) (by decide)).2.2

/-- C1 fails as stated: with `T = 5000`, `h = 2500`, `t0 = 1000`, when the
first pass with `now - t0 ≥ 2h` comes at `t0 + 12500` the motion timeout fires
and the cover is in Error, not Closed; and with `T = 2^31` the doubled
duration wraps to 0, so a pass at `now - t0 = 1 < 2h` (`h = 1`) already leaves
Moving for Error. -/
theorem reversal_symmetry_counterexample :
    (loop 13500 (reversalRun 1000 2500 [] [] (begin (defaultStored 1) 0 {})))._currentState
      = CoverState.COVER_ERROR ∧
    (loop 1001 (reversalRun 1000 1 [] []
        (begin { defaultStored 1 with moveTime := 2147483648 } 0 {})))._currentState
      = CoverState.COVER_ERROR := by
  decide

/-- C10 (as amended): same-direction resume preserves the total travel time.
For a travel duration `0 < T ≤ 2^24` ms and `0 < h < T`, starting from a
reachable Closed state: after `openCover` at `t0`, `haltCover` at `t0 + h`, any
scheduler passes while stopped and `openCover` again at any `t1`, the carried
elapsed time is still `h`, every pass at `t1 + e` with `e < T - h` leaves the
cover Moving, and the first pass with `T - h ≤ e` sets it to Open, provided that
pass comes before the motion timeout (`e < 2T`). -/
theorem same_direction_resume (T h t0 t1 : Nat) (s0 : CoverController)
    (hreach : CoverReachable s0) (hclosed : s0._currentState = CoverState.COVER_CLOSED)
    (hdur : s0._timeToMove = T) (hT : 0 < T) (hT24 : T ≤ 16777216) (hh : 0 < h) (hhT : h < T)
    (pre : List Nat) (hpre : ∀ d ∈ pre, d ≤ h)
    (idle : List Nat)
    (mid : List Nat) (hmid : ∀ e ∈ mid, e < T - h) (e : Nat)
    (he : T - h ≤ e) (heto : e < 2 * T) :
    (resumeStart t0 h t1 pre idle s0)._elapsedMoveTime = h ∧
    (resumeRun t0 h t1 pre idle mid s0)._currentState = CoverState.COVER_MOVING ∧
    (loop (after32 t1 e) (resumeRun t0 h t1 pre idle mid s0))._currentState
      = CoverState.COVER_OPEN := by
  have h1 := open_then_ticks t0 h hreach hclosed hdur hT24 pre
    (fun d hd => ⟨hpre d hd, by have := hpre d hd; omega⟩)
  have h2 := ticks_haltedTo idle (haltCover_movingTo (after32 t0 h) h1)
  have h3 := openCover_haltedTo t1 h2
  have e1 : add32 0 (sub32 (after32 t0 h) t0) = h := by
    rw [sub32_after32_zero]; unfold add32; omega
  rw [e1, if_pos rfl] at h3
  have h4 : MovingTo 3 T t1 h (resumeRun t0 h t1 pre idle mid s0) := by
    refine ticks_movingTo _ ?_ h3
    intro t ht
    obtain ⟨d, hd, rfl⟩ := List.mem_map.1 ht
    have hd1 := hmid d hd
    rw [sub32_after32_zero]
    unfold mul32 add32
    omega
  refine ⟨h3.2.2.2.2.1, h4.1, ?_⟩
  have h5 := loop_moving_complete (after32 t1 e) h4 hT
    (by rw [sub32_after32_zero]; unfold mul32; omega)
    (by rw [sub32_after32_zero]; unfold add32; omega)
  rw [h5, if_pos rfl]

/-- Witness for `same_direction_resume`: `T = 5000`, halted after 2000 ms,
resumed at 60000 after the stopped cover had already timed out into Error;
Open exactly 3000 ms after the resume. -/
theorem same_direction_resume_witness :
    (resumeStart 0 2000 60000 [1000] [2500, 20000] (begin (defaultStored 1) 0 {}))._elapsedMoveTime
      = 2000 ∧
    (loop 63000 (resumeRun 0 2000 60000 [1000] [2500, 20000] [100, 2999]
      (begin (defaultStored 1) 0 {})))._currentState = CoverState.COVER_OPEN :=
  have w := same_direction_resume 5000 2000 0 60000 (begin (defaultStored 1) 0 {})
    (CoverReachable.begin _ _)
    (by decide) (by decide) (by decide) (by decide) (by decide) (by decide)
    [1000] (by decide) [2500, 20000] [100, 2999] (by decide) 3000 (by decide) (by decide)
  ⟨w.1, w.2.2⟩

/-- C10 fails as stated: with `T = 5000`, `h = 2000`, resumed at `t1 = 10000`,
when the first pass with `now - t1 ≥ T - h` comes at `t1 + 10000` the motion
timeout fires and the cover is in Error, not Open; and with `T = 2^31`
(`h = 1`) the doubled duration wraps to 0 and the first pass after the resume
already gives Error. -/
theorem same_direction_resume_counterexample :
    (loop 20000 (resumeRun 1000 2000 10000 [] [] [] (begin (defaultStored 1) 0 {})))._currentState
      = CoverState.COVER_ERROR ∧
    (loop 2147493647 (resumeRun 1000 1 10000 [] [] []
        (begin { defaultStored 1 with moveTime := 2147483648 } 0 {})))._currentState
      = CoverState.COVER_ERROR := by
  decide

/-- C9 (as amended): `openCover` leaves the whole controller state unchanged
when the cover is Open, Moving (toward either endpoint) or NotPresent; in every
other case (Closed, Unknown, Error) it sets the target to open (3) and the
state to Moving.  `closeCover` is the mirror image with Closed and target 1. -/
theorem openCover_closeCover_contract (now : Nat) (s : CoverController) :
    ((s._currentState = CoverState.COVER_OPEN ∨ s._currentState = CoverState.COVER_MOVING ∨
        s._currentState = CoverState.COVER_NOT_PRESENT) → openCover now s = s) ∧
    ((s._currentState = CoverState.COVER_CLOSED ∨ s._currentState = CoverState.COVER_UNKNOWN ∨
        s._currentState = CoverState.COVER_ERROR) →
      (openCover now s)._moveCoverTo = 3 ∧
      (openCover now s)._currentState = CoverState.COVER_MOVING) ∧
    ((s._currentState = CoverState.COVER_CLOSED ∨ s._currentState = CoverState.COVER_MOVING ∨
        s._currentState = CoverState.COVER_NOT_PRESENT) → closeCover now s = s) ∧
    ((s._currentState = CoverState.COVER_OPEN ∨ s._currentState = CoverState.COVER_UNKNOWN ∨
        s._currentState = CoverState.COVER_ERROR) →
      (closeCover now s)._moveCoverTo = 1 ∧
      (closeCover now s)._currentState = CoverState.COVER_MOVING) := by
  refine ⟨?_, ?_, ?_, ?_⟩
  · intro h
    unfold openCover
    rw [if_neg]
    rcases h with h | h | h <;> simp [h]
  · intro h
    have hg : s._currentState ≠ CoverState.COVER_MOVING ∧
        s._currentState ≠ CoverState.COVER_OPEN ∧
        s._currentState ≠ CoverState.COVER_NOT_PRESENT := by
      rcases h with h | h | h <;> simp [h]
    unfold openCover
    rw [if_pos hg]
    dsimp only
    split_ifs <;> exact ⟨setMovement_moveCoverTo _ _, rfl⟩
  · intro h
    unfold closeCover
    rw [if_neg]
    rcases h with h | h | h <;> simp [h]
  · intro h
    have hg : s._currentState ≠ CoverState.COVER_MOVING ∧
        s._currentState ≠ CoverState.COVER_CLOSED ∧
        s._currentState ≠ CoverState.COVER_NOT_PRESENT := by
      rcases h with h | h | h <;> simp [h]
    unfold closeCover
    rw [if_pos hg]
    exact ⟨setMovement_moveCoverTo _ _, rfl⟩

/-- Witness for `openCover_closeCover_contract`: from the Closed state after
`begin()`, `closeCover` changes nothing and `openCover` starts moving to open;
then, while Moving, `openCover` changes nothing. -/
theorem openCover_closeCover_contract_witness :
    closeCover 7 (begin (defaultStored 1) 0 {}) = begin (defaultStored 1) 0 {} ∧
    (openCover 7 (begin (defaultStored 1) 0 {}))._moveCoverTo = 3 ∧
    (openCover 7 (begin (defaultStored 1) 0 {}))._currentState = CoverState.COVER_MOVING ∧
    openCover 9 (openCover 7 (begin (defaultStored 1) 0 {}))
      = openCover 7 (begin (defaultStored 1) 0 {}) :=
  ⟨(openCover_closeCover_contract 7 (begin (defaultStored 1) 0 {})).2.2.1 (by decide),
   ((openCover_closeCover_contract 7 (begin (defaultStored 1) 0 {})).2.1 (by decide)).1,
   ((openCover_closeCover_contract 7 (begin (defaultStored 1) 0 {})).2.1 (by decide)).2,
   (openCover_closeCover_contract 9 (openCover 7 (begin (defaultStored 1) 0 {}))).1 (by decide)⟩

/-- C9 fails as stated: a cover Moving toward the closed endpoint (target 1)
ignores `openCover`: the target stays 1, and a cover Moving toward the open
endpoint ignores `closeCover`. -/
theorem openCover_closeCover_counterexample :
    (closeCover 100 (begin (defaultStored 3) 0 {}))._currentState = CoverState.COVER_MOVING ∧
    (closeCover 100 (begin (defaultStored 3) 0 {}))._moveCoverTo = 1 ∧
    (openCover 200 (closeCover 100 (begin (defaultStored 3) 0 {})))._moveCoverTo = 1 ∧
    (openCover 100 (begin (defaultStored 1) 0 {}))._currentState = CoverState.COVER_MOVING ∧
    (openCover 100 (begin (defaultStored 1) 0 {}))._moveCoverTo = 3 ∧
    (closeCover 200 (openCover 100 (begin (defaultStored 1) 0 {})))._moveCoverTo = 3 := by
  decide

theorem processCoverMovement_idle {s : CoverController} (now : Nat)
    (h1 : s._currentState ≠ CoverState.COVER_MOVING)
    (h2 : s._currentState ≠ CoverState.COVER_UNKNOWN) :
    processCoverMovement now s = s := by
  unfold processCoverMovement
  rw [if_neg]
  rintro (h | h)
  · exact h1 h
  · exact h2 h

theorem openCover_accepted {s : CoverController} (now : Nat)
    (hg : s._currentState ≠ CoverState.COVER_MOVING ∧ s._currentState ≠ CoverState.COVER_OPEN ∧
      s._currentState ≠ CoverState.COVER_NOT_PRESENT) :
    (openCover now s)._currentState = CoverState.COVER_MOVING := by
  unfold openCover
  rw [if_pos hg]
  rfl

theorem closeCover_accepted {s : CoverController} (now : Nat)
    (hg : s._currentState ≠ CoverState.COVER_MOVING ∧ s._currentState ≠ CoverState.COVER_CLOSED ∧
      s._currentState ≠ CoverState.COVER_NOT_PRESENT) :
    (closeCover now s)._currentState = CoverState.COVER_MOVING := by
  unfold closeCover
  rw [if_pos hg]
  rfl

/-- C12 (as amended): once the cover state is Error it remains Error under
every `loop` pass, `haltCover` (which changes nothing at all),
`setCurrentAsOpen` and `setCurrentAsClose`; `nudgeServo` changes it to Unknown,
and `openCover` or `closeCover` to Moving. -/
theorem error_terminal (s : CoverController) (h : s._currentState = CoverState.COVER_ERROR)
    (now : Nat) (direction : Int) :
    (loop now s)._currentState = CoverState.COVER_ERROR ∧
    haltCover now s = s ∧
    (setCurrentAsOpen s).1._currentState = CoverState.COVER_ERROR ∧
    (setCurrentAsClose s).1._currentState = CoverState.COVER_ERROR ∧
    (nudgeServo direction now s).1._currentState = CoverState.COVER_UNKNOWN ∧
    (openCover now s)._currentState = CoverState.COVER_MOVING ∧
    (closeCover now s)._currentState = CoverState.COVER_MOVING := by
  have hm : s._currentState ≠ CoverState.COVER_MOVING := by simp [h]
  refine ⟨?_, ?_, h, h, ?_, ?_, ?_⟩
  · rw [loop_currentState, processCoverMovement_idle now hm (by simp [h])]
    exact h
  · unfold haltCover
    rw [if_neg hm]
  · unfold nudgeServo
    rw [if_neg hm]
    rfl
  · exact openCover_accepted now (by simp [h])
  · exact closeCover_accepted now (by simp [h])

/-- Witness for `error_terminal`: the motion started at 0 times out at the
pass at 10000 (twice the travel duration of 5000), which gives Error. -/
theorem error_terminal_witness :
    (loop 20000 (loop 10000 (openCover 0 (begin (defaultStored 1) 0 {}))))._currentState
      = CoverState.COVER_ERROR ∧
    (nudgeServo 1 20000 (loop 10000 (openCover 0 (begin (defaultStored 1) 0 {})))).1._currentState
      = CoverState.COVER_UNKNOWN :=
  ⟨(error_terminal (loop 10000 (openCover 0 (begin (defaultStored 1) 0 {}))) (by decide)
      20000 1).1,
   (error_terminal (loop 10000 (openCover 0 (begin (defaultStored 1) 0 {}))) (by decide)
      20000 1).2.2.2.2.1⟩

/-- C12 fails as stated: in the Error state reached by a motion timeout,
`nudgeServo(1)` sets the state to Unknown. -/
theorem error_terminal_counterexample :
    (loop 10000 (openCover 0 (begin (defaultStored 1) 0 {})))._currentState
      = CoverState.COVER_ERROR ∧
    (nudgeServo 1 10001 (loop 10000 (openCover 0 (begin (defaultStored 1) 0 {})))).1._currentState
      = CoverState.COVER_UNKNOWN := by
  decide

/-- C20 (as amended): if the cover is Moving, `nudgeServo(direction)` writes
nothing, changes no state and returns the current position; otherwise, for
`rangeMin ≤ rangeMax ≤ 32767` and `current + direction` within `int16_t`, it
returns and records as current position `current + direction` clamped to
`[rangeMin, rangeMax]`, and the state becomes Unknown. -/
theorem nudgeServo_result (direction : Int) (now : Nat) (s : CoverController) :
    (s._currentState = CoverState.COVER_MOVING →
      nudgeServo direction now s = (s, s._lastPosition)) ∧
    (s._currentState ≠ CoverState.COVER_MOVING → s._rangeMin ≤ s._rangeMax →
      s._rangeMax ≤ 32767 → -32768 ≤ s._lastPosition + direction →
      s._lastPosition + direction ≤ 32767 →
      (nudgeServo direction now s).2
        = max (s._rangeMin : Int) (min (s._lastPosition + direction) s._rangeMax) ∧
      (nudgeServo direction now s).1._lastPosition
        = max (s._rangeMin : Int) (min (s._lastPosition + direction) s._rangeMax) ∧
      (nudgeServo direction now s).1._currentState = CoverState.COVER_UNKNOWN) := by
  constructor
  · intro h
    unfold nudgeServo
    rw [if_pos h]
  · intro h h1 h2 h3 h4
    have key : toInt16 (constrain (toInt16 (s._lastPosition + direction)) (toInt16 s._rangeMin)
        (toInt16 s._rangeMax)) = max (s._rangeMin : Int) (min (s._lastPosition + direction) s._rangeMax) := by
      unfold toInt16 constrain
      split_ifs <;> omega
    unfold nudgeServo
    rw [if_neg h]
    exact ⟨key, key, rfl⟩

/-- Witness for `nudgeServo_result`: from the Closed state after `begin()`
(position 195, range 0..270) a nudge by +1 gives 196, and a nudge while Moving
changes nothing. -/
theorem nudgeServo_result_witness :
    (nudgeServo 1 7 (begin (defaultStored 1) 0 {})).2 = max (0 : Int) (min (195 + 1) 270) ∧
    nudgeServo 1 9 (openCover 7 (begin (defaultStored 1) 0 {}))
      = (openCover 7 (begin (defaultStored 1) 0 {}),
         (openCover 7 (begin (defaultStored 1) 0 {}))._lastPosition) :=
  ⟨((nudgeServo_result 1 7 (begin (defaultStored 1) 0 {})).2 (by decide) (by decide) (by decide)
      (by decide) (by decide)).1,
   (nudgeServo_result 1 9 (openCover 7 (begin (defaultStored 1) 0 {}))).1 (by decide)⟩

/-- C20 fails as stated: with `rangeMax = 40000` (accepted by `setRangeMax`)
the cast to `int16_t` makes the upper bound -25536, so a nudge by +1 from 195
returns -25536 and not 196; and a nudge by 32767 from 195 wraps to a negative
sum and returns `rangeMin = 0`, not `rangeMax = 270`. -/
theorem nudgeServo_result_counterexample :
    (nudgeServo 1 7 (begin { defaultStored 1 with rangeMax := 40000 } 0 {})).2 = -25536 ∧
    (nudgeServo 32767 7 (begin (defaultStored 1) 0 {})).2 = 0 := by
  decide

/-- C11, the code at the failing input: the default profile (open 85, close
195) with the usable range then set to 100..200 by `setRangeMin` and
`setRangeMax`.  Opening the cover commands the angles 195, 140 and finally 85,
which is below `rangeMin`: `writeAngle` clamps to the servo travel 0..270
only.  The range is applied by `nudgeServo` alone: a nudge by -1 from the
position 85 then rewrites 85 and commands 100.  (The lists are most recent
first.) -/
theorem range_not_enforced :
    commandedAngles (coverRun (defaultStored 1) 0
        [CoverCall.setRangeMin 100, CoverCall.setRangeMax 200, CoverCall.openCover 0,
         CoverCall.loop 2500, CoverCall.loop 5000]).log = [85, 140, 195, 195] ∧
    (coverRun (defaultStored 1) 0
        [CoverCall.setRangeMin 100, CoverCall.setRangeMax 200, CoverCall.openCover 0,
         CoverCall.loop 2500, CoverCall.loop 5000])._rangeMin = 100 ∧
    (coverRun (defaultStored 1) 0
        [CoverCall.setRangeMin 100, CoverCall.setRangeMax 200, CoverCall.openCover 0,
         CoverCall.loop 2500, CoverCall.loop 5000])._rangeMax = 200 ∧
    commandedAngles (coverRun (defaultStored 1) 0
        [CoverCall.setRangeMin 100, CoverCall.setRangeMax 200, CoverCall.openCover 0,
         CoverCall.loop 2500, CoverCall.loop 5000, CoverCall.nudgeServo (-1) 6000]).log
      = [100, 85, 85, 140, 195, 195] := by
  decide

end CoverController

/-! ## Theorems: heater controller -/

namespace HeaterController

theorem setHeaterState_flags (s : HeaterController) :
    (setHeaterState s)._autoHeat = s._autoHeat ∧
    (setHeaterState s)._manualHeat = s._manualHeat ∧
    (setHeaterState s)._heatOnClose = s._heatOnClose ∧
    (setHeaterState s)._heaterError = s._heaterError ∧
    (setHeaterState s)._heaterUnknown = s._heaterUnknown ∧
    (setHeaterState s).lastErrorReading = s.lastErrorReading := by
  unfold setHeaterState resetErrorReadings
  cases h1 : s._heaterError <;> cases h2 : s._heaterUnknown <;> cases h3 : s._manualHeat <;>
    cases h4 : s._autoHeat <;> cases h5 : s._heatOnClose <;> simp [h1, h2, h3, h4, h5]

theorem setHeaterState_state (s : HeaterController) :
    (setHeaterState s)._heaterState = derivedState s := by
  unfold setHeaterState resetErrorReadings derivedState modeState
  cases h1 : s._heaterError <;> cases h2 : s._heaterUnknown <;> cases h3 : s._manualHeat <;>
    cases h4 : s._autoHeat <;> cases h5 : s._heatOnClose <;> simp [h1, h2, h3, h4, h5]

theorem setHeaterState_pwm (s : HeaterController) :
    (derivedState s ≠ HeaterState.HEATER_AUTO ∧ derivedState s ≠ HeaterState.HEATER_ON →
      (setHeaterState s)._heaterPWM = 0 ∧ pinPWM (setHeaterState s) = some 0) := by
  unfold setHeaterState resetErrorReadings derivedState modeState pinPWM
  cases h1 : s._heaterError <;> cases h2 : s._heaterUnknown <;> cases h3 : s._manualHeat <;>
    cases h4 : s._autoHeat <;> cases h5 : s._heatOnClose <;>
    simp [h1, h2, h3, h4, h5, List.findSome?]

theorem heaterInv_setHeaterState_last (s : HeaterController) (e : Bool)
    (he : s._heaterError = true ∨ s._heaterUnknown = true → e = true) :
    HeaterInv { setHeaterState s with lastErrorReading := e } := by
  obtain ⟨f1, f2, f3, f4, f5, _⟩ := setHeaterState_flags s
  refine ⟨?_, ?_, ?_⟩
  · show (setHeaterState s)._heaterState = derivedState (setHeaterState s)
    rw [setHeaterState_state]
    simp only [derivedState, modeState, f1, f2, f3, f4, f5]
  · show (setHeaterState s)._heaterError = true ∨ (setHeaterState s)._heaterUnknown = true →
      e = true
    rw [f4, f5]
    exact he
  · show (setHeaterState s)._heaterState ≠ HeaterState.HEATER_AUTO ∧
        (setHeaterState s)._heaterState ≠ HeaterState.HEATER_ON →
      (setHeaterState s)._heaterPWM = 0 ∧ pinPWM (setHeaterState s) = some 0
    rw [setHeaterState_state]
    exact setHeaterState_pwm s

theorem setHeaterState_inv {s : HeaterController} (h : FaultInv s) :
    HeaterInv (setHeaterState s) :=
  heaterInv_setHeaterState_last s (setHeaterState s).lastErrorReading
    (by rw [(setHeaterState_flags s).2.2.2.2.2]; exact h)

/-- The value of `readSensors` on an invalid reading. -/
theorem readSensors_invalid {r : Readings} (s : HeaterController) (he : r.errorReading = true) :
    readSensors r s =
      ({ setHeaterState
          (if MAX_ERROR_COUNT ≤ (s._errorCounter + 1) % 256 then
            { s with _heaterTemp := r.heaterTemp, _outsideTemp := r.outsideTemp,
                     _humidityLevel := r.humidity,
                     log := HeaterEvent.getTempCByIndex :: s.log,
                     _errorCounter := (s._errorCounter + 1) % 256,
                     _heaterUnknown := false, _heaterError := true }
          else
            { s with _heaterTemp := r.heaterTemp, _outsideTemp := r.outsideTemp,
                     _humidityLevel := r.humidity,
                     log := HeaterEvent.getTempCByIndex :: s.log,
                     _errorCounter := (s._errorCounter + 1) % 256,
                     _heaterUnknown := true })
        with lastErrorReading := true }, true) := by
  unfold readSensors
  simp only [he, if_true]

/-- The value of `readSensors` on a valid reading that follows an invalid one
(or is the first ever). -/
theorem readSensors_recover {r : Readings} {s : HeaterController} (he : r.errorReading = false)
    (hl : s.lastErrorReading = true) :
    readSensors r s =
      ({ setHeaterState (resetErrorReadings
          { s with _heaterTemp := r.heaterTemp, _outsideTemp := r.outsideTemp,
                   _humidityLevel := r.humidity,
                   log := HeaterEvent.getTempCByIndex :: s.log })
        with lastErrorReading := false }, false) := by
  unfold readSensors
  simp only [he, hl, if_true, Bool.false_eq_true, if_false]

/-- The value of `readSensors` on a valid reading that follows a valid one. -/
theorem readSensors_steady {r : Readings} {s : HeaterController} (he : r.errorReading = false)
    (hl : s.lastErrorReading = false) :
    readSensors r s =
      ({ s with _heaterTemp := r.heaterTemp, _outsideTemp := r.outsideTemp,
                _humidityLevel := r.humidity,
                log := HeaterEvent.getTempCByIndex :: s.log }, false) := by
  unfold readSensors
  simp only [he, hl, Bool.false_eq_true, if_false]

theorem readSensors_snd (r : Readings) (s : HeaterController) :
    (readSensors r s).2 = r.errorReading := rfl

theorem faultInv_clear {s : HeaterController} (h : FaultInv s) (hl : s.lastErrorReading = false) :
    s._heaterError = false ∧ s._heaterUnknown = false := by
  unfold FaultInv at h
  rw [hl] at h
  cases h1 : s._heaterError <;> cases h2 : s._heaterUnknown <;> simp_all

theorem readSensors_inv (r : Readings) {s : HeaterController} (h : HeaterInv s) :
    HeaterInv (readSensors r s).1 := by
  cases he : r.errorReading
  · cases hl : s.lastErrorReading
    · rw [readSensors_steady he hl]
      obtain ⟨i1, i2, i3⟩ := h
      refine ⟨i1, i2, ?_⟩
      intro hst
      have := i3 hst
      simpa [pinPWM, List.findSome?] using this
    · rw [readSensors_recover he hl]
      exact heaterInv_setHeaterState_last _ _ (by simp [resetErrorReadings])
  · rw [readSensors_invalid s he]
    exact heaterInv_setHeaterState_last _ _ (fun _ => rfl)

theorem readSensors_faultInv (r : Readings) {s : HeaterController} (h : FaultInv s) :
    FaultInv (readSensors r s).1 := by
  cases he : r.errorReading
  · cases hl : s.lastErrorReading
    · rw [readSensors_steady he hl]
      exact h
    · rw [readSensors_recover he hl]
      exact (heaterInv_setHeaterState_last _ _ (by simp [resetErrorReadings])).2.1
  · rw [readSensors_invalid s he]
    exact fun _ => rfl

theorem readSensors_modes (r : Readings) (s : HeaterController) :
    (readSensors r s).1._autoHeat = s._autoHeat ∧
    (readSensors r s).1._manualHeat = s._manualHeat ∧
    (readSensors r s).1._heatOnClose = s._heatOnClose := by
  cases he : r.errorReading
  · cases hl : s.lastErrorReading
    · rw [readSensors_steady he hl]
      exact ⟨rfl, rfl, rfl⟩
    · rw [readSensors_recover he hl]
      obtain ⟨f1, f2, f3, _⟩ := setHeaterState_flags (resetErrorReadings
          { s with _heaterTemp := r.heaterTemp, _outsideTemp := r.outsideTemp,
                   _humidityLevel := r.humidity,
                   log := HeaterEvent.getTempCByIndex :: s.log })
      exact ⟨f1, f2, f3⟩
  · rw [readSensors_invalid s he]
    generalize hs1 : (if MAX_ERROR_COUNT ≤ (s._errorCounter + 1) % 256 then _ else _) = s1
    obtain ⟨f1, f2, f3, _⟩ := setHeaterState_flags s1
    have g : s1._autoHeat = s._autoHeat ∧ s1._manualHeat = s._manualHeat ∧
        s1._heatOnClose = s._heatOnClose := by
      subst hs1
      split_ifs <;> exact ⟨rfl, rfl, rfl⟩
    exact ⟨f1.trans g.1, f2.trans g.2.1, f3.trans g.2.2⟩

theorem readSensors_last (r : Readings) (s : HeaterController) :
    (readSensors r s).1.lastErrorReading = r.errorReading := rfl

theorem activateHeater_inv {s : HeaterController} (h : HeaterInv s)
    (hst : s._heaterState = HeaterState.HEATER_AUTO ∨ s._heaterState = HeaterState.HEATER_ON) :
    HeaterInv (activateHeater s) := by
  have key : ∀ (v : Nat),
      HeaterInv { s with _heaterPWM := v, log := HeaterEvent.analogWrite v :: s.log } := by
    intro v
    refine ⟨h.1, h.2.1, ?_⟩
    intro hn
    exfalso
    rcases hst with e | e
    · exact hn.1 e
    · exact hn.2 e
  unfold activateHeater
  split
  · split_ifs
    · exact key _
    · exact key 0
  · exact key 0

theorem manageHeatRest_inv (now : Nat) (r : Readings) {s : HeaterController}
    (h : HeaterInv s) : HeaterInv (manageHeatRest now r s) := by
  unfold manageHeatRest
  dsimp only
  by_cases hc : (!s._heaterError && s._manualHeat &&
      decide (s._heaterShutoff ≤ sub32 now s._startHeaterTimer)) = true
  · simp only [if_pos hc]
    have h1 : HeaterInv (setHeaterState { s with _manualHeat := false }) :=
      setHeaterState_inv h.2.1
    split_ifs
    · exact readSensors_inv r h1
    · exact h1
  · simp only [if_neg hc]
    split_ifs
    · exact readSensors_inv r h
    · exact h

theorem heaterInv_modeState {s : HeaterController} (h : HeaterInv s)
    (hf : s._heaterError = false ∧ s._heaterUnknown = false)
    (hm : s._autoHeat = true ∨ s._manualHeat = true) :
    s._heaterState = HeaterState.HEATER_AUTO ∨ s._heaterState = HeaterState.HEATER_ON := by
  rw [h.1]
  unfold derivedState modeState
  rw [hf.1, hf.2]
  cases h3 : s._manualHeat <;> cases h4 : s._autoHeat <;> simp_all

theorem manageHeat_inv (dew : DewFormula) (now : Nat) (r : Readings) {s : HeaterController}
    (h : HeaterInv s) : HeaterInv (manageHeat dew now r s) := by
  unfold manageHeat
  by_cases hg : (!s._heaterError && (s._autoHeat || s._manualHeat)) = true
  · rw [if_pos hg]
    by_cases hi : DEW_INTERVAL ≤ sub32 now s._previousDewMillis
    · rw [if_pos hi]
      dsimp only
      by_cases ha : s._asyncConversionStarted = true
      · rw [if_neg (by simp [ha])]
        by_cases hc : sub32 now s._conversionStartTime < 750
        · rw [if_pos hc]; exact h
        · rw [if_neg hc]
          have h2 : HeaterInv { s with _previousDewMillis := now, _asyncConversionStarted := false } := h
          have h3 := readSensors_inv r h2
          cases he : r.errorReading
          · rw [if_neg (by rw [readSensors_snd, he]; simp)]
            apply manageHeatRest_inv
            have hl := readSensors_last r { s with _previousDewMillis := now, _asyncConversionStarted := false }
            rw [he] at hl
            have hf := faultInv_clear h3.2.1 hl
            obtain ⟨m1, m2, _⟩ := readSensors_modes r { s with _previousDewMillis := now, _asyncConversionStarted := false }
            have hm : s._autoHeat = true ∨ s._manualHeat = true := by
              cases h3' : s._manualHeat <;> cases h4' : s._autoHeat <;> simp_all
            have hst := heaterInv_modeState h3 hf (by rw [m1, m2]; exact hm)
            exact activateHeater_inv (s := { (readSensors r { s with _previousDewMillis := now, _asyncConversionStarted := false }).1 with _dewPoint := _ }) h3 hst
          · rw [if_pos (by rw [readSensors_snd, he])]
            exact h3
      · rw [if_pos (by simpa using ha)]
        refine ⟨h.1, h.2.1, ?_⟩
        intro hn
        have := h.2.2 hn
        simpa [pinPWM, List.findSome?] using this
    · rw [if_neg hi]
      exact manageHeatRest_inv now r h
  · rw [if_neg hg]
    exact manageHeatRest_inv now r h

theorem loop_inv (dew : DewFormula) (coverMoving : Bool) (now : Nat) (r : Readings)
    {s : HeaterController} (h : HeaterInv s) : HeaterInv (loop dew coverMoving now r s) := by
  unfold loop
  split_ifs
  · exact readSensors_inv r h
  · exact h
  · exact manageHeat_inv dew now r h

theorem resetErrorReadings_faultInv (s : HeaterController) : FaultInv (resetErrorReadings s) := by
  simp [FaultInv, resetErrorReadings]

theorem heaterInv_call (dew : DewFormula) (c : HeaterCall) {s : HeaterController}
    (h : HeaterInv s) : HeaterInv (c.run dew s) := by
  cases c with
  | setAutoHeat turnOn =>
    show HeaterInv (setAutoHeat turnOn s)
    unfold setAutoHeat
    dsimp only
    split_ifs
    · exact setHeaterState_inv h.2.1
    · exact setHeaterState_inv (resetErrorReadings_faultInv _)
    · exact setHeaterState_inv h.2.1
  | setManualHeat turnOn now =>
    show HeaterInv (setManualHeat turnOn now s)
    unfold setManualHeat
    split_ifs
    · exact (setHeaterState_inv (s := { s with _manualHeat := true }) h.2.1 :)
    · exact setHeaterState_inv (resetErrorReadings_faultInv _)
    · exact setHeaterState_inv h.2.1
    · exact setHeaterState_inv h.2.1
  | setHeatOnClose turnOn r =>
    show HeaterInv (setHeatOnClose turnOn r s)
    unfold setHeatOnClose
    dsimp only
    split_ifs
    · exact setHeaterState_inv (readSensors_faultInv r h.2.1)
    · exact setHeaterState_inv (resetErrorReadings_faultInv _)
    · exact setHeaterState_inv h.2.1
  | turnOff => exact setHeaterState_inv (resetErrorReadings_faultInv _)
  | triggerHeatOnClose now =>
    show HeaterInv (triggerHeatOnClose now s)
    unfold triggerHeatOnClose
    split_ifs
    · exact (setHeaterState_inv (s := { s with _manualHeat := true }) h.2.1 :)
    · exact h
  | loop coverMoving now r => exact loop_inv dew coverMoving now r h
  | setDeltaPoint val => exact h
  | setShutoffTime ms => exact h

theorem heaterInv_begin (bmeStatus : Bool) (delta : ℚ) (shutoff : Nat) :
    HeaterInv (begin bmeStatus delta shutoff {}) := by
  unfold begin
  apply setHeaterState_inv
  cases bmeStatus <;> simp [FaultInv]

theorem heaterInv_of_reachable {dew : DewFormula} {s : HeaterController}
    (h : HeaterReachable dew s) : HeaterInv s := by
  induction h with
  | begin bmeStatus delta shutoff => exact heaterInv_begin bmeStatus delta shutoff
  | call c s _ ih => exact heaterInv_call dew c ih

theorem setHeaterState_counter {s : HeaterController}
    (h : s._heaterError = true ∨ s._heaterUnknown = true) :
    (setHeaterState s)._errorCounter = s._errorCounter := by
  unfold setHeaterState resetErrorReadings
  cases h1 : s._heaterError <;> cases h2 : s._heaterUnknown <;> simp_all

theorem faultCount_step {k : Nat} {r : Readings} {s : HeaterController}
    (he : r.errorReading = true) (h : FaultCount k s) : FaultCount (k + 1) (readSensors r s).1 := by
  rw [readSensors_invalid s he]
  generalize hs1 : (if MAX_ERROR_COUNT ≤ (s._errorCounter + 1) % 256 then _ else _) = s1
  have c1 : s1._errorCounter = (s._errorCounter + 1) % 256 := by
    rw [← hs1]; split_ifs <;> rfl
  have c2 : MAX_ERROR_COUNT ≤ (s._errorCounter + 1) % 256 →
      s1._heaterError = true ∧ s1._heaterUnknown = false := by
    intro hc; rw [← hs1, if_pos hc]; exact ⟨rfl, rfl⟩
  have c3 : ¬ MAX_ERROR_COUNT ≤ (s._errorCounter + 1) % 256 →
      s1._heaterError = s._heaterError ∧ s1._heaterUnknown = true := by
    intro hc; rw [← hs1, if_neg hc]; exact ⟨rfl, rfl⟩
  obtain ⟨_, _, _, f4, f5, _⟩ := setHeaterState_flags s1
  have hst := setHeaterState_state s1
  show FaultCount (k + 1) { setHeaterState s1 with lastErrorReading := true }
  unfold FaultCount
  show _ ∨ (_ ∧ _ ∧ (setHeaterState s1)._errorCounter = _ ∧ (setHeaterState s1)._heaterError = _ ∧
      (setHeaterState s1)._heaterUnknown = _ ∧ (setHeaterState s1)._heaterState = _) ∨
    (_ ∧ (setHeaterState s1)._heaterError = _ ∧ (setHeaterState s1)._heaterState = _)
  rw [f4, f5, hst]
  simp only [MAX_ERROR_COUNT] at c2 c3
  rcases h with ⟨hk, hc, h1, h2⟩ | ⟨hk1, hk4, hc, h1, h2, _⟩ | ⟨hk, h1, _⟩
  · obtain ⟨e1, e2⟩ := c3 (by omega)
    right; left
    rw [setHeaterState_counter (Or.inr e2), c1]
    rw [h1] at e1
    exact ⟨by omega, by omega, by omega, e1, e2, by simp [derivedState, e1, e2]⟩
  · by_cases hlt : k + 1 < 5
    · obtain ⟨e1, e2⟩ := c3 (by omega)
      right; left
      rw [setHeaterState_counter (Or.inr e2), c1]
      rw [h1] at e1
      exact ⟨by omega, by omega, by omega, e1, e2, by simp [derivedState, e1, e2]⟩
    · obtain ⟨e1, e2⟩ := c2 (by omega)
      right; right
      exact ⟨by omega, e1, by simp [derivedState, e1]⟩
  · have e : s1._heaterError = true := by
      by_cases hc : 5 ≤ (s._errorCounter + 1) % 256
      · exact (c2 hc).1
      · rw [(c3 hc).1]; exact h1
    right; right
    exact ⟨by omega, e, by simp [derivedState, e]⟩

theorem faultCount_many {k : Nat} (rs : List Readings) {s : HeaterController}
    (hrs : ∀ r ∈ rs, r.errorReading = true) (h : FaultCount k s) :
    FaultCount (k + rs.length) (readSensorsMany rs s) := by
  induction rs generalizing k s with
  | nil => exact h
  | cons r rs ih =>
    have h1 := faultCount_step (hrs r (List.mem_cons_self r rs)) h
    have h2 := ih (fun u hu => hrs u (List.mem_cons_of_mem r hu)) h1
    have e : k + (r :: rs).length = k + 1 + rs.length := by simp; omega
    rw [e]
    exact h2

/-- C2: heater safety invariant.  In every state reachable from `begin()` by
any sequence of `setAutoHeat`, `setManualHeat`, `setHeatOnClose`, `turnOff`,
`triggerHeatOnClose`, `loop` (and the two inline setters) with arbitrary sensor
readings and times, whenever the reported state is neither Auto nor On the
stored PWM value is 0 and the duty last written to the heater pin is 0. -/
theorem heater_safety (dew : DewFormula) (s : HeaterController) (h : HeaterReachable dew s)
    (hst : s._heaterState ≠ HeaterState.HEATER_AUTO ∧ s._heaterState ≠ HeaterState.HEATER_ON) :
    s._heaterPWM = 0 ∧ pinPWM s = some 0 :=
  (heaterInv_of_reachable h).2.2 hst

/-- Witness for `heater_safety`: manual heating switched on and then all
heating switched off. -/
theorem heater_safety_witness :
    (turnOff (setManualHeat true 0 (begin true 5 3600000 {})))._heaterPWM = 0 ∧
    pinPWM (turnOff (setManualHeat true 0 (begin true 5 3600000 {}))) = some 0 :=
  heater_safety (fun _ _ => none) _
    (HeaterReachable.call HeaterCall.turnOff _
      (HeaterReachable.call (HeaterCall.setManualHeat true 0) _
        (HeaterReachable.begin true 5 3600000)))
    (by decide)

/-- C5: fault threshold.  Starting from a fault-free regulator (fault counter
0, neither fault flag set) in any mode, after `n` consecutive invalid sensor
readings the reported state is Unknown for `1 ≤ n ≤ 4` and Error for every
`n ≥ 5`. -/
theorem fault_threshold (s : HeaterController) (h0 : s._errorCounter = 0)
    (h1 : s._heaterError = false) (h2 : s._heaterUnknown = false)
    (rs : List Readings) (hrs : ∀ r ∈ rs, r.errorReading = true) :
    (1 ≤ rs.length ∧ rs.length ≤ 4 →
      (readSensorsMany rs s)._heaterState = HeaterState.HEATER_UNKNOWN) ∧
    (5 ≤ rs.length → (readSensorsMany rs s)._heaterState = HeaterState.HEATER_ERROR) := by
  have h := faultCount_many (k := 0) rs hrs (Or.inl ⟨rfl, h0, h1, h2⟩)
  rw [Nat.zero_add] at h
  constructor
  · rintro ⟨a, b⟩
    rcases h with ⟨hk, _⟩ | ⟨_, _, _, _, _, hst⟩ | ⟨hk, _⟩
    · omega
    · exact hst
    · omega
  · intro a
    rcases h with ⟨hk, _⟩ | ⟨_, hk, _⟩ | ⟨_, _, hst⟩
    · omega
    · omega
    · exact hst

theorem setHeaterState_log (s : HeaterController) :
    (setHeaterState s).log = s.log ∨
    (setHeaterState s).log = HeaterEvent.analogWrite 0 :: s.log := by
  unfold setHeaterState resetErrorReadings
  cases h1 : s._heaterError <;> cases h2 : s._heaterUnknown <;> cases h3 : s._manualHeat <;>
    cases h4 : s._autoHeat <;> cases h5 : s._heatOnClose <;> simp [h1, h2, h3, h4, h5]

theorem setHeaterState_counter_zero {s : HeaterController} (h : s._errorCounter = 0) :
    (setHeaterState s)._errorCounter = 0 := by
  unfold setHeaterState resetErrorReadings
  cases h1 : s._heaterError <;> cases h2 : s._heaterUnknown <;> cases h3 : s._manualHeat <;>
    cases h4 : s._autoHeat <;> cases h5 : s._heatOnClose <;> simp [h1, h2, h3, h4, h5, h]

theorem setHeaterState_timers (s : HeaterController) :
    (setHeaterState s)._heaterShutoff = s._heaterShutoff ∧
    (setHeaterState s)._startHeaterTimer = s._startHeaterTimer := by
  unfold setHeaterState resetErrorReadings
  cases h1 : s._heaterError <;> cases h2 : s._heaterUnknown <;> cases h3 : s._manualHeat <;>
    cases h4 : s._autoHeat <;> cases h5 : s._heatOnClose <;> simp [h1, h2, h3, h4, h5]

theorem readSensors_log (r : Readings) (s : HeaterController) :
    ∃ evs, (readSensors r s).1.log = evs ++ HeaterEvent.getTempCByIndex :: s.log := by
  have key : ∀ X : HeaterController, X.log = HeaterEvent.getTempCByIndex :: s.log →
      ∃ evs, (setHeaterState X).log = evs ++ HeaterEvent.getTempCByIndex :: s.log := by
    intro X hX
    rcases setHeaterState_log X with e | e
    · exact ⟨[], by rw [e, hX]; rfl⟩
    · exact ⟨[HeaterEvent.analogWrite 0], by rw [e, hX]; rfl⟩
  cases he : r.errorReading
  · cases hl : s.lastErrorReading
    · rw [readSensors_steady he hl]
      exact ⟨[], rfl⟩
    · rw [readSensors_recover he hl]
      exact key _ rfl
  · rw [readSensors_invalid s he]
    apply key
    split_ifs <;> rfl

theorem derivedState_error {s : HeaterController}
    (h : derivedState s = HeaterState.HEATER_ERROR) : s._heaterError = true := by
  unfold derivedState modeState at h
  cases h1 : s._heaterError <;> cases h2 : s._heaterUnknown <;> cases h3 : s._manualHeat <;>
    cases h4 : s._autoHeat <;> cases h5 : s._heatOnClose <;> simp_all

/-- C6: error recovery.  From any reachable state whose reported state is
Error, every `loop(coverMoving = false)` call reads the sensors, whatever the
time, and if that reading is valid then within the same call the fault counter
is 0, both fault flags are clear and the reported state is the mode-derived
state (On if manual, else Auto if auto, else ArmedOnClose if armed, else Off),
the mode flags being untouched. -/
theorem error_recovery (dew : DewFormula) (s : HeaterController) (hreach : HeaterReachable dew s)
    (herr : s._heaterState = HeaterState.HEATER_ERROR) (now : Nat) (r : Readings) :
    (∃ evs, (loop dew false now r s).log = evs ++ HeaterEvent.getTempCByIndex :: s.log) ∧
    (r.errorReading = false →
      (loop dew false now r s)._errorCounter = 0 ∧
      (loop dew false now r s)._heaterError = false ∧
      (loop dew false now r s)._heaterUnknown = false ∧
      (loop dew false now r s)._heaterState = modeState (loop dew false now r s) ∧
      modeState (loop dew false now r s) = modeState s) := by
  obtain ⟨i1, i2, _⟩ := heaterInv_of_reachable hreach
  have hE : s._heaterError = true := derivedState_error (i1 ▸ herr)
  have hL : s.lastErrorReading = true := i2 (Or.inl hE)
  have hloop : loop dew false now r s = (readSensors r s).1 := by
    unfold loop
    simp [herr, hE]
  rw [hloop]
  refine ⟨readSensors_log r s, ?_⟩
  intro he
  obtain ⟨m1, m2, m3⟩ := readSensors_modes r s
  have hm : modeState (readSensors r s).1 = modeState s := by
    unfold modeState
    rw [m1, m2, m3]
  rw [hm]
  rw [readSensors_recover he hL]
  obtain ⟨_, _, _, f4, f5, _⟩ := setHeaterState_flags (resetErrorReadings
    { s with _heaterTemp := r.heaterTemp, _outsideTemp := r.outsideTemp, _humidityLevel := r.humidity, log := HeaterEvent.getTempCByIndex :: s.log })
  refine ⟨setHeaterState_counter_zero rfl, f4, f5, ?_, rfl⟩
  show (setHeaterState _)._heaterState = _
  rw [setHeaterState_state]
  rfl

/-- Witness for `error_recovery`: the BME280 is missing at `begin()`, which
reports Error; auto heating is requested; the next pass reads valid values. -/
theorem error_recovery_witness :
    (loop (fun _ _ => none) false 10 ⟨20, some 10, some 50⟩
        (setAutoHeat true (begin false 5 3600000 {})))._heaterState
      = modeState (loop (fun _ _ => none) false 10 ⟨20, some 10, some 50⟩
        (setAutoHeat true (begin false 5 3600000 {}))) :=
  ((error_recovery (fun _ _ => none) (setAutoHeat true (begin false 5 3600000 {}))
    (HeaterReachable.call (HeaterCall.setAutoHeat true) _ (HeaterReachable.begin false 5 3600000))
    (by decide) 10 ⟨20, some 10, some 50⟩).2
    (by norm_num [Readings.errorReading, DEVICE_DISCONNECTED_C])).2.2.2.1

/-- Witness for `fault_threshold`: three invalid readings (probe disconnected,
NaN humidity, humidity out of range) give Unknown, six give Error. -/
theorem fault_threshold_witness :
    (readSensorsMany [⟨-127, some 20, some 50⟩, ⟨20, some 20, none⟩, ⟨20, some 20, some 101⟩]
        (setAutoHeat true (begin true 5 3600000 {})))._heaterState = HeaterState.HEATER_UNKNOWN ∧
    (readSensorsMany [⟨-127, some 20, some 50⟩, ⟨20, some 20, none⟩, ⟨20, some 20, some 101⟩,
        ⟨-127, some 20, some 50⟩, ⟨20, some 20, none⟩, ⟨20, some 20, some 101⟩]
        (setAutoHeat true (begin true 5 3600000 {})))._heaterState = HeaterState.HEATER_ERROR :=
  ⟨(fault_threshold (setAutoHeat true (begin true 5 3600000 {})) (by decide) (by decide)
      (by decide) _ (by norm_num [Readings.errorReading, DEVICE_DISCONNECTED_C])).1
      ⟨by decide, by decide⟩,
   (fault_threshold (setAutoHeat true (begin true 5 3600000 {})) (by decide) (by decide)
      (by decide) _ (by norm_num [Readings.errorReading, DEVICE_DISCONNECTED_C])).2
      (by decide)⟩

theorem activateHeater_fields (s : HeaterController) :
    (activateHeater s)._heaterError = s._heaterError ∧
    (activateHeater s)._heaterUnknown = s._heaterUnknown ∧
    (activateHeater s)._manualHeat = s._manualHeat ∧
    (activateHeater s)._autoHeat = s._autoHeat ∧
    (activateHeater s)._heatOnClose = s._heatOnClose ∧
    (activateHeater s)._heaterShutoff = s._heaterShutoff ∧
    (activateHeater s)._startHeaterTimer = s._startHeaterTimer := by
  unfold activateHeater
  split
  · split_ifs <;> exact ⟨rfl, rfl, rfl, rfl, rfl, rfl, rfl⟩
  · exact ⟨rfl, rfl, rfl, rfl, rfl, rfl, rfl⟩

theorem readSensors_timers (r : Readings) (s : HeaterController) :
    (readSensors r s).1._heaterShutoff = s._heaterShutoff ∧
    (readSensors r s).1._startHeaterTimer = s._startHeaterTimer := by
  cases he : r.errorReading
  · cases hl : s.lastErrorReading
    · rw [readSensors_steady he hl]
      exact ⟨rfl, rfl⟩
    · rw [readSensors_recover he hl]
      exact setHeaterState_timers _
  · rw [readSensors_invalid s he]
    generalize hs1 : (if MAX_ERROR_COUNT ≤ (s._errorCounter + 1) % 256 then _ else _) = s1
    obtain ⟨t1, t2⟩ := setHeaterState_timers s1
    have g : s1._heaterShutoff = s._heaterShutoff ∧
        s1._startHeaterTimer = s._startHeaterTimer := by
      subst hs1
      split_ifs <;> exact ⟨rfl, rfl⟩
    exact ⟨t1.trans g.1, t2.trans g.2⟩

/-- The manual-heat timeout at the end of `manageHeat`, for a fault-free state
with manual heating on and auto heating off. -/
theorem manageHeatRest_expiry {now : Nat} (r : Readings) {s : HeaterController}
    (h1 : s._heaterError = false) (h2 : s._heaterUnknown = false) (h3 : s._manualHeat = true)
    (h4 : s._autoHeat = false) (hexp : s._heaterShutoff ≤ sub32 now s._startHeaterTimer) :
    (manageHeatRest now r s)._manualHeat = false ∧
    (manageHeatRest now r s)._heaterState ≠ HeaterState.HEATER_ON ∧
    (manageHeatRest now r s)._heaterState ≠ HeaterState.HEATER_AUTO ∧
    (manageHeatRest now r s)._heaterPWM = 0 ∧
    pinPWM (manageHeatRest now r s) = some 0 := by
  obtain ⟨_, f2, _, f4, f5, _⟩ := setHeaterState_flags { s with _manualHeat := false }
  have hst := setHeaterState_state { s with _manualHeat := false }
  have hd : derivedState { s with _manualHeat := false } ≠ HeaterState.HEATER_AUTO ∧
      derivedState { s with _manualHeat := false } ≠ HeaterState.HEATER_ON := by
    unfold derivedState modeState
    cases h5 : s._heatOnClose <;> simp [h1, h2, h4, h5]
  have hr : manageHeatRest now r s = setHeaterState { s with _manualHeat := false } := by
    unfold manageHeatRest
    have hc : (!s._heaterError && s._manualHeat &&
        decide (s._heaterShutoff ≤ sub32 now s._startHeaterTimer)) = true := by
      simp [h1, h3, hexp]
    simp only [hc, if_true]
    rw [if_neg]
    rw [f4, f5]
    simp [h1, h2]
  rw [hr, hst]
  exact ⟨f2, hd.2, hd.1, setHeaterState_pwm _ hd⟩

/-- C7 (as amended): manual expiry.  For every reachable fault-free state in
which manual heating is on, auto heating is off and the shutoff duration has
elapsed since `_startHeaterTimer`, a `loop(coverMoving = false)` call whose
sampling block does not return early (the sampling interval has not elapsed,
or a started conversion is complete and the reading is valid) ends manual
heating: the reported state is neither On nor Auto and the PWM output is 0. -/
theorem manual_expiry (dew : DewFormula) (s : HeaterController) (hreach : HeaterReachable dew s)
    (h1 : s._heaterError = false) (h2 : s._heaterUnknown = false) (h3 : s._manualHeat = true)
    (h4 : s._autoHeat = false) (now : Nat) (r : Readings)
    (hexp : s._heaterShutoff ≤ sub32 now s._startHeaterTimer)
    (hsample : DEW_INTERVAL ≤ sub32 now s._previousDewMillis →
      s._asyncConversionStarted = true ∧ 750 ≤ sub32 now s._conversionStartTime ∧
      r.errorReading = false) :
    (loop dew false now r s)._manualHeat = false ∧
    (loop dew false now r s)._heaterState ≠ HeaterState.HEATER_ON ∧
    (loop dew false now r s)._heaterState ≠ HeaterState.HEATER_AUTO ∧
    (loop dew false now r s)._heaterPWM = 0 ∧
    pinPWM (loop dew false now r s) = some 0 := by
  have hinv := heaterInv_of_reachable hreach
  have hst : s._heaterState = HeaterState.HEATER_ON := by
    rw [hinv.1]; simp [derivedState, modeState, h1, h2, h3]
  have hloop : loop dew false now r s = manageHeat dew now r s := by
    unfold loop
    simp [hst]
  rw [hloop]
  unfold manageHeat
  have hg : (!s._heaterError && (s._autoHeat || s._manualHeat)) = true := by simp [h1, h3]
  rw [if_pos hg]
  by_cases hi : DEW_INTERVAL ≤ sub32 now s._previousDewMillis
  · obtain ⟨ha, hc, he⟩ := hsample hi
    rw [if_pos hi]
    dsimp only
    rw [if_neg (by simp [ha]), if_neg (by omega), if_neg (by rw [readSensors_snd, he]; simp)]
    have hi2 : HeaterInv { s with _previousDewMillis := now, _asyncConversionStarted := false } :=
      hinv
    have hl := readSensors_last r
      { s with _previousDewMillis := now, _asyncConversionStarted := false }
    rw [he] at hl
    have hf := faultInv_clear (readSensors_inv r hi2).2.1 hl
    obtain ⟨m1, m2, _⟩ := readSensors_modes r
      { s with _previousDewMillis := now, _asyncConversionStarted := false }
    obtain ⟨t1, t2⟩ := readSensors_timers r
      { s with _previousDewMillis := now, _asyncConversionStarted := false }
    generalize hX : (readSensors r
      { s with _previousDewMillis := now, _asyncConversionStarted := false }).1 = X at *
    generalize hdp : (match X._outsideTemp, X._humidityLevel with
      | some t, some h => dew t h
      | _, _ => none) = dp
    obtain ⟨a1, a2, a3, a4, _, a6, a7⟩ := activateHeater_fields { X with _dewPoint := dp }
    apply manageHeatRest_expiry r
    · rw [a1]; exact hf.1
    · rw [a2]; exact hf.2
    · rw [a3]; exact m2.trans h3
    · rw [a4]; exact m1.trans h4
    · rw [a6, a7]
      show X._heaterShutoff ≤ sub32 now X._startHeaterTimer
      rw [t1, t2]
      exact hexp
  · rw [if_neg hi]
    exact manageHeatRest_expiry r h1 h2 h3 h4 hexp

/-- Witness for `manual_expiry`: manual heating entered at 0 with the default
shutoff of 3 600 000 ms, a pass at 3 599 500 (which requests a conversion), and
the pass at 3 600 000. -/
theorem manual_expiry_witness :
    (loop (fun _ _ => none) false 3600000 ⟨20, some 10, some 50⟩
      (loop (fun _ _ => none) false 3599500 ⟨20, some 10, some 50⟩
        (setManualHeat true 0 (begin true 5 3600000 {}))))._manualHeat = false ∧
    (loop (fun _ _ => none) false 3600000 ⟨20, some 10, some 50⟩
      (loop (fun _ _ => none) false 3599500 ⟨20, some 10, some 50⟩
        (setManualHeat true 0 (begin true 5 3600000 {}))))._heaterPWM = 0 :=
  have w := manual_expiry (fun _ _ => none)
    (loop (fun _ _ => none) false 3599500 ⟨20, some 10, some 50⟩
      (setManualHeat true 0 (begin true 5 3600000 {})))
    (HeaterReachable.call (HeaterCall.loop false 3599500 ⟨20, some 10, some 50⟩) _
      (HeaterReachable.call (HeaterCall.setManualHeat true 0) _
        (HeaterReachable.begin true 5 3600000)))
    (by decide) (by decide) (by decide) (by decide) 3600000 ⟨20, some 10, some 50⟩
    (by decide) (by decide)
  ⟨w.1, w.2.2.2.1⟩

/-- C7 fails as stated.  With auto heating requested before manual heating,
the pass at which the manual timer expires falls back to Auto, not to an
Off-equivalent state.  And when the first pass after the expiry is one that
requests a temperature conversion, it returns before the timeout is looked at:
manual heating is still on after it. -/
theorem manual_expiry_counterexample :
    (loop (fun _ _ => none) false 3600000 ⟨20, some 10, some 50⟩
      (loop (fun _ _ => none) false 3599500 ⟨20, some 10, some 50⟩
        (setManualHeat true 0 (setAutoHeat true (begin true 5 3600000 {})))))._heaterState
      = HeaterState.HEATER_AUTO ∧
    (loop (fun _ _ => none) false 3600000 ⟨20, some 10, some 50⟩
      (setManualHeat true 0 (begin true 5 3600000 {})))._heaterState
      = HeaterState.HEATER_ON := by
  decide

/-- C4, the code at the failing input: with the heater at 4 degrees, a dew
point of 5 and a delta of 5 (deficit 6, `x = 600`) `activateHeater` writes
PWM 50, not 255: `map` yields 306, the assignment to the `uint8_t` member
truncates it to 50, and the `constrain` that follows can no longer clamp. -/
theorem activateHeater_deficit_six :
    (activateHeater { _heaterTemp := 4, _dewPoint := some 5, _deltaPoint := 5 })._heaterPWM = 50 ∧
    pinPWM (activateHeater { _heaterTemp := 4, _dewPoint := some 5, _deltaPoint := 5 })
      = some 50 := by
  have e : truncQ ((5 + 5 - 4 : ℚ) * 100) = 600 := by
    norm_num [truncQ]
  have e5 : truncQ (500 : ℚ) = 500 := by norm_num [truncQ]
  have e2 : truncQ (255 : ℚ) = 255 := by norm_num [truncQ]
  have hlt : (4 : ℚ) < 5 + 5 := by norm_num
  simp only [activateHeater, hlt, if_true, PWM_MAP_MULTIPLIER, PWM_MAP_RANGE, MAX_HEATER_PWM,
    e, e5, e2, pinPWM, List.findSome?]
  decide

theorem ticks_inv (dew : DewFormula) (ts : List HeaterTick) {s : HeaterController}
    (h : HeaterInv s) : HeaterInv (ticks dew ts s) := by
  induction ts generalizing s with
  | nil => exact h
  | cons t ts ih => exact ih (loop_inv dew t.coverMoving t.now t.r h)

end HeaterController

/-- The reachable states are closed under further calls. -/
theorem HeaterReachable.ticks {dew : DewFormula} (ts : List HeaterTick) {s : HeaterController}
    (h : HeaterReachable dew s) : HeaterReachable dew (HeaterController.ticks dew ts s) := by
  induction ts generalizing s with
  | nil => exact h
  | cons t ts ih => exact ih (HeaterReachable.call (HeaterCall.loop t.coverMoving t.now t.r) s h)

namespace HeaterController

theorem setHeaterState_sampling (s : HeaterController) :
    (setHeaterState s)._previousDewMillis = s._previousDewMillis ∧
    (setHeaterState s)._asyncConversionStarted = s._asyncConversionStarted ∧
    (setHeaterState s)._conversionStartTime = s._conversionStartTime := by
  unfold setHeaterState resetErrorReadings
  cases h1 : s._heaterError <;> cases h2 : s._heaterUnknown <;> cases h3 : s._manualHeat <;>
    cases h4 : s._autoHeat <;> cases h5 : s._heatOnClose <;> simp [h1, h2, h3, h4, h5]

theorem readSensors_sampling (r : Readings) (s : HeaterController) :
    (readSensors r s).1._previousDewMillis = s._previousDewMillis ∧
    (readSensors r s).1._asyncConversionStarted = s._asyncConversionStarted ∧
    (readSensors r s).1._conversionStartTime = s._conversionStartTime := by
  cases he : r.errorReading
  · cases hl : s.lastErrorReading
    · rw [readSensors_steady he hl]
      exact ⟨rfl, rfl, rfl⟩
    · rw [readSensors_recover he hl]
      exact setHeaterState_sampling _
  · rw [readSensors_invalid s he]
    generalize hs1 : (if MAX_ERROR_COUNT ≤ (s._errorCounter + 1) % 256 then _ else _) = s1
    obtain ⟨t1, t2, t3⟩ := setHeaterState_sampling s1
    have g : s1._previousDewMillis = s._previousDewMillis ∧
        s1._asyncConversionStarted = s._asyncConversionStarted ∧
        s1._conversionStartTime = s._conversionStartTime := by
      subst hs1
      split_ifs <;> exact ⟨rfl, rfl, rfl⟩
    exact ⟨t1.trans g.1, t2.trans g.2.1, t3.trans g.2.2⟩

end HeaterController

/-! ## Theorems: light controller -/

namespace LightController

/-- C3, the code at the failing input: with `maxBrightness = 255`,
`turnPanelTo(128)` stores PWM 513 (`128 * 1023 / 255` truncated); after the
settle time the state is Ready, but `getCurrentBrightness()` maps 513 back to
127 (`513 * 255 / 1023` truncated), not 128. -/
theorem brightness_readback_128 :
    (loop 10 (turnPanelTo 128 0 (begin ⟨0, 0, 0, 255, 5⟩ {})))._calibratorState
      = CalibratorState.CAL_READY ∧
    (loop 10 (turnPanelTo 128 0 (begin ⟨0, 0, 0, 255, 5⟩ {})))._lightValue = 513 ∧
    getCurrentBrightness (loop 10 (turnPanelTo 128 0 (begin ⟨0, 0, 0, 255, 5⟩ {}))) = 127 := by
  decide

theorem turnPanelTo_fields (value now : Nat) (s : LightController) :
    (turnPanelTo value now s)._calibratorState = CalibratorState.CAL_NOT_READY ∧
    (turnPanelTo value now s)._startLightTimer = now ∧
    (turnPanelTo value now s)._stabilizeTime = s._stabilizeTime := ⟨rfl, rfl, rfl⟩

theorem settleInv_turn {S : Nat} {h : LightHistory} (value now : Nat)
    (hi : SettleInv S h) :
    SettleInv S { panel := turnPanelTo value now h.panel, lastTurn := some now, readyAt := none } :=
  ⟨hi.1, fun _ => rfl, fun hr =>
    absurd (show CalibratorState.CAL_NOT_READY = CalibratorState.CAL_READY from hr) (by decide)⟩

theorem processLightStabilization_cases (now : Nat) (s : LightController) :
    (processLightStabilization now s = s ∧
      ¬ (s._calibratorState = CalibratorState.CAL_NOT_READY ∧
          s._stabilizeTime ≤ sub32 now s._startLightTimer)) ∨
    (s._calibratorState = CalibratorState.CAL_NOT_READY ∧
      s._stabilizeTime ≤ sub32 now s._startLightTimer ∧
      (processLightStabilization now s)._calibratorState = CalibratorState.CAL_READY ∧
      (processLightStabilization now s)._stabilizeTime = s._stabilizeTime ∧
      (processLightStabilization now s)._lightValue = s._lightValue ∧
      (processLightStabilization now s)._previousLightPanelValue = s._lightValue ∧
      (processLightStabilization now s)._maxBrightness = s._maxBrightness ∧
      (processLightStabilization now s)._autoON = s._autoON ∧
      (processLightStabilization now s).log = LightEvent.savePanelValue s._lightValue :: s.log) := by
  unfold processLightStabilization
  by_cases h1 : s._calibratorState = CalibratorState.CAL_NOT_READY
  · by_cases h2 : s._stabilizeTime ≤ sub32 now s._startLightTimer
    · rw [if_pos h1, if_pos h2]
      exact Or.inr ⟨h1, h2, rfl, rfl, rfl, rfl, rfl, rfl, rfl⟩
    · rw [if_pos h1, if_neg h2]
      exact Or.inl ⟨rfl, fun hh => h2 hh.2⟩
  · rw [if_neg h1]
    exact Or.inl ⟨rfl, fun hh => h1 hh.1⟩

theorem settleInv_track {S : Nat} (c : LightCall) (hc : c.keepsSettle = true)
    {h : LightHistory} (hi : SettleInv S h) : SettleInv S (c.track h) := by
  have hi' := hi
  obtain ⟨i1, i2, i3⟩ := hi'
  cases c with
  | turnPanelTo value now => exact settleInv_turn value now hi
  | turnPanelOff =>
    exact ⟨i1,
      fun hn => absurd (show CalibratorState.CAL_OFF = CalibratorState.CAL_NOT_READY from hn)
        (by decide),
      fun hr => absurd (show CalibratorState.CAL_OFF = CalibratorState.CAL_READY from hr)
        (by decide)⟩
  | restorePreviousLight now =>
    by_cases ha : h.panel._autoON = true
    · have e : (LightCall.restorePreviousLight now).track h
          = { panel := turnPanelTo (if 0 < h.panel._maxBrightness then toUInt16 (map h.panel._previousLightPanelValue 0 LIGHT_PWM_MAX 0 h.panel._maxBrightness) else 0) now h.panel, lastTurn := some now, readyAt := none } := by
        simp only [LightCall.track, LightCall.run, restorePreviousLight, ha, if_true]
      rw [e]
      exact settleInv_turn _ now hi
    · have e : (LightCall.restorePreviousLight now).track h = h := by
        simp [LightCall.track, ha, LightCall.run, restorePreviousLight]
      rw [e]
      exact hi
  | loop now =>
    rcases processLightStabilization_cases now h.panel with ⟨e, hn⟩ | ⟨c1, c2, c3, c4, _⟩
    · have e2 : (LightCall.loop now).track h = h := by
        have e3 : (LightCall.loop now).run h.panel = h.panel := e
        simp only [LightCall.track, e3]
        split_ifs with hx
        · exact absurd hx.2 hx.1
        · rfl
      rw [e2]
      exact hi
    · have e3 : ((LightCall.loop now).run h.panel)._calibratorState
          = CalibratorState.CAL_READY := c3
      have e2 : (LightCall.loop now).track h
          = { h with panel := (LightCall.loop now).run h.panel, readyAt := some now } := by
        simp only [LightCall.track]
        rw [if_pos ⟨by rw [c1]; decide, e3⟩]
      rw [e2]
      refine ⟨c4.trans i1, fun hn => ?_, fun _ => ?_⟩
      · exact absurd (e3.symm.trans hn) (by decide)
      · exact ⟨h.panel._startLightTimer, now, i2 c1, rfl, by rw [← i1]; exact c2⟩
  | setAutoON value => exact hi
  | setStabilizeTime ms => simp [LightCall.keepsSettle] at hc
  | setMaxBrightness value => exact hi
  | saveBroadband => exact hi
  | saveNarrowband => exact hi
  | setBroadband value => exact hi
  | setNarrowband value => exact hi

theorem settleInv_foldl {S : Nat} (calls : List LightCall)
    (hc : ∀ c ∈ calls, c.keepsSettle = true) {h : LightHistory} (hi : SettleInv S h) :
    SettleInv S (calls.foldl (fun h c => c.track h) h) := by
  induction calls generalizing h with
  | nil => exact hi
  | cons c cs ih =>
    exact ih (fun d hd => hc d (List.mem_cons_of_mem c hd))
      (settleInv_track c (hc c (List.mem_cons_self c cs)) hi)

/-- C13: settle guarantee.  With the settle duration `S` loaded at `begin()`
and not changed afterwards, whenever the light state is Ready after any
sequence of calls, there was a most recent `turnPanelTo` at some counter value
`t0`, the scheduler pass that made the panel Ready came at some counter value
`now`, and `(now - t0) mod 2^32 ≥ S`. -/
theorem settle_guarantee (st : Stored) (calls : List LightCall)
    (hc : ∀ c ∈ calls, c.keepsSettle = true)
    (hr : (lightHistory st calls).panel._calibratorState = CalibratorState.CAL_READY) :
    ∃ t0 now, (lightHistory st calls).lastTurn = some t0 ∧
      (lightHistory st calls).readyAt = some now ∧ st.stabilizeTime ≤ sub32 now t0 := by
  have base : SettleInv st.stabilizeTime
      { panel := begin st {}, lastTurn := none, readyAt := none } := by
    have hs : (begin st {})._calibratorState = CalibratorState.CAL_OFF := rfl
    have ht : (begin st {})._stabilizeTime = st.stabilizeTime := by
      unfold begin
      dsimp only
      split_ifs <;> rfl
    refine ⟨ht, fun hn => ?_, fun hr => ?_⟩
    · exact absurd (hs.symm.trans hn) (by decide)
    · exact absurd (hs.symm.trans hr) (by decide)
  exact (settleInv_foldl calls hc base).2.2 hr

/-- Witness for `settle_guarantee`: settle duration 1000, `turnPanelTo` shortly
before the counter wraps, a first pass too early and a second one 1000 ms
after the call, on the other side of the wrap. -/
theorem settle_guarantee_witness :
    ∃ t0 now,
      (lightHistory ⟨0, 0, 0, 255, 1000⟩
        [LightCall.turnPanelTo 128 4294967000, LightCall.loop 4294967100,
         LightCall.loop 704]).lastTurn = some t0 ∧
      (lightHistory ⟨0, 0, 0, 255, 1000⟩
        [LightCall.turnPanelTo 128 4294967000, LightCall.loop 4294967100,
         LightCall.loop 704]).readyAt = some now ∧
      (1000 : Nat) ≤ sub32 now t0 :=
  settle_guarantee ⟨0, 0, 0, 255, 1000⟩
    [LightCall.turnPanelTo 128 4294967000, LightCall.loop 4294967100, LightCall.loop 704]
    (by decide) (by decide)

theorem orderedTrace_cons {e : LightEvent} {log : List LightEvent} (h : OrderedTrace log)
    (he : RelayGuardsPWM (e :: log)) : OrderedTrace (e :: log) := by
  intro l hl
  rcases List.suffix_cons_iff.1 hl with rfl | hl
  · exact he
  · exact h l hl

theorem orderedTrace_self {log : List LightEvent} (h : OrderedTrace log) : RelayGuardsPWM log :=
  h log (List.suffix_refl log)

theorem orderedTrace_turnPanelTo (value now : Nat) {s : LightController}
    (h : OrderedTrace s.log) : OrderedTrace (turnPanelTo value now s).log := by
  have e : ∃ x, (turnPanelTo value now s).log
      = LightEvent.analogWrite x :: LightEvent.digitalWrite true :: s.log := ⟨_, rfl⟩
  obtain ⟨x, hx⟩ := e
  rw [hx]
  apply orderedTrace_cons
  · apply orderedTrace_cons h
    intro v _ _
    rfl
  · intro v _ _
    rfl

theorem orderedTrace_turnPanelOff {s : LightController} (h : OrderedTrace s.log) :
    OrderedTrace (turnPanelOff s).log := by
  have e : (turnPanelOff s).log
      = LightEvent.digitalWrite false :: LightEvent.analogWrite 0 :: s.log := rfl
  rw [e]
  apply orderedTrace_cons
  · apply orderedTrace_cons h
    intro v hv hv0
    exact absurd (Option.some.inj hv).symm hv0
  · intro v hv hv0
    exact absurd (Option.some.inj hv).symm hv0

theorem orderedTrace_storage {e : LightEvent} {log : List LightEvent} (h : OrderedTrace log)
    (h1 : lastPWM (e :: log) = lastPWM log) (h2 : relayState (e :: log) = relayState log) :
    OrderedTrace (e :: log) := by
  apply orderedTrace_cons h
  intro v hv hv0
  rw [h2]
  rw [h1] at hv
  exact orderedTrace_self h v hv hv0

theorem orderedTrace_call (c : LightCall) {s : LightController} (h : OrderedTrace s.log) :
    OrderedTrace (c.run s).log := by
  cases c with
  | turnPanelTo value now => exact orderedTrace_turnPanelTo value now h
  | turnPanelOff => exact orderedTrace_turnPanelOff h
  | restorePreviousLight now =>
    show OrderedTrace (restorePreviousLight now s).log
    unfold restorePreviousLight
    by_cases ha : s._autoON = true
    · rw [if_pos ha]
      exact orderedTrace_turnPanelTo _ now h
    · rw [if_neg ha]
      exact h
  | loop now =>
    show OrderedTrace (processLightStabilization now s).log
    rcases processLightStabilization_cases now s with ⟨e, _⟩ | ⟨_, _, _, _, _, _, _, _, e⟩
    · rw [e]; exact h
    · rw [e]; exact orderedTrace_storage h rfl rfl
  | setAutoON value => exact h
  | setStabilizeTime ms => exact h
  | setMaxBrightness value => exact orderedTrace_storage h rfl rfl
  | saveBroadband => exact orderedTrace_storage h rfl rfl
  | saveNarrowband => exact orderedTrace_storage h rfl rfl
  | setBroadband value => exact h
  | setNarrowband value => exact h

theorem orderedTrace_foldl (calls : List LightCall) {s : LightController}
    (h : OrderedTrace s.log) : OrderedTrace (calls.foldl (fun s c => c.run s) s).log := by
  induction calls generalizing s with
  | nil => exact h
  | cons c cs ih => exact ih (orderedTrace_call c h)

theorem orderedTrace_begin (st : Stored) : OrderedTrace (begin st {}).log := by
  have e : (begin st {}).log = [LightEvent.digitalWrite false] := by
    unfold begin
    dsimp only
    split_ifs <;> rfl
  rw [e]
  apply orderedTrace_cons
  · intro l hl
    rw [List.suffix_nil.1 hl]
    intro v hv
    exact absurd hv (by simp [lastPWM])
  · intro v hv
    exact absurd hv (by simp [lastPWM])

/-- C14: relay/PWM ordering.  In the trace of hardware writes produced by
`begin()` followed by any sequence of calls (`turnPanelTo`, `turnPanelOff`,
`restorePreviousLight`, `loop` and the setters), at every instant the PWM value
last written is nonzero only while the relay level last written is on;
`turnPanelTo` writes relay-on and then its PWM value, `turnPanelOff` writes
PWM 0 and then relay-off. -/
theorem relay_pwm_ordering (st : Stored) (calls : List LightCall) (s : LightController)
    (value now : Nat) :
    OrderedTrace (lightRun st calls).log ∧
    (turnPanelTo value now s).log
      = LightEvent.analogWrite (turnPanelTo value now s)._lightValue ::
          LightEvent.digitalWrite true :: s.log ∧
    (turnPanelOff s).log
      = LightEvent.digitalWrite false :: LightEvent.analogWrite 0 :: s.log :=
  ⟨orderedTrace_foldl calls (orderedTrace_begin st), rfl, rfl⟩

end LightController

namespace LightController

/-- C16, the code at the failing input: with `maxBrightness = 255` and the
auto-restore flag set, `turnPanelTo(128)` writes PWM 513 and the settle
completion remembers 513.  `restorePreviousLight()` converts 513 back to the
step `513 * 255 / 1023 = 127` (truncated) and `turnPanelTo(127)` writes PWM
509, not 513.  The next settle completion remembers 509, and the next restore
writes 505: every settle/restore cycle lowers the brightness. -/
theorem restorePreviousLight_drift :
    (lightRun ⟨0, 0, 0, 255, 5⟩ [LightCall.setAutoON true, LightCall.turnPanelTo 128 0,
      LightCall.loop 10])._previousLightPanelValue = 513 ∧
    (lightRun ⟨0, 0, 0, 255, 5⟩ [LightCall.setAutoON true, LightCall.turnPanelTo 128 0,
      LightCall.loop 10, LightCall.restorePreviousLight 20])._lightValue = 509 ∧
    lastPWM (lightRun ⟨0, 0, 0, 255, 5⟩ [LightCall.setAutoON true, LightCall.turnPanelTo 128 0,
      LightCall.loop 10, LightCall.restorePreviousLight 20]).log = some 509 ∧
    (lightRun ⟨0, 0, 0, 255, 5⟩ [LightCall.setAutoON true, LightCall.turnPanelTo 128 0,
      LightCall.loop 10, LightCall.restorePreviousLight 20,
      LightCall.loop 30])._previousLightPanelValue = 509 ∧
    (lightRun ⟨0, 0, 0, 255, 5⟩ [LightCall.setAutoON true, LightCall.turnPanelTo 128 0,
      LightCall.loop 10, LightCall.restorePreviousLight 20, LightCall.loop 30,
      LightCall.restorePreviousLight 40])._lightValue = 505 := by
  decide

end LightController

/-! ## Theorems: the monolithic firmware -/

namespace Monolith

/-- C17, the code at the failing input: the cover is Closed and the heater is
On with duty 200 on both channels.  `openCover()` is accepted (the cover goes
to Moving) and clears `manualHeat`, but it neither recomputes `heaterState`
nor writes the heater pins: the reported state is still 3 (On) and the only
pin event added is the servo attach, so both channels keep duty 200.  A call
of `setHeaterState()`, which `openCover()` does not make, is what would have
reported Off and written 0 to both channels. -/
theorem openCover_leaves_heater_on :
    (openCover 180 1000 closedAndHeating).currentCoverState = 2 ∧
    (openCover 180 1000 closedAndHeating).manualHeat = false ∧
    (openCover 180 1000 closedAndHeating).heaterState = 3 ∧
    (openCover 180 1000 closedAndHeating).log =
      [PinEvent.servoAttach 10 500 2500, PinEvent.analogWrite 14 200,
       PinEvent.analogWrite 13 200] ∧
    (setHeaterState (openCover 180 1000 closedAndHeating)).heaterState = 1 ∧
    (setHeaterState (openCover 180 1000 closedAndHeating)).log =
      [PinEvent.analogWrite 14 0, PinEvent.analogWrite 13 0,
       PinEvent.servoAttach 10 500 2500, PinEvent.analogWrite 14 200,
       PinEvent.analogWrite 13 200] := by
  decide

end Monolith

/-! ## Theorems: easing profiles -/

namespace CoverController

/-- C18: easing fixed points.  Over the reals each of the eight profiles of
`calculateEasedProgress` maps 0 to 0, 0.5 to 0.5 and 1 to 1. -/
theorem easing_fixed_points (profile : EasingProfile) :
    calculateEasedProgress profile 0 = 0 ∧
    calculateEasedProgress profile 0.5 = 0.5 ∧
    calculateEasedProgress profile 1 = 1 := by
  have h5 : ¬ ((0.5 : ℝ) < 0.5) := lt_irrefl _
  have h1 : ¬ ((1 : ℝ) < 0.5) := by norm_num
  have h0 : (0 : ℝ) < 0.5 := by norm_num
  cases profile
  · exact ⟨rfl, rfl, rfl⟩
  · refine ⟨?_, ?_, ?_⟩
    · simp only [calculateEasedProgress, if_pos h0]
      norm_num
    · simp only [calculateEasedProgress, if_neg h5]
      norm_num
    · simp only [calculateEasedProgress, if_neg h1]
      norm_num
  · refine ⟨?_, ?_, ?_⟩
    · simp only [calculateEasedProgress, if_pos h0]
      norm_num
    · simp only [calculateEasedProgress, if_neg h5]
      norm_num
    · simp only [calculateEasedProgress, if_neg h1]
      norm_num
  · refine ⟨?_, ?_, ?_⟩
    · simp [calculateEasedProgress]
    · have e : (-20 * (0.5 : ℝ) + 10) = 0 := by norm_num
      have n0 : ¬ ((0.5 : ℝ) = 0) := by norm_num
      have n1 : ¬ ((0.5 : ℝ) = 1) := by norm_num
      simp only [calculateEasedProgress, if_neg h5, if_neg n0, if_neg n1, e, Real.rpow_zero]
      norm_num
    · simp [calculateEasedProgress]
  · refine ⟨?_, ?_, ?_⟩
    · simp only [calculateEasedProgress, if_pos h0]
      norm_num
    · simp only [calculateEasedProgress, if_neg h5]
      norm_num
    · simp only [calculateEasedProgress, if_neg h1]
      norm_num
  · refine ⟨?_, ?_, ?_⟩
    · simp only [calculateEasedProgress, if_pos h0]
      norm_num
    · simp only [calculateEasedProgress, if_neg h5]
      norm_num
    · simp only [calculateEasedProgress, if_neg h1]
      norm_num
  · refine ⟨?_, ?_, ?_⟩
    · simp only [calculateEasedProgress, if_pos h0]
      norm_num
    · simp only [calculateEasedProgress, if_neg h5]
      norm_num
    · simp only [calculateEasedProgress, if_neg h1]
      norm_num
  · refine ⟨?_, ?_, ?_⟩
    · simp [calculateEasedProgress]
    · have e : Real.pi * (0.5 : ℝ) = Real.pi / 2 := by ring
      simp only [calculateEasedProgress, e, Real.cos_pi_div_two]
      norm_num
    · simp only [calculateEasedProgress, mul_one, Real.cos_pi]
      norm_num

/-- A two-half profile is monotone when each half is, the first half stays
below one half and the second half stays above it. -/
theorem monotone_two_halves (f g : ℝ → ℝ) {p q : ℝ} (hpq : p ≤ q)
    (hf : p < 0.5 → q < 0.5 → f p ≤ f q) (hg : ¬ p < 0.5 → ¬ q < 0.5 → g p ≤ g q)
    (hlo : p < 0.5 → f p ≤ 0.5) (hhi : ¬ q < 0.5 → 0.5 ≤ g q) :
    (if p < 0.5 then f p else g p) ≤ (if q < 0.5 then f q else g q) := by
  by_cases h1 : p < 0.5
  · by_cases h2 : q < 0.5
    · rw [if_pos h1, if_pos h2]
      exact hf h1 h2
    · rw [if_pos h1, if_neg h2]
      exact le_trans (hlo h1) (hhi h2)
  · have h2 : ¬ q < 0.5 := fun h => h1 (lt_of_le_of_lt hpq h)
    rw [if_neg h1, if_neg h2]
    exact hg h1 h2

/-- The second half `1 - (2 - 2p)^n / 2` of the polynomial profiles. -/
theorem second_half_mono (n : ℕ) {p q : ℝ} (hpq : p ≤ q) (hq1 : q ≤ 1) :
    1 - (-2 * p + 2) ^ n / 2 ≤ 1 - (-2 * q + 2) ^ n / 2 := by
  have h : (-2 * q + 2) ^ n ≤ (-2 * p + 2) ^ n :=
    pow_le_pow_left₀ (by linarith) (by linarith) n
  linarith

theorem second_half_ge (n : ℕ) {q : ℝ} (hq : ¬ q < 0.5) (hq1 : q ≤ 1) :
    (0.5 : ℝ) ≤ 1 - (-2 * q + 2) ^ n / 2 := by
  have hq5 : (0.5 : ℝ) ≤ q := not_lt.mp hq
  have half : (0.5 : ℝ) = 1 / 2 := by norm_num
  rw [half] at hq5 ⊢
  have h : (-2 * q + 2) ^ n ≤ 1 := pow_le_one₀ (by linarith) (by linarith)
  linarith

/-- The first half `c * p^n` of the polynomial profiles, with `c = 2^(n-1)`. -/
theorem first_half_mono (n : ℕ) (c : ℝ) (hc : 0 ≤ c) {p q : ℝ} (hp0 : 0 ≤ p) (hpq : p ≤ q) :
    c * p ^ n ≤ c * q ^ n :=
  mul_le_mul_of_nonneg_left (pow_le_pow_left₀ hp0 hpq n) hc

theorem first_half_le (n : ℕ) (c : ℝ) (hc : 0 ≤ c) (hcn : c * (0.5 : ℝ) ^ n = 0.5) {p : ℝ}
    (hp0 : 0 ≤ p) (hp : p < 0.5) : c * p ^ n ≤ 0.5 := by
  have h := first_half_mono n c hc hp0 (le_of_lt hp)
  rw [hcn] at h
  exact h

theorem easing_monotone_circular {p q : ℝ} (hp0 : 0 ≤ p) (hpq : p ≤ q) (hq1 : q ≤ 1) :
    calculateEasedProgress EasingProfile.USE_CIRCULAR p
      ≤ calculateEasedProgress EasingProfile.USE_CIRCULAR q := by
  have half : (0.5 : ℝ) = 1 / 2 := by norm_num
  simp only [calculateEasedProgress]
  apply monotone_two_halves
    (fun x => 0.5 * (1 - Real.sqrt (1 - 4 * x ^ 2)))
    (fun x => 0.5 * (Real.sqrt ((-((2 * x) - 3)) * ((2 * x) - 1)) + 1)) hpq
  · intro _ _
    have h : Real.sqrt (1 - 4 * q ^ 2) ≤ Real.sqrt (1 - 4 * p ^ 2) :=
      Real.sqrt_le_sqrt (by nlinarith)
    show 0.5 * (1 - Real.sqrt (1 - 4 * p ^ 2)) ≤ 0.5 * (1 - Real.sqrt (1 - 4 * q ^ 2))
    rw [half]
    linarith
  · intro h1 _
    have hp5 : (0.5 : ℝ) ≤ p := not_lt.mp h1
    rw [half] at hp5
    have h : Real.sqrt ((-((2 * p) - 3)) * ((2 * p) - 1))
        ≤ Real.sqrt ((-((2 * q) - 3)) * ((2 * q) - 1)) :=
      Real.sqrt_le_sqrt (by nlinarith)
    show 0.5 * (Real.sqrt ((-((2 * p) - 3)) * ((2 * p) - 1)) + 1)
      ≤ 0.5 * (Real.sqrt ((-((2 * q) - 3)) * ((2 * q) - 1)) + 1)
    rw [half]
    linarith
  · intro _
    have h := Real.sqrt_nonneg (1 - 4 * p ^ 2)
    show 0.5 * (1 - Real.sqrt (1 - 4 * p ^ 2)) ≤ 0.5
    rw [half]
    linarith
  · intro _
    have h := Real.sqrt_nonneg ((-((2 * q) - 3)) * ((2 * q) - 1))
    show (0.5 : ℝ) ≤ 0.5 * (Real.sqrt ((-((2 * q) - 3)) * ((2 * q) - 1)) + 1)
    rw [half]
    linarith

theorem easing_monotone_expo {p q : ℝ} (hp0 : 0 ≤ p) (hpq : p ≤ q) (hq1 : q ≤ 1) :
    calculateEasedProgress EasingProfile.USE_EXPO p
      ≤ calculateEasedProgress EasingProfile.USE_EXPO q := by
  have two : (1 : ℝ) ≤ 2 := by norm_num
  have half : (0.5 : ℝ) = 1 / 2 := by norm_num
  -- the value of the two inner branches lies in [0, 1]
  have inner : ∀ x : ℝ, 0 ≤ x → x ≤ 1 →
      0 ≤ (if x < 0.5 then (2 : ℝ) ^ (20 * x - 10) / 2 else (2 - (2 : ℝ) ^ (-20 * x + 10)) / 2) ∧
      (if x < 0.5 then (2 : ℝ) ^ (20 * x - 10) / 2 else (2 - (2 : ℝ) ^ (-20 * x + 10)) / 2) ≤ 1 := by
    intro x hx0 hx1
    by_cases hx : x < 0.5
    · rw [if_pos hx]
      have a : (0 : ℝ) < (2 : ℝ) ^ (20 * x - 10) := Real.rpow_pos_of_pos (by norm_num) _
      have b : (2 : ℝ) ^ (20 * x - 10) ≤ 1 :=
        Real.rpow_le_one_of_one_le_of_nonpos two (by rw [half] at hx; linarith)
      constructor <;> linarith
    · rw [if_neg hx]
      have hx5 : (0.5 : ℝ) ≤ x := not_lt.mp hx
      have a : (0 : ℝ) < (2 : ℝ) ^ (-20 * x + 10) := Real.rpow_pos_of_pos (by norm_num) _
      have b : (2 : ℝ) ^ (-20 * x + 10) ≤ 1 :=
        Real.rpow_le_one_of_one_le_of_nonpos two (by rw [half] at hx5; linarith)
      constructor <;> linarith
  have mid : (if p < 0.5 then (2 : ℝ) ^ (20 * p - 10) / 2 else (2 - (2 : ℝ) ^ (-20 * p + 10)) / 2)
      ≤ (if q < 0.5 then (2 : ℝ) ^ (20 * q - 10) / 2 else (2 - (2 : ℝ) ^ (-20 * q + 10)) / 2) := by
    apply monotone_two_halves (fun x => (2 : ℝ) ^ (20 * x - 10) / 2)
      (fun x => (2 - (2 : ℝ) ^ (-20 * x + 10)) / 2) hpq
    · intro _ _
      have h : (2 : ℝ) ^ (20 * p - 10) ≤ (2 : ℝ) ^ (20 * q - 10) :=
        Real.rpow_le_rpow_of_exponent_le two (by linarith)
      show (2 : ℝ) ^ (20 * p - 10) / 2 ≤ (2 : ℝ) ^ (20 * q - 10) / 2
      linarith
    · intro _ _
      have h : (2 : ℝ) ^ (-20 * q + 10) ≤ (2 : ℝ) ^ (-20 * p + 10) :=
        Real.rpow_le_rpow_of_exponent_le two (by linarith)
      show (2 - (2 : ℝ) ^ (-20 * p + 10)) / 2 ≤ (2 - (2 : ℝ) ^ (-20 * q + 10)) / 2
      linarith
    · intro hp
      have b : (2 : ℝ) ^ (20 * p - 10) ≤ 1 :=
        Real.rpow_le_one_of_one_le_of_nonpos two (by rw [half] at hp; linarith)
      show (2 : ℝ) ^ (20 * p - 10) / 2 ≤ 0.5
      rw [half]
      linarith
    · intro hq
      have hq5 : (0.5 : ℝ) ≤ q := not_lt.mp hq
      have b : (2 : ℝ) ^ (-20 * q + 10) ≤ 1 :=
        Real.rpow_le_one_of_one_le_of_nonpos two (by rw [half] at hq5; linarith)
      show (0.5 : ℝ) ≤ (2 - (2 : ℝ) ^ (-20 * q + 10)) / 2
      rw [half]
      linarith
  simp only [calculateEasedProgress]
  by_cases p0 : p = 0
  · rw [if_pos p0]
    by_cases q0 : q = 0
    · rw [if_pos q0]
    · rw [if_neg q0]
      by_cases q1 : q = 1
      · rw [if_pos q1]
        norm_num
      · rw [if_neg q1]
        exact (inner q (le_trans hp0 hpq) hq1).1
  · have q0 : ¬ q = 0 := fun h => p0 (le_antisymm (h ▸ hpq) hp0)
    rw [if_neg p0, if_neg q0]
    by_cases q1 : q = 1
    · rw [if_pos q1]
      by_cases p1 : p = 1
      · rw [if_pos p1]
      · rw [if_neg p1]
        exact (inner p hp0 (le_trans hpq hq1)).2
    · have p1 : ¬ p = 1 := fun h => q1 (le_antisymm hq1 (h ▸ hpq))
      rw [if_neg q1, if_neg p1]
      exact mid

theorem easing_monotone_poly (n : ℕ) (c : ℝ) (hc : 0 ≤ c) (hcn : c * (0.5 : ℝ) ^ n = 0.5)
    {p q : ℝ} (hp0 : 0 ≤ p) (hpq : p ≤ q) (hq1 : q ≤ 1) :
    (if p < 0.5 then c * p ^ n else 1 - (-2 * p + 2) ^ n / 2)
      ≤ (if q < 0.5 then c * q ^ n else 1 - (-2 * q + 2) ^ n / 2) := by
  apply monotone_two_halves (fun x => c * x ^ n) (fun x => 1 - (-2 * x + 2) ^ n / 2) hpq
  · intro _ _
    exact first_half_mono n c hc hp0 hpq
  · intro _ _
    exact second_half_mono n hpq hq1
  · intro hp
    exact first_half_le n c hc hcn hp0 hp
  · intro hq
    exact second_half_ge n hq hq1

/-- C19: easing monotonicity.  Over the reals, for each of the eight profiles
of `calculateEasedProgress` and all `p`, `q` with `0 ≤ p ≤ q ≤ 1`, the eased
value at `p` is at most the eased value at `q`. -/
theorem easing_monotone (profile : EasingProfile) (p q : ℝ) (hp0 : 0 ≤ p) (hpq : p ≤ q)
    (hq1 : q ≤ 1) :
    calculateEasedProgress profile p ≤ calculateEasedProgress profile q := by
  cases profile
  · exact hpq
  · exact easing_monotone_circular hp0 hpq hq1
  · have h := easing_monotone_poly 3 4 (by norm_num) (by norm_num) hp0 hpq hq1
    have e : ∀ x : ℝ, 4 * x * x * x = 4 * x ^ 3 := fun x => by ring
    simp only [calculateEasedProgress, e]
    exact h
  · exact easing_monotone_expo hp0 hpq hq1
  · have h := easing_monotone_poly 2 2 (by norm_num) (by norm_num) hp0 hpq hq1
    have e : ∀ x : ℝ, 2 * x * x = 2 * x ^ 2 := fun x => by ring
    simp only [calculateEasedProgress, e]
    exact h
  · have h := easing_monotone_poly 4 8 (by norm_num) (by norm_num) hp0 hpq hq1
    have e : ∀ x : ℝ, 8 * x * x * x * x = 8 * x ^ 4 := fun x => by ring
    simp only [calculateEasedProgress, e]
    exact h
  · have h := easing_monotone_poly 5 16 (by norm_num) (by norm_num) hp0 hpq hq1
    have e : ∀ x : ℝ, 16 * x * x * x * x * x = 16 * x ^ 5 := fun x => by ring
    simp only [calculateEasedProgress, e]
    exact h
  · simp only [calculateEasedProgress]
    have h : Real.cos (Real.pi * q) ≤ Real.cos (Real.pi * p) :=
      Real.cos_le_cos_of_nonneg_of_le_pi (mul_nonneg Real.pi_pos.le hp0)
        (by nlinarith [Real.pi_pos]) (mul_le_mul_of_nonneg_left hpq Real.pi_pos.le)
    linarith

/-- Witness for `easing_monotone`: the cubic profile at `p = 0.25`, `q = 0.75`,
on either side of the split. -/
theorem easing_monotone_witness :
    calculateEasedProgress EasingProfile.USE_CUBIC 0.25
      ≤ calculateEasedProgress EasingProfile.USE_CUBIC 0.75 :=
  easing_monotone EasingProfile.USE_CUBIC 0.25 0.75 (by norm_num) (by norm_num) (by norm_num)

end CoverController

/-! ## Theorems: cover controller, completion, timeout and detach -/

namespace CoverController

theorem toInt16_idem (x : Int) : toInt16 (toInt16 x) = toInt16 x := by
  unfold toInt16
  omega

theorem toInt16_range (x : Int) : -32768 ≤ toInt16 x ∧ toInt16 x ≤ 32767 := by
  unfold toInt16
  omega

theorem toInt16_of_range {x : Int} (h : -32768 ≤ x ∧ x ≤ 32767) : toInt16 x = x := by
  unfold toInt16
  omega

/-- At progress 1 the interpolation returns the target exactly. -/
theorem calculateServoPosition_full (lastPos targetPos : Int) {T : Nat} (hT : 0 < T)
    (hL : -32768 ≤ lastPos ∧ lastPos ≤ 32767) (hG : -32768 ≤ targetPos ∧ targetPos ≤ 32767) :
    calculateServoPosition lastPos targetPos ⟨T, T⟩ = targetPos := by
  have hp := Progress.toFloat_full hT
  have hD : F32.val (F32.ofInt (targetPos - lastPos)) = ((targetPos - lastPos : Int) : ℚ) :=
    F32.val_ofInt_exact _ (by rw [abs_le]; omega)
  have hLv : F32.val (F32.ofInt lastPos) = (lastPos : ℚ) :=
    F32.val_ofInt_exact _ (by rw [abs_le]; omega)
  have hm : F32.val (F32.mul (F32.ofInt (targetPos - lastPos)) (Progress.toFloat ⟨T, T⟩))
      = ((targetPos - lastPos : Int) : ℚ) :=
    F32.val_mul_exact _ _ _ (by rw [hD, hp, mul_one]) (by rw [abs_le]; omega)
  have hs : F32.val (F32.add (F32.ofInt lastPos)
      (F32.mul (F32.ofInt (targetPos - lastPos)) (Progress.toFloat ⟨T, T⟩)))
      = ((targetPos : Int) : ℚ) :=
    F32.val_add_exact _ _ _ (by rw [hLv, hm]; push_cast; ring) (by rw [abs_le]; omega)
  unfold calculateServoPosition
  rw [F32.toInt_eq, hs, truncQ_intCast]

theorem progressAt_complete {now : Nat} {s : CoverController}
    (hp : (progressAt now s).complete = true) :
    0 < s._timeToMove ∧ progressAt now s = ⟨s._timeToMove, s._timeToMove⟩ := by
  simp only [Progress.complete, progressAt, Bool.and_eq_true, decide_eq_true_eq] at hp
  obtain ⟨h0, h1⟩ := hp
  refine ⟨h0, ?_⟩
  unfold progressAt
  have : min (add32 (sub32 now s._startServoTimer) s._elapsedMoveTime) s._timeToMove
      = s._timeToMove := le_antisymm (Nat.min_le_right _ _) h1
  rw [this]

/-- C22: completion under the linear profile.  A scheduler pass in state
Moving that has not timed out and whose progress reaches 1 sets the state to
Open when the target is open (`_moveCoverTo = 3`) and to Closed otherwise,
resets the carried elapsed time to 0, records the session target, which is the
target endpoint angle as an `int16_t` (the angle itself when it is at most
32767), as the current position, adds the close-completed callback to the
trace exactly when the target is closed (`_moveCoverTo = 1`) and a callback
is registered, saves the new state, and starts the detach countdown at the
time of the pass. -/
theorem completion (now : Nat) (s : CoverController)
    (hm : s._currentState = CoverState.COVER_MOVING)
    (hto : ¬ mul32 s._timeToMove 2 ≤ sub32 now s._startServoTimer)
    (hp : (progressAt now s).complete = true) :
    (loop now s)._currentState
      = (if s._moveCoverTo = 3 then CoverState.COVER_OPEN else CoverState.COVER_CLOSED) ∧
    (loop now s)._elapsedMoveTime = 0 ∧
    (loop now s)._lastPosition
      = toInt16 (if s._moveCoverTo = 3 then (s._openAngle : Int) else (s._closeAngle : Int)) ∧
    ((if s._moveCoverTo = 3 then s._openAngle else s._closeAngle) ≤ 32767 →
      (loop now s)._lastPosition
        = ((if s._moveCoverTo = 3 then s._openAngle else s._closeAngle : Nat) : Int)) ∧
    (∃ w, (w = [] ∨ ∃ a us, w = [ServoEvent.writeMicroseconds a us]) ∧
      (loop now s).log =
        ServoEvent.saveCoverState
            (if s._moveCoverTo = 3 then CoverState.COVER_OPEN
             else CoverState.COVER_CLOSED).toUInt8 ::
          ((if s._moveCoverTo = 1 ∧ s._onCloseComplete = true then [ServoEvent.onCloseComplete]
            else []) ++ (w ++ s.log))) ∧
    (loop now s)._detachPending = true ∧
    (loop now s)._startDetachTimer = now := by
  obtain ⟨hT, hpa⟩ := progressAt_complete hp
  have hang : toInt16 (calculateServoPosition (toInt16 s._lastPosition)
      (toInt16 (if s._moveCoverTo = 3 then (s._openAngle : Int) else (s._closeAngle : Int)))
      (progressAt now s))
      = toInt16 (if s._moveCoverTo = 3 then (s._openAngle : Int) else (s._closeAngle : Int)) := by
    rw [hpa, calculateServoPosition_full _ _ hT (toInt16_range _) (toInt16_range _), toInt16_idem]
  -- the pass itself
  have key : (processCoverMovement now s)._currentState
        = (if s._moveCoverTo = 3 then CoverState.COVER_OPEN else CoverState.COVER_CLOSED) ∧
      (processCoverMovement now s)._elapsedMoveTime = 0 ∧
      (processCoverMovement now s)._lastPosition
        = toInt16 (if s._moveCoverTo = 3 then (s._openAngle : Int) else (s._closeAngle : Int)) ∧
      (∃ w, (w = [] ∨ ∃ a us, w = [ServoEvent.writeMicroseconds a us]) ∧
        (processCoverMovement now s).log =
          ServoEvent.saveCoverState
              (if s._moveCoverTo = 3 then CoverState.COVER_OPEN
               else CoverState.COVER_CLOSED).toUInt8 ::
            ((if s._moveCoverTo = 1 ∧ s._onCloseComplete = true then [ServoEvent.onCloseComplete]
              else []) ++ (w ++ s.log))) ∧
      (processCoverMovement now s)._detachPending = true ∧
      (processCoverMovement now s)._startDetachTimer = now := by
    unfold processCoverMovement
    rw [if_pos (Or.inl hm), if_neg hto, if_pos hm]
    simp only [hp, if_true, hang]
    generalize toInt16 (if s._moveCoverTo = 3 then (s._openAngle : Int)
        else (s._closeAngle : Int)) = tp
    by_cases hw : tp ≠ s._previousWrittenAngle
    · rw [if_pos hw]
      by_cases hc : s._moveCoverTo = 1 ∧ s._onCloseComplete = true
      · have hc2 : (writeAngle tp s)._moveCoverTo = 1 ∧
            (writeAngle tp s)._onCloseComplete = true := hc
        rw [if_pos hc2, if_pos hc]
        exact ⟨rfl, rfl, rfl,
          ⟨[ServoEvent.writeMicroseconds (constrain (toInt16 tp) 0 DEFAULT_SERVO_MAX_ANGLE)
              (map (constrain (toInt16 tp) 0 DEFAULT_SERVO_MAX_ANGLE) 0 DEFAULT_SERVO_MAX_ANGLE
                s._minPulse s._maxPulse)], Or.inr ⟨_, _, rfl⟩, rfl⟩, rfl, rfl⟩
      · have hc2 : ¬ ((writeAngle tp s)._moveCoverTo = 1 ∧
            (writeAngle tp s)._onCloseComplete = true) := hc
        rw [if_neg hc2, if_neg hc]
        exact ⟨rfl, rfl, rfl,
          ⟨[ServoEvent.writeMicroseconds (constrain (toInt16 tp) 0 DEFAULT_SERVO_MAX_ANGLE)
              (map (constrain (toInt16 tp) 0 DEFAULT_SERVO_MAX_ANGLE) 0 DEFAULT_SERVO_MAX_ANGLE
                s._minPulse s._maxPulse)], Or.inr ⟨_, _, rfl⟩, rfl⟩, rfl, rfl⟩
    · rw [if_neg hw]
      by_cases hc : s._moveCoverTo = 1 ∧ s._onCloseComplete = true
      · rw [if_pos hc, if_pos hc]
        exact ⟨rfl, rfl, rfl, ⟨[], Or.inl rfl, rfl⟩, rfl, rfl⟩
      · rw [if_neg hc, if_neg hc]
        exact ⟨rfl, rfl, rfl, ⟨[], Or.inl rfl, rfl⟩, rfl, rfl⟩
  obtain ⟨k1, k2, k3, k4, k5, k6⟩ := key
  have hloop : loop now s = processCoverMovement now s := by
    unfold loop
    simp only [k5, if_true]
    unfold completeDetach
    rw [k6, if_neg]
    unfold sub32 SERVO_DETACH_TIME
    omega
  rw [hloop]
  refine ⟨k1, k2, k3, ?_, k4, k5, k6⟩
  intro hle
  rw [k3]
  by_cases h3 : s._moveCoverTo = 3
  · rw [if_pos h3] at hle ⊢
    rw [if_pos h3]
    unfold toInt16
    omega
  · rw [if_neg h3] at hle ⊢
    rw [if_neg h3]
    unfold toInt16
    omega

/-- Witness for `completion`: the default profile, `openCover` at 0 from the
Closed state after `begin()`, and the pass at 5000 that completes the travel. -/
theorem completion_witness :
    (loop 5000 (openCover 0 (begin (defaultStored 1) 0 {})))._currentState
      = CoverState.COVER_OPEN ∧
    (loop 5000 (openCover 0 (begin (defaultStored 1) 0 {})))._lastPosition = 85 ∧
    (loop 5000 (openCover 0 (begin (defaultStored 1) 0 {})))._startDetachTimer = 5000 :=
  have w := completion 5000 (openCover 0 (begin (defaultStored 1) 0 {}))
    (by decide) (by decide) (by decide)
  ⟨w.1, w.2.2.2.1 (by decide), w.2.2.2.2.2.2⟩

/-- C28: a stopped cover times out too.  In state Unknown a scheduler pass at
`now` with `now - _startServoTimer ≥ _timeToMove * 2` (both in `uint32_t`
arithmetic) sets the state to Error with no further command, and a pass with
`now - _startServoTimer < _timeToMove * 2` leaves the state Unknown and the
motion data untouched.  `_startServoTimer` is the start time of the most
recent motion session: `setMovement` sets it, and `haltCover`, `nudgeServo`
and the scheduler pass leave it alone.  For a travel duration below 2^31 ms
the doubled duration does not wrap. -/
theorem unknown_timeout (now : Nat) (s : CoverController)
    (h : s._currentState = CoverState.COVER_UNKNOWN) :
    (mul32 s._timeToMove 2 ≤ sub32 now s._startServoTimer →
      (loop now s)._currentState = CoverState.COVER_ERROR) ∧
    (sub32 now s._startServoTimer < mul32 s._timeToMove 2 →
      (loop now s)._currentState = CoverState.COVER_UNKNOWN ∧ processCoverMovement now s = s) ∧
    (s._timeToMove < 2147483648 → mul32 s._timeToMove 2 = 2 * s._timeToMove) ∧
    (∀ t, (setMovement t s)._startServoTimer = t) ∧
    (∀ t, (haltCover t s)._startServoTimer = s._startServoTimer) ∧
    (∀ t d, (nudgeServo d t s).1._startServoTimer = s._startServoTimer) ∧
    (loop now s)._startServoTimer = s._startServoTimer := by
  have hnm : s._currentState ≠ CoverState.COVER_MOVING := by rw [h]; decide
  refine ⟨?_, ?_, ?_, fun t => rfl, ?_, ?_, ?_⟩
  · intro hto
    rw [loop_currentState]
    exact processCoverMovement_timeout (Or.inr h) rfl hto
  · intro hlt
    have e : processCoverMovement now s = s := by
      unfold processCoverMovement
      rw [if_pos (Or.inr h), if_neg (by omega), if_neg hnm]
    rw [loop_currentState, e]
    exact ⟨h, rfl⟩
  · intro hT
    unfold mul32
    omega
  · intro t
    unfold haltCover
    rw [if_neg hnm]
  · intro t d
    unfold nudgeServo
    rw [if_neg hnm]
    simp only [setDetachTimer, writeAngle, attachServo]
  · have e : (processCoverMovement now s)._startServoTimer = s._startServoTimer := by
      rcases processCoverMovement_not_moving now hnm with e | e <;> rw [e]
    unfold loop
    dsimp only
    split_ifs
    · unfold completeDetach
      split_ifs <;> exact e
    · exact e

/-- Witness for `unknown_timeout`: the default profile, a travel started at 0
and halted at 2500; the pass at 9999 leaves Unknown, the pass at 10000 gives
Error. -/
theorem unknown_timeout_witness :
    (loop 10000 (haltCover 2500 (openCover 0 (begin (defaultStored 1) 0 {}))))._currentState
      = CoverState.COVER_ERROR ∧
    (loop 9999 (haltCover 2500 (openCover 0 (begin (defaultStored 1) 0 {}))))._currentState
      = CoverState.COVER_UNKNOWN :=
  have w := unknown_timeout 10000 (haltCover 2500 (openCover 0 (begin (defaultStored 1) 0 {})))
    (by decide)
  have v := unknown_timeout 9999 (haltCover 2500 (openCover 0 (begin (defaultStored 1) 0 {})))
    (by decide)
  ⟨w.1 (by decide), (v.2.1 (by decide)).1⟩

/-- A pending detach never coexists with the Moving state. -/
theorem detachInv_processCoverMovement (now : Nat) {s : CoverController}
    (h : s._detachPending = true → s._currentState ≠ CoverState.COVER_MOVING) :
    (processCoverMovement now s)._detachPending = true →
      (processCoverMovement now s)._currentState ≠ CoverState.COVER_MOVING := by
  unfold processCoverMovement
  by_cases hA : s._currentState = CoverState.COVER_MOVING ∨
      s._currentState = CoverState.COVER_UNKNOWN
  · rw [if_pos hA]
    by_cases hB : mul32 s._timeToMove 2 ≤ sub32 now s._startServoTimer
    · rw [if_pos hB]
      intro _
      show CoverState.COVER_ERROR ≠ CoverState.COVER_MOVING
      decide
    · rw [if_neg hB]
      by_cases hM : s._currentState = CoverState.COVER_MOVING
      · rw [if_pos hM]
        by_cases hC : (progressAt now s).complete = true
        · simp only [hC, if_true, setDetachTimer]
          intro _
          split_ifs <;> decide
        · simp only [hC, Bool.false_eq_true, if_false]
          split_ifs <;> exact h
      · rw [if_neg hM]
        exact h
  · rw [if_neg hA]
    exact h

theorem detachInv_loop (now : Nat) {s : CoverController}
    (h : s._detachPending = true → s._currentState ≠ CoverState.COVER_MOVING) :
    (loop now s)._detachPending = true →
      (loop now s)._currentState ≠ CoverState.COVER_MOVING := by
  have hp := detachInv_processCoverMovement now h
  unfold loop
  dsimp only
  by_cases hd : (processCoverMovement now s)._detachPending = true
  · rw [if_pos hd]
    intro _
    rw [completeDetach_currentState]
    exact hp hd
  · rw [if_neg hd]
    exact hp

theorem setMovement_detachPending (now : Nat) (s : CoverController) :
    (setMovement now s)._detachPending = false := by
  unfold setMovement
  dsimp only
  split_ifs <;> rfl

theorem detachInv_call (c : CoverCall) {s : CoverController}
    (h : s._detachPending = true → s._currentState ≠ CoverState.COVER_MOVING) :
    (c.run s)._detachPending = true → (c.run s)._currentState ≠ CoverState.COVER_MOVING := by
  cases c with
  | openCover now =>
    show (openCover now s)._detachPending = true →
      (openCover now s)._currentState ≠ CoverState.COVER_MOVING
    unfold openCover
    by_cases hg : s._currentState ≠ CoverState.COVER_MOVING ∧
        s._currentState ≠ CoverState.COVER_OPEN ∧ s._currentState ≠ CoverState.COVER_NOT_PRESENT
    · rw [if_pos hg]
      intro hp
      exact absurd ((setMovement_detachPending _ _).symm.trans hp) (by decide)
    · rw [if_neg hg]
      exact h
  | closeCover now =>
    show (closeCover now s)._detachPending = true →
      (closeCover now s)._currentState ≠ CoverState.COVER_MOVING
    unfold closeCover
    by_cases hg : s._currentState ≠ CoverState.COVER_MOVING ∧
        s._currentState ≠ CoverState.COVER_CLOSED ∧ s._currentState ≠ CoverState.COVER_NOT_PRESENT
    · rw [if_pos hg]
      intro hp
      exact absurd ((setMovement_detachPending _ _).symm.trans hp) (by decide)
    · rw [if_neg hg]
      exact h
  | haltCover now =>
    show (haltCover now s)._detachPending = true →
      (haltCover now s)._currentState ≠ CoverState.COVER_MOVING
    unfold haltCover
    split_ifs
    · intro _
      show CoverState.COVER_UNKNOWN ≠ CoverState.COVER_MOVING
      decide
    · exact h
  | nudgeServo direction now =>
    show (nudgeServo direction now s).1._detachPending = true →
      (nudgeServo direction now s).1._currentState ≠ CoverState.COVER_MOVING
    unfold nudgeServo
    split_ifs
    · exact h
    · intro _
      show CoverState.COVER_UNKNOWN ≠ CoverState.COVER_MOVING
      decide
  | loop now => exact detachInv_loop now h
  | setCurrentAsOpen => exact h
  | setCurrentAsClose => exact h
  | setServoOpenAngle angle => exact h
  | setServoCloseAngle angle => exact h
  | setServoMinPulse pw => exact h
  | setServoMaxPulse pw => exact h
  | setMoveTime ms => exact h
  | setRangeMin angle => exact h
  | setRangeMax angle => exact h
  | setOnCloseComplete registered => exact h
  | setOnOpenStart registered => exact h

theorem detachInv_begin (st : Stored) (now : Nat) :
    (begin st now {})._detachPending = true →
      (begin st now {})._currentState ≠ CoverState.COVER_MOVING := by
  intro _
  unfold begin
  dsimp only
  split_ifs <;> simp [setDetachTimer, writeAngle, attachServo]

theorem detachInv_of_reachable {s : CoverController} (h : CoverReachable s) :
    s._detachPending = true → s._currentState ≠ CoverState.COVER_MOVING := by
  induction h with
  | begin st now => exact detachInv_begin st now
  | call c s _ ih => exact detachInv_call c ih

/-- C29: the actuator is never released mid-motion.  In every state reachable
from `begin()` by the public operations, a pending detach implies that the
cover is not Moving; a scheduler pass either adds nothing to what
`processCoverMovement` logged or adds the servo detach, and when it detaches
the cover is not Moving; and every accepted `openCover()` or `closeCover()`
leaves no detach pending. -/
theorem no_release_mid_motion (s : CoverController) (h : CoverReachable s) (now : Nat) :
    (s._detachPending = true → s._currentState ≠ CoverState.COVER_MOVING) ∧
    ((loop now s).log = (processCoverMovement now s).log ∨
      ((loop now s).log = ServoEvent.detach :: (processCoverMovement now s).log ∧
        (loop now s)._currentState ≠ CoverState.COVER_MOVING)) ∧
    (s._currentState ≠ CoverState.COVER_MOVING ∧ s._currentState ≠ CoverState.COVER_OPEN ∧
        s._currentState ≠ CoverState.COVER_NOT_PRESENT →
      (openCover now s)._detachPending = false ∧
      (openCover now s)._currentState = CoverState.COVER_MOVING) ∧
    (s._currentState ≠ CoverState.COVER_MOVING ∧ s._currentState ≠ CoverState.COVER_CLOSED ∧
        s._currentState ≠ CoverState.COVER_NOT_PRESENT →
      (closeCover now s)._detachPending = false ∧
      (closeCover now s)._currentState = CoverState.COVER_MOVING) := by
  have hinv := detachInv_of_reachable h
  refine ⟨hinv, ?_, ?_, ?_⟩
  · have hp := detachInv_processCoverMovement now hinv
    unfold loop
    dsimp only
    by_cases hd : (processCoverMovement now s)._detachPending = true
    · rw [if_pos hd]
      unfold completeDetach
      by_cases ht : SERVO_DETACH_TIME ≤ sub32 now (processCoverMovement now s)._startDetachTimer
      · rw [if_pos ht]
        exact Or.inr ⟨rfl, hp hd⟩
      · rw [if_neg ht]
        exact Or.inl rfl
    · rw [if_neg hd]
      exact Or.inl rfl
  · intro hg
    unfold openCover
    rw [if_pos hg]
    exact ⟨setMovement_detachPending _ _, (setMovement_fields _ _).1⟩
  · intro hg
    unfold closeCover
    rw [if_pos hg]
    exact ⟨setMovement_detachPending _ _, (setMovement_fields _ _).1⟩

/-- Witness for `no_release_mid_motion`: the state right after `begin()`, where
a detach is pending and the cover is Closed; `openCover` cancels it. -/
theorem no_release_mid_motion_witness :
    (begin (defaultStored 1) 0 {})._currentState ≠ CoverState.COVER_MOVING ∧
    (openCover 10 (begin (defaultStored 1) 0 {}))._detachPending = false :=
  have w := no_release_mid_motion (begin (defaultStored 1) 0 {}) (CoverReachable.begin _ _) 10
  ⟨w.1 (by decide), (w.2.2.1 (by decide)).1⟩

/-- C21, the code at the failing input: the default profile, `openCover` at 0
from Closed (195), a pass at 2500 that commands 140, `haltCover`.  The most
recently commanded position is 140, but `nudgeServo(1)` first writes
`_lastPosition`, which is still the session start 195, and then 196: the
servo is sent back to the closed end before the offset is applied.  (The
lists are most recent first.) -/
theorem nudgeServo_snaps_after_halt :
    commandedAngles (coverRun (defaultStored 1) 0 [CoverCall.openCover 0, CoverCall.loop 2500,
      CoverCall.haltCover 2500]).log = [140, 195, 195] ∧
    (coverRun (defaultStored 1) 0 [CoverCall.openCover 0, CoverCall.loop 2500,
      CoverCall.haltCover 2500])._currentState = CoverState.COVER_UNKNOWN ∧
    commandedAngles (coverRun (defaultStored 1) 0 [CoverCall.openCover 0, CoverCall.loop 2500,
      CoverCall.haltCover 2500, CoverCall.nudgeServo 1 2600]).log
      = [196, 195, 140, 195, 195] := by
  decide

/-- C26, the code at the failing input: the default profile, `openCover` at 0
from Closed (195), a pass at 2500 that commands 140, `haltCover`.  The
position most recently written before the halt is 140.  A resumed `openCover`
at 3000 makes `setMovement` write 195 (the start of the session), and a
reversing `closeCover` at 3000 makes it write 85 (the open endpoint); only the
next pass commands 140 again.  (The lists are most recent first.) -/
theorem setMovement_snaps_after_halt :
    commandedAngles (coverRun (defaultStored 1) 0 [CoverCall.openCover 0, CoverCall.loop 2500,
      CoverCall.haltCover 2500]).log = [140, 195, 195] ∧
    commandedAngles (coverRun (defaultStored 1) 0 [CoverCall.openCover 0, CoverCall.loop 2500,
      CoverCall.haltCover 2500, CoverCall.openCover 3000]).log = [195, 140, 195, 195] ∧
    commandedAngles (coverRun (defaultStored 1) 0 [CoverCall.openCover 0, CoverCall.loop 2500,
      CoverCall.haltCover 2500, CoverCall.closeCover 3000]).log = [85, 140, 195, 195] ∧
    commandedAngles (coverRun (defaultStored 1) 0 [CoverCall.openCover 0, CoverCall.loop 2500,
      CoverCall.haltCover 2500, CoverCall.closeCover 3000, CoverCall.loop 3000]).log
      = [140, 85, 140, 195, 195] := by
  decide

end CoverController

/-! ## Theorems: cover controller, position continuity -/

namespace CoverController

/-- The `float` progress of a pass as the source computes it, from the
uncapped counter `currentServoTimer - _startServoTimer + _elapsedMoveTime`,
is the `float` progress of `progressAt`. -/
theorem progressAt_toFloat (now : Nat) (s : CoverController) (hT : 0 < s._timeToMove) :
    F32.constrain
        (F32.div (F32.ofInt ((add32 (sub32 now s._startServoTimer) s._elapsedMoveTime : Nat) : Int))
          (F32.ofInt (s._timeToMove : Int)))
        (F32.ofInt 0) (F32.ofInt 1)
      = (progressAt now s).toFloat :=
  Progress.toFloat_cap _ _ hT

/-- The angle `currentAngleAt` is what a scheduler pass commands: in state
Moving, when the pass has not timed out, it writes that angle (clamped to the
servo travel by `writeAngle`) unless it equals the angle written before. -/
theorem processCoverMovement_angle {now : Nat} {s : CoverController}
    (hm : s._currentState = CoverState.COVER_MOVING)
    (hto : ¬ mul32 s._timeToMove 2 ≤ sub32 now s._startServoTimer) :
    commandedAngles (processCoverMovement now s).log =
      (if currentAngleAt now s ≠ s._previousWrittenAngle
        then [constrain (toInt16 (currentAngleAt now s)) 0 DEFAULT_SERVO_MAX_ANGLE] else [])
      ++ commandedAngles s.log := by
  unfold processCoverMovement currentAngleAt
  rw [if_pos (Or.inl hm), if_neg hto, if_pos hm]
  dsimp only
  generalize toInt16 (calculateServoPosition (toInt16 s._lastPosition)
    (toInt16 (if s._moveCoverTo = 3 then (s._openAngle : Int) else (s._closeAngle : Int)))
    (progressAt now s)) = ca
  by_cases hw : ca ≠ s._previousWrittenAngle
  · rw [if_pos hw, if_pos hw]
    split_ifs <;> simp [commandedAngles, writeAngle, setDetachTimer]
  · rw [if_neg hw, if_neg hw]
    split_ifs <;> simp [commandedAngles, setDetachTimer]

/-- One pass on a session in flight: either the cover leaves Moving, or the
session and its geometry are untouched. -/
theorem loop_moving_cases {tgt T start el : Nat} {s : CoverController} (now : Nat)
    (h : MovingTo tgt T start el s) :
    (loop now s)._currentState ≠ CoverState.COVER_MOVING ∨
    (MovingTo tgt T start el (loop now s) ∧ (loop now s)._lastPosition = s._lastPosition ∧
      (loop now s)._openAngle = s._openAngle ∧ (loop now s)._closeAngle = s._closeAngle ∧
      (loop now s)._halt = s._halt) := by
  obtain ⟨h1, h2, h3, h4, h5, h6⟩ := h
  have key : (processCoverMovement now s)._currentState ≠ CoverState.COVER_MOVING ∨
      processCoverMovement now s = s ∨ ∃ a, processCoverMovement now s = writeAngle a s := by
    unfold processCoverMovement
    rw [if_pos (Or.inl h1)]
    by_cases hB : mul32 s._timeToMove 2 ≤ sub32 now s._startServoTimer
    · rw [if_pos hB]
      exact Or.inl (by show CoverState.COVER_ERROR ≠ CoverState.COVER_MOVING; decide)
    · rw [if_neg hB, if_pos h1]
      by_cases hC : (progressAt now s).complete = true
      · simp only [hC, if_true, setDetachTimer]
        left
        split_ifs <;> decide
      · simp only [hC, Bool.false_eq_true, if_false]
        right
        split_ifs <;> first | exact Or.inr ⟨_, rfl⟩ | exact Or.inl rfl
  rcases key with k | k | ⟨a, k⟩
  · left
    rw [loop_currentState]
    exact k
  · right
    have hl : loop now s = s := by
      unfold loop
      rw [k]
      simp only [h6, Bool.false_eq_true, if_false]
    rw [hl]
    exact ⟨⟨h1, h2, h3, h4, h5, h6⟩, rfl, rfl, rfl, rfl⟩
  · right
    have hl : loop now s = writeAngle a s := by
      unfold loop
      rw [k]
      have : (writeAngle a s)._detachPending = false := h6
      simp only [this, Bool.false_eq_true, if_false]
    rw [hl]
    exact ⟨⟨h1, h2, h3, h4, h5, h6⟩, rfl, rfl, rfl, rfl⟩

/-- One pass on a cover that is not Moving: it stays not Moving and its
geometry is untouched. -/
theorem loop_not_moving {s : CoverController} (now : Nat)
    (h : s._currentState ≠ CoverState.COVER_MOVING) :
    (loop now s)._currentState ≠ CoverState.COVER_MOVING ∧
    (loop now s)._lastPosition = s._lastPosition ∧
    (loop now s)._openAngle = s._openAngle ∧ (loop now s)._closeAngle = s._closeAngle := by
  have key : (processCoverMovement now s)._currentState ≠ CoverState.COVER_MOVING ∧
      (processCoverMovement now s)._lastPosition = s._lastPosition ∧
      (processCoverMovement now s)._openAngle = s._openAngle ∧
      (processCoverMovement now s)._closeAngle = s._closeAngle := by
    rcases processCoverMovement_not_moving now h with e | e
    · rw [e]; exact ⟨h, rfl, rfl, rfl⟩
    · rw [e]; exact ⟨by show CoverState.COVER_ERROR ≠ CoverState.COVER_MOVING; decide, rfl, rfl, rfl⟩
  unfold loop
  dsimp only
  split_ifs
  · unfold completeDetach
    split_ifs
    · exact key
    · exact key
  · exact key

theorem ticks_not_moving (ts : List Nat) {s : CoverController}
    (h : s._currentState ≠ CoverState.COVER_MOVING) :
    (ticks ts s)._currentState ≠ CoverState.COVER_MOVING ∧
    (ticks ts s)._lastPosition = s._lastPosition ∧
    (ticks ts s)._openAngle = s._openAngle ∧ (ticks ts s)._closeAngle = s._closeAngle := by
  induction ts generalizing s with
  | nil => exact ⟨h, rfl, rfl, rfl⟩
  | cons t ts ih =>
    obtain ⟨a, b, c, d⟩ := loop_not_moving t h
    obtain ⟨a2, b2, c2, d2⟩ := ih a
    exact ⟨a2, b2.trans b, c2.trans c, d2.trans d⟩

/-- Passes after which the cover is still Moving have left the session and
its geometry untouched. -/
theorem ticks_still_moving {tgt T start el : Nat} (ts : List Nat) {s : CoverController}
    (h : MovingTo tgt T start el s)
    (hm : (ticks ts s)._currentState = CoverState.COVER_MOVING) :
    MovingTo tgt T start el (ticks ts s) ∧ (ticks ts s)._lastPosition = s._lastPosition ∧
    (ticks ts s)._openAngle = s._openAngle ∧ (ticks ts s)._closeAngle = s._closeAngle ∧
    (ticks ts s)._halt = s._halt := by
  induction ts generalizing s with
  | nil => exact ⟨h, rfl, rfl, rfl, rfl⟩
  | cons t ts ih =>
    rcases loop_moving_cases t h with k | ⟨k, b, c, d, e⟩
    · exact absurd hm (ticks_not_moving ts k).1
    · obtain ⟨k2, b2, c2, d2, e2⟩ := ih k hm
      exact ⟨k2, b2.trans b, c2.trans c, d2.trans d, e2.trans e⟩

/-- A command accepted on a halted session that reverses its direction:
`setMovement` mirrors the carried time and restarts from the endpoint
opposite to the new target. -/
theorem setMovement_reverse {T el : Nat} {s : CoverController} (now : Nat)
    (h2 : s._halt = true) (h3 : s._moveCoverTo ≠ s._previousMoveCoverTo)
    (h4 : s._timeToMove = T) (h5 : s._elapsedMoveTime = el) :
    MovingTo s._moveCoverTo T now (sub32 T el) (setMovement now s) ∧
    (setMovement now s)._lastPosition
      = toInt16 (if s._moveCoverTo = 3 then (s._closeAngle : Int) else (s._openAngle : Int)) ∧
    (setMovement now s)._openAngle = s._openAngle ∧
    (setMovement now s)._closeAngle = s._closeAngle := by
  unfold setMovement
  simp [MovingTo, writeAngle, attachServo, h2, h3, h4, h5]

/-- A command accepted with the halt flag clear starts from the tracked
position. -/
theorem setMovement_start {s : CoverController} (now : Nat) (h2 : s._halt = false) :
    MovingTo s._moveCoverTo s._timeToMove now s._elapsedMoveTime (setMovement now s) ∧
    (setMovement now s)._lastPosition = s._lastPosition ∧
    (setMovement now s)._openAngle = s._openAngle ∧
    (setMovement now s)._closeAngle = s._closeAngle ∧ (setMovement now s)._halt = false := by
  unfold setMovement
  simp [MovingTo, writeAngle, attachServo, h2]

/-- The computed angle of a session in flight. -/
theorem currentAngleAt_eq {tgt T start el : Nat} {s : CoverController} (now : Nat)
    (h : MovingTo tgt T start el s) :
    currentAngleAt now s = toInt16 (calculateServoPosition (toInt16 s._lastPosition)
      (toInt16 (if tgt = 3 then (s._openAngle : Int) else (s._closeAngle : Int)))
      ⟨min (add32 (sub32 now start) el) T, T⟩) := by
  obtain ⟨_, h2, h3, h4, h5, _⟩ := h
  unfold currentAngleAt progressAt
  rw [h2, h3, h4, h5]

/-- The interpolation is the truncation of a value within `1 / 32` of the
exact `lastPos + (targetPos - lastPos) * num / den`. -/
theorem calculateServoPosition_err (lastPos targetPos : Int) {pn pd : Nat} (hpd : 0 < pd)
    (hle : pn ≤ pd) (hL : -32768 ≤ lastPos ∧ lastPos ≤ 32767)
    (hG : -32768 ≤ targetPos ∧ targetPos ≤ 32767) :
    ∃ s : ℚ, calculateServoPosition lastPos targetPos ⟨pn, pd⟩ = truncQ s ∧
      |s - ((lastPos : ℚ) + ((targetPos : ℚ) - lastPos) * pn / pd)| ≤ 1 / 32 := by
  obtain ⟨p1, p2, p3⟩ := Progress.toFloat_err hpd hle
  have hD : F32.val (F32.ofInt (targetPos - lastPos)) = ((targetPos - lastPos : Int) : ℚ) :=
    F32.val_ofInt_exact _ (by rw [abs_le]; omega)
  have hLv : F32.val (F32.ofInt lastPos) = (lastPos : ℚ) :=
    F32.val_ofInt_exact _ (by rw [abs_le]; omega)
  have hm := F32.val_mul_err (F32.ofInt (targetPos - lastPos)) (Progress.toFloat ⟨pn, pd⟩)
  have hs := F32.val_add_err (F32.ofInt lastPos)
    (F32.mul (F32.ofInt (targetPos - lastPos)) (Progress.toFloat ⟨pn, pd⟩))
  refine ⟨_, F32.toInt_eq _, ?_⟩
  unfold calculateServoPosition at *
  rw [hD] at hm
  rw [hLv] at hs
  have hDb : -65535 ≤ ((targetPos - lastPos : Int) : ℚ) ∧ ((targetPos - lastPos : Int) : ℚ) ≤ 65535 := by
    constructor
    · have : (-65535 : Int) ≤ targetPos - lastPos := by omega
      exact_mod_cast this
    · have : targetPos - lastPos ≤ (65535 : Int) := by omega
      exact_mod_cast this
  have hLb : -32768 ≤ (lastPos : ℚ) ∧ (lastPos : ℚ) ≤ 32767 := by
    constructor
    · exact_mod_cast hL.1
    · exact_mod_cast hL.2
  have hDe : ((targetPos : ℚ) - lastPos) = ((targetPos - lastPos : Int) : ℚ) := by push_cast; ring
  rw [mul_div_assoc, hDe]
  generalize ((targetPos - lastPos : Int) : ℚ) = D at hm hDb ⊢
  generalize (lastPos : ℚ) = L at hs hLb ⊢
  generalize F32.val (Progress.toFloat ⟨pn, pd⟩) = p at p1 p2 p3 hm
  generalize (pn : ℚ) / pd = t at p1 ⊢
  generalize F32.val (F32.add (F32.ofInt lastPos)
    (F32.mul (F32.ofInt (targetPos - lastPos)) (Progress.toFloat ⟨pn, pd⟩))) = s at hs ⊢
  generalize F32.val (F32.mul (F32.ofInt (targetPos - lastPos)) (Progress.toFloat ⟨pn, pd⟩)) = m
    at hm hs
  have hDabs : |D| ≤ 65535 := abs_le.mpr hDb
  have hDp : |D * p| ≤ 65535 := by
    rw [abs_mul, abs_of_nonneg p2]
    calc |D| * p ≤ 65535 * 1 := by gcongr
      _ = 65535 := by norm_num
  have hDpt : |D * p - D * t| ≤ 65535 * (5 / 16777216) := by
    rw [← mul_sub, abs_mul]
    gcongr
  have hm2 : |m - D * p| ≤ 65535 / 16777216 := by
    calc |m - D * p| ≤ |D * p| / 16777216 := hm
      _ ≤ 65535 / 16777216 := by gcongr
  rw [abs_le] at hDp hDpt hm2
  have hLm : |L + m| ≤ 98304 := by
    rw [abs_le]
    constructor <;> linarith [hLb.1, hLb.2, hm2.1, hm2.2, hDp.1, hDp.2]
  have hs2 : |s - (L + m)| ≤ 98304 / 16777216 := by
    calc |s - (L + m)| ≤ |L + m| / 16777216 := hs
      _ ≤ 98304 / 16777216 := by gcongr
  rw [abs_le] at hs2 ⊢
  constructor <;> linarith [hs2.1, hs2.2, hm2.1, hm2.2, hDpt.1, hDpt.2]

/-- The interpolation is within one of the truncated exact value and stays
in the `int16_t` range. -/
theorem calculateServoPosition_near (lastPos targetPos : Int) {pn pd : Nat} (hpd : 0 < pd)
    (hle : pn ≤ pd) (hL : -32768 ≤ lastPos ∧ lastPos ≤ 32767)
    (hG : -32768 ≤ targetPos ∧ targetPos ≤ 32767) :
    |calculateServoPosition lastPos targetPos ⟨pn, pd⟩
      - truncQ ((lastPos : ℚ) + ((targetPos : ℚ) - lastPos) * pn / pd)| ≤ 1 ∧
    -32768 ≤ calculateServoPosition lastPos targetPos ⟨pn, pd⟩ ∧
    calculateServoPosition lastPos targetPos ⟨pn, pd⟩ ≤ 32767 := by
  obtain ⟨s, hs, herr⟩ := calculateServoPosition_err lastPos targetPos hpd hle hL hG
  rw [hs]
  have hP : (0 : ℚ) < (pd : ℚ) := by exact_mod_cast hpd
  have ht0 : (0 : ℚ) ≤ (pn : ℚ) / pd := div_nonneg (Nat.cast_nonneg _) hP.le
  have ht1 : (pn : ℚ) / pd ≤ 1 := (div_le_one hP).mpr (by exact_mod_cast hle)
  have hLb : -32768 ≤ (lastPos : ℚ) ∧ (lastPos : ℚ) ≤ 32767 :=
    ⟨by exact_mod_cast hL.1, by exact_mod_cast hL.2⟩
  have hGb : -32768 ≤ (targetPos : ℚ) ∧ (targetPos : ℚ) ≤ 32767 :=
    ⟨by exact_mod_cast hG.1, by exact_mod_cast hG.2⟩
  refine ⟨truncQ_close _ _ (le_trans herr (by norm_num)), ?_⟩
  rw [mul_div_assoc] at herr
  generalize (pn : ℚ) / pd = t at herr ht0 ht1
  rw [abs_le] at herr
  have v1 : -32768 ≤ (lastPos : ℚ) + ((targetPos : ℚ) - lastPos) * t := by
    nlinarith [hLb.1, hGb.1]
  have v2 : (lastPos : ℚ) + ((targetPos : ℚ) - lastPos) * t ≤ 32767 := by
    nlinarith [hLb.2, hGb.2]
  exact truncQ_bounds s (-32768) 32767 (by norm_num) (by norm_num)
    (by push_cast; linarith [herr.1]) (by push_cast; linarith [herr.2])

theorem openCover_start {s : CoverController} (now : Nat)
    (h1 : s._currentState = CoverState.COVER_CLOSED) (h2 : s._halt = false) :
    MovingTo 3 s._timeToMove now s._elapsedMoveTime (openCover now s) ∧
    (openCover now s)._lastPosition = s._lastPosition ∧
    (openCover now s)._openAngle = s._openAngle ∧
    (openCover now s)._closeAngle = s._closeAngle := by
  have hg : s._currentState ≠ CoverState.COVER_MOVING ∧ s._currentState ≠ CoverState.COVER_OPEN
      ∧ s._currentState ≠ CoverState.COVER_NOT_PRESENT := by simp [h1]
  unfold openCover
  rw [if_pos hg]
  by_cases hc : s._currentState = CoverState.COVER_CLOSED ∧ s._onOpenStart = true
  · simp only [if_pos hc]
    obtain ⟨a, b, c, d, _⟩ := setMovement_start
      (s := { s with log := ServoEvent.onOpenStart :: s.log, _moveCoverTo := 3 }) now h2
    exact ⟨a, b, c, d⟩
  · simp only [if_neg hc]
    obtain ⟨a, b, c, d, _⟩ := setMovement_start (s := { s with _moveCoverTo := 3 }) now h2
    exact ⟨a, b, c, d⟩

theorem closeCover_start {s : CoverController} (now : Nat)
    (h1 : s._currentState = CoverState.COVER_OPEN) (h2 : s._halt = false) :
    MovingTo 1 s._timeToMove now s._elapsedMoveTime (closeCover now s) ∧
    (closeCover now s)._lastPosition = s._lastPosition ∧
    (closeCover now s)._openAngle = s._openAngle ∧
    (closeCover now s)._closeAngle = s._closeAngle := by
  have hg : s._currentState ≠ CoverState.COVER_MOVING ∧ s._currentState ≠ CoverState.COVER_CLOSED
      ∧ s._currentState ≠ CoverState.COVER_NOT_PRESENT := by simp [h1]
  unfold closeCover
  rw [if_pos hg]
  obtain ⟨a, b, c, d, _⟩ := setMovement_start (s := { s with _moveCoverTo := 1 }) now h2
  exact ⟨a, b, c, d⟩

/-- The reversing command on a halted session. -/
theorem closeCover_reverse {T el : Nat} {s : CoverController} (now : Nat)
    (h : HaltedTo 3 T el s) :
    MovingTo 1 T now (sub32 T el) (closeCover now s) ∧
    (closeCover now s)._lastPosition = toInt16 (s._openAngle : Int) ∧
    (closeCover now s)._openAngle = s._openAngle ∧
    (closeCover now s)._closeAngle = s._closeAngle := by
  obtain ⟨h1, h2, h3, h4, h5⟩ := h
  have hg : s._currentState ≠ CoverState.COVER_MOVING ∧ s._currentState ≠ CoverState.COVER_CLOSED
      ∧ s._currentState ≠ CoverState.COVER_NOT_PRESENT := by
    rcases h1 with h1 | h1 <;> simp [h1]
  unfold closeCover
  rw [if_pos hg]
  have := setMovement_reverse (s := { s with _moveCoverTo := 1 }) now h2
    (by show (1 : Nat) ≠ s._previousMoveCoverTo; rw [h3]; decide) h4 h5
  exact this

theorem openCover_reverse {T el : Nat} {s : CoverController} (now : Nat)
    (h : HaltedTo 1 T el s) :
    MovingTo 3 T now (sub32 T el) (openCover now s) ∧
    (openCover now s)._lastPosition = toInt16 (s._closeAngle : Int) ∧
    (openCover now s)._openAngle = s._openAngle ∧
    (openCover now s)._closeAngle = s._closeAngle := by
  obtain ⟨h1, h2, h3, h4, h5⟩ := h
  have hg : s._currentState ≠ CoverState.COVER_MOVING ∧ s._currentState ≠ CoverState.COVER_OPEN
      ∧ s._currentState ≠ CoverState.COVER_NOT_PRESENT := by
    rcases h1 with h1 | h1 <;> simp [h1]
  have hc : ¬ (s._currentState = CoverState.COVER_CLOSED ∧ s._onOpenStart = true) := by
    rcases h1 with h1 | h1 <;> simp [h1]
  unfold openCover
  rw [if_pos hg]
  simp only [if_neg hc]
  have := setMovement_reverse (s := { s with _moveCoverTo := 3 }) now h2
    (by show (3 : Nat) ≠ s._previousMoveCoverTo; rw [h3]; decide) h4 h5
  exact this

/-- The halt of a session in flight keeps the geometry. -/
theorem haltCover_geometry (now : Nat) (s : CoverController) :
    (haltCover now s)._lastPosition = s._lastPosition ∧
    (haltCover now s)._openAngle = s._openAngle ∧
    (haltCover now s)._closeAngle = s._closeAngle := by
  unfold haltCover
  split_ifs <;> exact ⟨rfl, rfl, rfl⟩

/-- The halted session and the session that reverses it, for either
direction: the position the reversed session computes at its start and the
position the halted one computed at the halt are at most 1 apart, and each is
within 1 of the truncated exact interpolation. -/
theorem reversal_positions {T t0 tH : Nat} (r : Nat) {sM : CoverController}
    {tgt : Nat} (hT : 0 < T) (hT32 : T < 4294967296) (hhT : sub32 tH t0 ≤ T)
    (hm : MovingTo tgt T t0 0 sM) (a b : Int)
    (ha : -32768 ≤ a ∧ a ≤ 32767) (hb : -32768 ≤ b ∧ b ≤ 32767)
    (hlast : sM._lastPosition = a)
    (htarget : toInt16 (if tgt = 3 then (sM._openAngle : Int) else (sM._closeAngle : Int)) = b)
    {u : CoverController} (hR : MovingTo (if tgt = 3 then 1 else 3) T r
      (sub32 T (add32 0 (sub32 tH t0))) u)
    (hRlast : u._lastPosition = b)
    (hRtarget : toInt16 (if (if tgt = 3 then 1 else 3) = 3 then (u._openAngle : Int)
      else (u._closeAngle : Int)) = a) :
    |currentAngleAt r u - currentAngleAt tH sM| ≤ 1 ∧
    |currentAngleAt tH sM
      - truncQ ((a : ℚ) + ((b : ℚ) - a) * (sub32 tH t0 : Nat) / T)| ≤ 1 ∧
    |currentAngleAt r u
      - truncQ ((a : ℚ) + ((b : ℚ) - a) * (sub32 tH t0 : Nat) / T)| ≤ 1 := by
  have e1 : min (add32 (sub32 tH t0) 0) T = sub32 tH t0 := by
    unfold add32
    have : sub32 tH t0 < 4294967296 := by unfold sub32; omega
    omega
  have e2 : min (add32 (sub32 r r) (sub32 T (add32 0 (sub32 tH t0)))) T = T - sub32 tH t0 := by
    have hh : sub32 tH t0 < 4294967296 := by unfold sub32; omega
    have e0 : sub32 r r = 0 := by unfold sub32; omega
    have e3 : add32 0 (sub32 tH t0) = sub32 tH t0 := by unfold add32; omega
    rw [e0, e3]
    generalize sub32 tH t0 = h at hhT hh
    unfold add32 sub32
    omega
  have hM := currentAngleAt_eq tH hm
  have hRR := currentAngleAt_eq r hR
  rw [hlast, htarget, e1, toInt16_of_range ha] at hM
  rw [hRlast, hRtarget, e2, toInt16_of_range hb] at hRR
  generalize sub32 tH t0 = h at hhT hM hRR ⊢
  obtain ⟨s1, x1, x2⟩ := calculateServoPosition_err a b hT hhT ha hb
  obtain ⟨n1, n2, n3⟩ := calculateServoPosition_near a b hT hhT ha hb
  obtain ⟨s2, y1, y2⟩ := calculateServoPosition_err b a hT (Nat.sub_le T h) hb ha
  obtain ⟨k1, k2, k3⟩ := calculateServoPosition_near b a hT (Nat.sub_le T h) hb ha
  have hTq : (T : ℚ) ≠ 0 := by exact_mod_cast hT.ne'
  have hv : (b : ℚ) + ((a : ℚ) - b) * ((T - h : Nat) : ℚ) / T
      = (a : ℚ) + ((b : ℚ) - a) * (h : ℚ) / T := by
    rw [Nat.cast_sub hhT]
    field_simp
    ring
  rw [hv] at y2 k1
  rw [toInt16_of_range ⟨n2, n3⟩] at hM
  rw [toInt16_of_range ⟨k2, k3⟩] at hRR
  rw [hM, hRR]
  refine ⟨?_, n1, k1⟩
  rw [x1, y1]
  apply truncQ_close
  rw [abs_le] at x2 y2 ⊢
  constructor <;> linarith [x2.1, x2.2, y2.1, y2.2]

/-- C27 (as amended): position continuity at reversal in the `USE_LINEAR`
build, in the single-precision arithmetic of the code.  A motion started at
an endpoint, by `openCover` from a reachable Closed state or by `closeCover`
from a reachable Open state whose tracked position is that endpoint, is
halted at `tH` while still Moving, `h = tH - t0` ms after it started, with
`h ≤ T`; after any scheduler passes the opposite command is issued at `r`.
Then the position the reversed session computes at `r` and the position the
original session computed at the halt instant differ by at most 1, and each
differs by at most 1 from `start + (target - start) * h / T` truncated to an
integer, where `start` and `target` are the endpoint angles as `int16_t`
values.  These positions are what the passes command: a pass at `tH` on the
original session and a pass at `r` on the reversed one, when they do not time
out, write them to the servo (clamped to its travel) unless they repeat the
angle written before. -/
theorem reversal_continuity (T t0 tH r : Nat) (s0 : CoverController) (pre idle : List Nat)
    (hreach : CoverReachable s0) (hdur : s0._timeToMove = T) (hT : 0 < T)
    (hT32 : T < 4294967296) (hhT : sub32 tH t0 ≤ T) :
    (s0._currentState = CoverState.COVER_CLOSED →
      s0._lastPosition = toInt16 (s0._closeAngle : Int) →
      (ticks pre (openCover t0 s0))._currentState = CoverState.COVER_MOVING →
      |currentAngleAt r (closeCover r (ticks idle (haltCover tH (ticks pre (openCover t0 s0)))))
          - currentAngleAt tH (ticks pre (openCover t0 s0))| ≤ 1 ∧
      |currentAngleAt tH (ticks pre (openCover t0 s0))
          - truncQ ((toInt16 (s0._closeAngle : Int) : ℚ)
              + ((toInt16 (s0._openAngle : Int) : ℚ) - toInt16 (s0._closeAngle : Int))
                * (sub32 tH t0 : Nat) / T)| ≤ 1 ∧
      |currentAngleAt r (closeCover r (ticks idle (haltCover tH (ticks pre (openCover t0 s0)))))
          - truncQ ((toInt16 (s0._closeAngle : Int) : ℚ)
              + ((toInt16 (s0._openAngle : Int) : ℚ) - toInt16 (s0._closeAngle : Int))
                * (sub32 tH t0 : Nat) / T)| ≤ 1 ∧
      (sub32 tH t0 < mul32 T 2 →
        commandedAngles (processCoverMovement tH (ticks pre (openCover t0 s0))).log =
          (if currentAngleAt tH (ticks pre (openCover t0 s0))
                ≠ (ticks pre (openCover t0 s0))._previousWrittenAngle
            then [constrain (toInt16 (currentAngleAt tH (ticks pre (openCover t0 s0)))) 0
                    DEFAULT_SERVO_MAX_ANGLE] else [])
          ++ commandedAngles (ticks pre (openCover t0 s0)).log) ∧
      (0 < mul32 T 2 →
        commandedAngles (processCoverMovement r
            (closeCover r (ticks idle (haltCover tH (ticks pre (openCover t0 s0)))))).log =
          (if currentAngleAt r
                  (closeCover r (ticks idle (haltCover tH (ticks pre (openCover t0 s0)))))
                ≠ (closeCover r (ticks idle (haltCover tH
                    (ticks pre (openCover t0 s0)))))._previousWrittenAngle
            then [constrain (toInt16 (currentAngleAt r
                    (closeCover r (ticks idle (haltCover tH (ticks pre (openCover t0 s0)))))))
                    0 DEFAULT_SERVO_MAX_ANGLE] else [])
          ++ commandedAngles
              (closeCover r (ticks idle (haltCover tH (ticks pre (openCover t0 s0))))).log)) ∧
    (s0._currentState = CoverState.COVER_OPEN →
      s0._lastPosition = toInt16 (s0._openAngle : Int) →
      (ticks pre (closeCover t0 s0))._currentState = CoverState.COVER_MOVING →
      |currentAngleAt r (openCover r (ticks idle (haltCover tH (ticks pre (closeCover t0 s0)))))
          - currentAngleAt tH (ticks pre (closeCover t0 s0))| ≤ 1 ∧
      |currentAngleAt tH (ticks pre (closeCover t0 s0))
          - truncQ ((toInt16 (s0._openAngle : Int) : ℚ)
              + ((toInt16 (s0._closeAngle : Int) : ℚ) - toInt16 (s0._openAngle : Int))
                * (sub32 tH t0 : Nat) / T)| ≤ 1 ∧
      |currentAngleAt r (openCover r (ticks idle (haltCover tH (ticks pre (closeCover t0 s0)))))
          - truncQ ((toInt16 (s0._openAngle : Int) : ℚ)
              + ((toInt16 (s0._closeAngle : Int) : ℚ) - toInt16 (s0._openAngle : Int))
                * (sub32 tH t0 : Nat) / T)| ≤ 1 ∧
      (sub32 tH t0 < mul32 T 2 →
        commandedAngles (processCoverMovement tH (ticks pre (closeCover t0 s0))).log =
          (if currentAngleAt tH (ticks pre (closeCover t0 s0))
                ≠ (ticks pre (closeCover t0 s0))._previousWrittenAngle
            then [constrain (toInt16 (currentAngleAt tH (ticks pre (closeCover t0 s0)))) 0
                    DEFAULT_SERVO_MAX_ANGLE] else [])
          ++ commandedAngles (ticks pre (closeCover t0 s0)).log) ∧
      (0 < mul32 T 2 →
        commandedAngles (processCoverMovement r
            (openCover r (ticks idle (haltCover tH (ticks pre (closeCover t0 s0)))))).log =
          (if currentAngleAt r
                  (openCover r (ticks idle (haltCover tH (ticks pre (closeCover t0 s0)))))
                ≠ (openCover r (ticks idle (haltCover tH
                    (ticks pre (closeCover t0 s0)))))._previousWrittenAngle
            then [constrain (toInt16 (currentAngleAt r
                    (openCover r (ticks idle (haltCover tH (ticks pre (closeCover t0 s0)))))))
                    0 DEFAULT_SERVO_MAX_ANGLE] else [])
          ++ commandedAngles
              (openCover r (ticks idle (haltCover tH (ticks pre (closeCover t0 s0))))).log)) := by
  obtain ⟨i1, i2⟩ := restInv_of_reachable hreach
  have hrr : sub32 r r = 0 := by unfold sub32; omega
  constructor
  · intro hclosed hpos hmov
    have hhalt : s0._halt = false := by
      cases hb : s0._halt with
      | false => rfl
      | true => rcases i1 hb with hc | hc <;> rw [hc] at hclosed <;> simp at hclosed
    have hel : s0._elapsedMoveTime = 0 := i2 (Or.inl hclosed)
    obtain ⟨o1, o2, o3, o4⟩ := openCover_start t0 hclosed hhalt
    rw [hdur, hel] at o1
    obtain ⟨m1, m2, m3, m4, _⟩ := ticks_still_moving pre o1 hmov
    have hH := haltCover_movingTo tH m1
    obtain ⟨g1, g2, g3⟩ := haltCover_geometry tH (ticks pre (openCover t0 s0))
    have hI := ticks_haltedTo idle hH
    have hnm : (haltCover tH (ticks pre (openCover t0 s0)))._currentState
        ≠ CoverState.COVER_MOVING := by
      rcases hH.1 with hc | hc <;> rw [hc] <;> decide
    obtain ⟨_, n2, n3, n4⟩ := ticks_not_moving idle hnm
    obtain ⟨c1, c2, c3, c4⟩ := closeCover_reverse r hI
    have hres := reversal_positions r hT hT32 hhT m1
      (toInt16 (s0._closeAngle : Int)) (toInt16 (s0._openAngle : Int))
      (toInt16_range _) (toInt16_range _)
      (by rw [m2, o2, hpos])
      (by rw [if_pos rfl, m3, o3])
      (u := closeCover r (ticks idle (haltCover tH (ticks pre (openCover t0 s0)))))
      (by rw [if_pos rfl]; exact c1)
      (by rw [c2, n3, g2, m3, o3])
      (by rw [if_pos rfl, if_neg (by decide), c4, n4, g3, m4, o4])
    refine ⟨hres.1, hres.2.1, hres.2.2, ?_, ?_⟩
    · intro hto
      refine processCoverMovement_angle m1.1 ?_
      rw [m1.2.2.1, m1.2.2.2.1]
      omega
    · intro hto
      refine processCoverMovement_angle c1.1 ?_
      rw [c1.2.2.1, c1.2.2.2.1, hrr]
      omega
  · intro hopen hpos hmov
    have hhalt : s0._halt = false := by
      cases hb : s0._halt with
      | false => rfl
      | true => rcases i1 hb with hc | hc <;> rw [hc] at hopen <;> simp at hopen
    have hel : s0._elapsedMoveTime = 0 := i2 (Or.inr hopen)
    obtain ⟨o1, o2, o3, o4⟩ := closeCover_start t0 hopen hhalt
    rw [hdur, hel] at o1
    obtain ⟨m1, m2, m3, m4, _⟩ := ticks_still_moving pre o1 hmov
    have hH := haltCover_movingTo tH m1
    obtain ⟨g1, g2, g3⟩ := haltCover_geometry tH (ticks pre (closeCover t0 s0))
    have hI := ticks_haltedTo idle hH
    have hnm : (haltCover tH (ticks pre (closeCover t0 s0)))._currentState
        ≠ CoverState.COVER_MOVING := by
      rcases hH.1 with hc | hc <;> rw [hc] <;> decide
    obtain ⟨_, n2, n3, n4⟩ := ticks_not_moving idle hnm
    obtain ⟨c1, c2, c3, c4⟩ := openCover_reverse r hI
    have hres := reversal_positions r hT hT32 hhT m1
      (toInt16 (s0._openAngle : Int)) (toInt16 (s0._closeAngle : Int))
      (toInt16_range _) (toInt16_range _)
      (by rw [m2, o2, hpos])
      (by rw [if_neg (by decide), m4, o4])
      (u := openCover r (ticks idle (haltCover tH (ticks pre (closeCover t0 s0)))))
      (by rw [if_neg (by decide)]; exact c1)
      (by rw [c2, n4, g3, m4, o4])
      (by rw [if_pos (by decide), c3, n3, g2, m3, o3])
    refine ⟨hres.1, hres.2.1, hres.2.2, ?_, ?_⟩
    · intro hto
      refine processCoverMovement_angle m1.1 ?_
      rw [m1.2.2.1, m1.2.2.2.1]
      omega
    · intro hto
      refine processCoverMovement_angle c1.1 ?_
      rw [c1.2.2.1, c1.2.2.2.1, hrr]
      omega

/-- Witness for `reversal_continuity`: the default profile, `openCover` at 0
from Closed (195), a pass at 1000, `haltCover` at 2500, passes at 2600 and
2700, `closeCover` at 3000.  The two positions are at most 1 apart (both are
140), and the first pass of the reversed session commands 140 after the 85
that `setMovement` wrote. -/
theorem reversal_continuity_witness :
    |currentAngleAt 3000 (closeCover 3000 (ticks [2600, 2700] (haltCover 2500
        (ticks [1000] (openCover 0 (begin (defaultStored 1) 0 {}))))))
      - currentAngleAt 2500 (ticks [1000] (openCover 0 (begin (defaultStored 1) 0 {})))| ≤ 1 ∧
    currentAngleAt 2500 (ticks [1000] (openCover 0 (begin (defaultStored 1) 0 {}))) = 140 ∧
    commandedAngles (processCoverMovement 3000 (closeCover 3000 (ticks [2600, 2700]
        (haltCover 2500 (ticks [1000] (openCover 0 (begin (defaultStored 1) 0 {}))))))).log
      = [140, 85, 173, 195, 195] :=
  have w := (reversal_continuity 5000 0 2500 3000 (begin (defaultStored 1) 0 {}) [1000]
    [2600, 2700] (CoverReachable.begin _ _) (by decide) (by decide) (by decide)
    (by decide)).1 (by decide) (by decide) (by decide)
  ⟨w.1, by decide, (w.2.2.2.2 (by decide)).trans (by decide)⟩

/-- C27 fails as stated: with the open angle 0, the close angle 180 and a
travel time of 5000 ms, `openCover` at 0 from Closed and `haltCover` at 1750.
A pass of the original session at the halt instant commands 117, which is
`180 + (0 - 180) * 1750 / 5000` exactly; after `closeCover` at 3000 the first
pass of the reversed session computes `0 + 180 * 0.65f` in single precision,
which is just below 117, and commands 116.  Halted at 3000 instead, the
original session itself computes 71 where the exact value is 72.  (The lists
are most recent first.) -/
theorem reversal_continuity_counterexample :
    commandedAngles (coverRun { defaultStored 1 with openAngle := 0, closeAngle := 180 } 0
        [CoverCall.openCover 0, CoverCall.loop 1750]).log = [117, 180, 180] ∧
    commandedAngles (coverRun { defaultStored 1 with openAngle := 0, closeAngle := 180 } 0
        [CoverCall.openCover 0, CoverCall.haltCover 1750, CoverCall.closeCover 3000,
         CoverCall.loop 3000]).log = [116, 0, 180, 180] ∧
    currentAngleAt 1750
        (coverRun { defaultStored 1 with openAngle := 0, closeAngle := 180 } 0
          [CoverCall.openCover 0]) = 117 ∧
    currentAngleAt 3000
        (coverRun { defaultStored 1 with openAngle := 0, closeAngle := 180 } 0
          [CoverCall.openCover 0, CoverCall.haltCover 1750, CoverCall.closeCover 3000]) = 116 ∧
    currentAngleAt 3000
        (coverRun { defaultStored 1 with openAngle := 0, closeAngle := 180 } 0
          [CoverCall.openCover 0]) = 71 ∧
    Int.tdiv (180 * 5000 + (0 - 180) * 1750) 5000 = 117 ∧
    Int.tdiv (180 * 5000 + (0 - 180) * 3000) 5000 = 72 := by
  decide

end CoverController

/-! ## Theorems: button handler -/

namespace ButtonHandler

/-- While the handler awaits the release, a pass touches neither controller
and issues nothing; it returns to Idle exactly when it reads the pin HIGH. -/
theorem loop_awaiting (reading : PinLevel) (now : Nat) {w : ButtonWorld}
    (h : w.button._state = ButtonState.BTN_AWAITING_RELEASE) :
    (loop reading now w).cover = w.cover ∧ (loop reading now w).light = w.light ∧
    (loop reading now w).issued = w.issued ∧
    (loop reading now w).button._state
      = (if reading = PinLevel.HIGH then ButtonState.BTN_IDLE
         else ButtonState.BTN_AWAITING_RELEASE) := by
  unfold loop
  rw [h]
  dsimp only
  by_cases hr : reading = PinLevel.HIGH
  · rw [if_pos hr, if_pos hr]
    exact ⟨rfl, rfl, rfl, rfl⟩
  · rw [if_neg hr, if_neg hr]
    exact ⟨rfl, rfl, rfl, h⟩

/-- Passes that read the pin LOW while the handler awaits the release. -/
theorem buttonRun_held (held : List ButtonTick) {w : ButtonWorld}
    (h : w.button._state = ButtonState.BTN_AWAITING_RELEASE)
    (hheld : ∀ u ∈ held, u.reading = PinLevel.LOW) :
    (buttonRun held w).issued = w.issued ∧
    (buttonRun held w).button._state = ButtonState.BTN_AWAITING_RELEASE := by
  induction held generalizing w with
  | nil => exact ⟨rfl, h⟩
  | cons u us ih =>
    have hu := hheld u (List.mem_cons_self u us)
    obtain ⟨_, _, a3, a4⟩ := loop_awaiting u.reading u.now
      (w := { w with cover := u.cover, light := u.light }) h
    have a5 : (buttonStep w u).button._state = ButtonState.BTN_AWAITING_RELEASE :=
      a4.trans (by rw [hu, if_neg (by decide)])
    obtain ⟨b1, b2⟩ := ih (w := buttonStep w u) a5
      (fun v hv => hheld v (List.mem_cons_of_mem u hv))
    exact ⟨b1.trans a3, b2⟩

/-- C23: button halt.  A pass of the button handler in Idle that sees a
debounced falling edge (pin LOW, previous level HIGH, more than the debounce
delay since the last accepted edge) while the cover is Moving issues exactly
one command, `haltCover`, and moves the button machine to AwaitingRelease.
Through any number of later passes that read the pin LOW, whatever the
controllers do in between, nothing more is issued and the machine stays in
AwaitingRelease; the pass that reads the pin HIGH issues nothing either and
returns the machine to Idle.  A pass in AwaitingRelease never touches a
controller. -/
theorem button_halt (w : ButtonWorld) (t : ButtonTick) (held : List ButtonTick)
    (rel : ButtonTick)
    (hidle : w.button._state = ButtonState.BTN_IDLE)
    (hlast : w.button._lastButtonState = PinLevel.HIGH)
    (hread : t.reading = PinLevel.LOW)
    (hdeb : DEBOUNCE_DELAY < sub32 t.now w.button._lastDebounceTime)
    (hmov : t.cover._currentState = CoverState.COVER_MOVING)
    (hheld : ∀ u ∈ held, u.reading = PinLevel.LOW) (hrel : rel.reading = PinLevel.HIGH) :
    (buttonStep w t).issued = ButtonCommand.haltCover :: w.issued ∧
    (buttonStep w t).cover = t.cover.haltCover t.now ∧
    (buttonStep w t).light = t.light ∧
    (buttonStep w t).button._state = ButtonState.BTN_AWAITING_RELEASE ∧
    (buttonRun held (buttonStep w t)).issued = ButtonCommand.haltCover :: w.issued ∧
    (buttonRun held (buttonStep w t)).button._state = ButtonState.BTN_AWAITING_RELEASE ∧
    (buttonRun (held ++ [rel]) (buttonStep w t)).issued = ButtonCommand.haltCover :: w.issued ∧
    (buttonRun (held ++ [rel]) (buttonStep w t)).cover = rel.cover ∧
    (buttonRun (held ++ [rel]) (buttonStep w t)).light = rel.light ∧
    (buttonRun (held ++ [rel]) (buttonStep w t)).button._state = ButtonState.BTN_IDLE ∧
    (∀ (v : ButtonWorld) (reading : PinLevel) (now : Nat),
      v.button._state = ButtonState.BTN_AWAITING_RELEASE →
      (loop reading now v).cover = v.cover ∧ (loop reading now v).light = v.light ∧
      (loop reading now v).issued = v.issued) := by
  have step : (buttonStep w t).issued = ButtonCommand.haltCover :: w.issued ∧
      (buttonStep w t).cover = t.cover.haltCover t.now ∧
      (buttonStep w t).light = t.light ∧
      (buttonStep w t).button._state = ButtonState.BTN_AWAITING_RELEASE := by
    unfold buttonStep loop
    dsimp only
    rw [hidle]
    dsimp only
    rw [if_pos ⟨hread, hlast⟩, if_pos hdeb, if_pos hmov]
    exact ⟨rfl, rfl, rfl, rfl⟩
  obtain ⟨s1, s2, s3, s4⟩ := step
  obtain ⟨r1, r2⟩ := buttonRun_held held s4 hheld
  have hfin : buttonRun (held ++ [rel]) (buttonStep w t)
      = buttonStep (buttonRun held (buttonStep w t)) rel := by
    unfold buttonRun
    rw [List.foldl_append]
    rfl
  obtain ⟨f1, f2, f3, f4⟩ := loop_awaiting rel.reading rel.now
    (w := { buttonRun held (buttonStep w t) with cover := rel.cover, light := rel.light }) r2
  have f5 : (buttonStep (buttonRun held (buttonStep w t)) rel).button._state
      = ButtonState.BTN_IDLE := f4.trans (by rw [hrel, if_pos rfl])
  refine ⟨s1, s2, s3, s4, r1.trans s1, r2, ?_, ?_, ?_, ?_, ?_⟩
  · rw [hfin]
    exact (f3.trans r1).trans s1
  · rw [hfin]
    exact f1
  · rw [hfin]
    exact f2
  · rw [hfin]
    exact f5
  · intro v reading now hv
    obtain ⟨a, b, c, _⟩ := loop_awaiting reading now hv
    exact ⟨a, b, c⟩

/-- Witness for `button_halt`: the cover is on its way open when the button is
pressed at 2000; the button is held through the passes at 2200 and 2400 and
released at 2600. -/
theorem button_halt_witness :
    (buttonRun
      [⟨PinLevel.LOW, 2000, CoverController.openCover 0 (CoverController.begin (defaultStored 1) 0 {}), {}⟩,
       ⟨PinLevel.LOW, 2200, {}, {}⟩, ⟨PinLevel.LOW, 2400, {}, {}⟩,
       ⟨PinLevel.HIGH, 2600, {}, {}⟩] {}).issued = [ButtonCommand.haltCover] ∧
    (buttonRun
      [⟨PinLevel.LOW, 2000, CoverController.openCover 0 (CoverController.begin (defaultStored 1) 0 {}), {}⟩,
       ⟨PinLevel.LOW, 2200, {}, {}⟩, ⟨PinLevel.LOW, 2400, {}, {}⟩,
       ⟨PinLevel.HIGH, 2600, {}, {}⟩] {}).button._state = ButtonState.BTN_IDLE :=
  have w := button_halt {}
    ⟨PinLevel.LOW, 2000, CoverController.openCover 0 (CoverController.begin (defaultStored 1) 0 {}), {}⟩
    [⟨PinLevel.LOW, 2200, {}, {}⟩, ⟨PinLevel.LOW, 2400, {}, {}⟩] ⟨PinLevel.HIGH, 2600, {}, {}⟩
    (by decide) (by decide) (by decide) (by decide) (by decide) (by decide) (by decide)
  ⟨w.2.2.2.2.2.2.1, w.2.2.2.2.2.2.2.2.2.1⟩

end ButtonHandler

/-! ## Theorems: heater controller, two-stage acquisition -/

namespace HeaterController

theorem quiet_refl (s : HeaterController) : Quiet s s := ⟨rfl, rfl, rfl⟩

theorem quiet_trans {s t u : HeaterController} (h1 : Quiet s t) (h2 : Quiet t u) : Quiet s u :=
  ⟨h2.1.trans h1.1, h2.2.1.trans h1.2.1, h2.2.2.trans h1.2.2⟩

theorem quiet_setHeaterState (s : HeaterController) : Quiet s (setHeaterState s) := by
  obtain ⟨_, a, b⟩ := setHeaterState_sampling s
  refine ⟨?_, a, b⟩
  rcases setHeaterState_log s with e | e
  · rw [e]
  · rw [e]
    rfl

theorem readSensors_log_cases (r : Readings) (s : HeaterController) :
    (readSensors r s).1.log = HeaterEvent.getTempCByIndex :: s.log ∨
    (readSensors r s).1.log
      = HeaterEvent.analogWrite 0 :: HeaterEvent.getTempCByIndex :: s.log := by
  have key : ∀ X : HeaterController, X.log = HeaterEvent.getTempCByIndex :: s.log →
      (setHeaterState X).log = HeaterEvent.getTempCByIndex :: s.log ∨
      (setHeaterState X).log
        = HeaterEvent.analogWrite 0 :: HeaterEvent.getTempCByIndex :: s.log := by
    intro X hX
    rcases setHeaterState_log X with e | e
    · exact Or.inl (by rw [e, hX])
    · exact Or.inr (by rw [e, hX])
  cases he : r.errorReading
  · cases hl : s.lastErrorReading
    · rw [readSensors_steady he hl]
      exact Or.inl rfl
    · rw [readSensors_recover he hl]
      exact key _ rfl
  · rw [readSensors_invalid s he]
    apply key
    split_ifs <;> rfl

theorem readSensors_counts (r : Readings) (s : HeaterController) :
    requests (readSensors r s).1.log = requests s.log ∧
    reads (readSensors r s).1.log = reads s.log + 1 := by
  rcases readSensors_log_cases r s with e | e <;> rw [e] <;> simp [requests, reads]

theorem quiet_readSensors (r : Readings) (s : HeaterController) :
    Quiet s (readSensors r s).1 := by
  obtain ⟨_, a, b⟩ := readSensors_sampling r s
  exact ⟨(readSensors_counts r s).1, a, b⟩

theorem activateHeater_log (s : HeaterController) :
    ∃ v, (activateHeater s).log = HeaterEvent.analogWrite v :: s.log := by
  unfold activateHeater
  split
  · split_ifs
    · exact ⟨_, rfl⟩
    · exact ⟨_, rfl⟩
  · exact ⟨_, rfl⟩

theorem quiet_activateHeater (s : HeaterController) : Quiet s (activateHeater s) := by
  refine ⟨?_, ?_, ?_⟩
  · obtain ⟨v, e⟩ := activateHeater_log s
    rw [e]
    rfl
  · unfold activateHeater
    split
    · split_ifs <;> rfl
    · rfl
  · unfold activateHeater
    split
    · split_ifs <;> rfl
    · rfl

theorem reads_activateHeater (s : HeaterController) :
    reads (activateHeater s).log = reads s.log := by
  obtain ⟨v, e⟩ := activateHeater_log s
  rw [e]
  rfl

theorem reads_setHeaterState (s : HeaterController) :
    reads (setHeaterState s).log = reads s.log := by
  rcases setHeaterState_log s with e | e
  · rw [e]
  · rw [e]
    rfl

theorem manageHeatRest_quiet (now : Nat) (r : Readings) (s : HeaterController) :
    Quiet s (manageHeatRest now r s) ∧ reads s.log ≤ reads (manageHeatRest now r s).log := by
  unfold manageHeatRest
  dsimp only
  by_cases h1 : (!s._heaterError && s._manualHeat &&
      decide (s._heaterShutoff ≤ sub32 now s._startHeaterTimer)) = true
  · rw [if_pos h1]
    have q1 : Quiet s (setHeaterState { s with _manualHeat := false }) :=
      quiet_trans (t := { s with _manualHeat := false }) ⟨rfl, rfl, rfl⟩ (quiet_setHeaterState _)
    have r1 : reads (setHeaterState { s with _manualHeat := false }).log = reads s.log :=
      reads_setHeaterState _
    split_ifs
    · exact ⟨quiet_trans q1 (quiet_readSensors r _),
        by rw [(readSensors_counts r _).2, r1]; omega⟩
    · exact ⟨q1, by rw [r1]⟩
  · rw [if_neg h1]
    split_ifs
    · exact ⟨quiet_readSensors r _, by rw [(readSensors_counts r _).2]; omega⟩
    · exact ⟨quiet_refl s, le_refl _⟩

theorem manageHeat_sampling (dew : DewFormula) (now : Nat) (r : Readings)
    (s : HeaterController) : SamplingStep now s (manageHeat dew now r s) := by
  unfold manageHeat
  by_cases h1 : (!s._heaterError && (s._autoHeat || s._manualHeat)) = true
  · rw [if_pos h1]
    by_cases h2 : DEW_INTERVAL ≤ sub32 now s._previousDewMillis
    · rw [if_pos h2]
      dsimp only
      by_cases h3 : s._asyncConversionStarted = true
      · rw [if_neg (by simp [h3])]
        by_cases h4 : sub32 now s._conversionStartTime < 750
        · rw [if_pos h4]
          exact Or.inl ⟨rfl, rfl, rfl⟩
        · rw [if_neg h4]
          right; right
          have qr := quiet_readSensors r
            { s with _previousDewMillis := now, _asyncConversionStarted := false }
          have cr := readSensors_counts r
            { s with _previousDewMillis := now, _asyncConversionStarted := false }
          by_cases h5 : (readSensors r
              { s with _previousDewMillis := now, _asyncConversionStarted := false }).2 = true
          · rw [if_pos h5]
            refine ⟨qr.1, h3, qr.2.1, by omega, ?_⟩
            rw [cr.2]
            exact Nat.lt_succ_self _
          · rw [if_neg h5]
            generalize hX : (readSensors r
              { s with _previousDewMillis := now, _asyncConversionStarted := false }).1 = X
                at qr cr
            have key : ∀ dp : Option ℚ,
                requests (manageHeatRest now r (activateHeater { X with _dewPoint := dp })).log
                  = requests s.log ∧
                (manageHeatRest now r
                  (activateHeater { X with _dewPoint := dp }))._asyncConversionStarted = false ∧
                reads s.log
                  < reads (manageHeatRest now r (activateHeater { X with _dewPoint := dp })).log := by
              intro dp
              have qa := quiet_activateHeater { X with _dewPoint := dp }
              have ra := reads_activateHeater { X with _dewPoint := dp }
              obtain ⟨qm, rm⟩ := manageHeatRest_quiet now r
                (activateHeater { X with _dewPoint := dp })
              refine ⟨?_, ?_, ?_⟩
              · exact (qm.1.trans qa.1).trans qr.1
              · exact (qm.2.1.trans qa.2.1).trans qr.2.1
              · have : reads X.log = reads s.log + 1 := cr.2
                have ra2 : reads (activateHeater { X with _dewPoint := dp }).log = reads X.log := ra
                omega
            obtain ⟨k1, k2, k3⟩ := key _
            exact ⟨k1, h3, k2, by omega, k3⟩
      · rw [if_pos (by simp [h3])]
        right; left
        exact ⟨rfl, by simpa using h3, rfl, rfl⟩
    · rw [if_neg h2]
      exact Or.inl (manageHeatRest_quiet now r s).1
  · rw [if_neg h1]
    exact Or.inl (manageHeatRest_quiet now r s).1

theorem loop_sampling (dew : DewFormula) (coverMoving : Bool) (now : Nat) (r : Readings)
    (s : HeaterController) : SamplingStep now s (loop dew coverMoving now r s) := by
  unfold loop
  split_ifs
  · exact Or.inl (quiet_readSensors r s)
  · exact Or.inl (quiet_refl s)
  · exact manageHeat_sampling dew now r s

theorem quiet_call (dew : DewFormula) (c : HeaterCall)
    (hc : ∀ cm now r, c ≠ HeaterCall.loop cm now r) (s : HeaterController) :
    Quiet s (c.run dew s) := by
  cases c with
  | setAutoHeat turnOn =>
    show Quiet s (setAutoHeat turnOn s)
    unfold setAutoHeat
    dsimp only
    split_ifs
    · exact quiet_trans (t := { s with _autoHeat := true, _heatOnClose := false, _manualHeat := false })
        ⟨rfl, rfl, rfl⟩ (quiet_setHeaterState _)
    · exact quiet_trans (t := resetErrorReadings { s with _autoHeat := false })
        ⟨rfl, rfl, rfl⟩ (quiet_setHeaterState _)
    · exact quiet_setHeaterState _
  | setManualHeat turnOn now =>
    show Quiet s (setManualHeat turnOn now s)
    unfold setManualHeat
    split_ifs
    · exact quiet_trans (t := setHeaterState { s with _manualHeat := true })
        (quiet_trans (t := { s with _manualHeat := true }) ⟨rfl, rfl, rfl⟩
          (quiet_setHeaterState _)) ⟨rfl, rfl, rfl⟩
    · exact quiet_trans (t := resetErrorReadings { s with _manualHeat := false, _heatOnClose := false, _autoHeat := false })
        ⟨rfl, rfl, rfl⟩ (quiet_setHeaterState _)
    · exact quiet_trans (t := { s with _manualHeat := false }) ⟨rfl, rfl, rfl⟩
        (quiet_setHeaterState _)
    · exact quiet_trans (t := { s with _heatOnClose := false, _autoHeat := false })
        ⟨rfl, rfl, rfl⟩ (quiet_setHeaterState _)
  | setHeatOnClose turnOn r =>
    show Quiet s (setHeatOnClose turnOn r s)
    unfold setHeatOnClose
    dsimp only
    split_ifs
    · exact quiet_trans
        (quiet_trans (t := { s with _heatOnClose := true, _autoHeat := false, _manualHeat := false })
          ⟨rfl, rfl, rfl⟩ (quiet_readSensors r _)) (quiet_setHeaterState _)
    · exact quiet_trans (t := resetErrorReadings { s with _heatOnClose := false })
        ⟨rfl, rfl, rfl⟩ (quiet_setHeaterState _)
    · exact quiet_setHeaterState _
  | turnOff =>
    show Quiet s (turnOff s)
    unfold turnOff
    exact quiet_trans (t := resetErrorReadings { s with _autoHeat := false, _manualHeat := false, _heatOnClose := false })
      ⟨rfl, rfl, rfl⟩ (quiet_setHeaterState _)
  | triggerHeatOnClose now =>
    show Quiet s (triggerHeatOnClose now s)
    unfold triggerHeatOnClose
    split_ifs
    · exact quiet_trans (t := setHeaterState { s with _manualHeat := true })
        (quiet_trans (t := { s with _manualHeat := true }) ⟨rfl, rfl, rfl⟩
          (quiet_setHeaterState _)) ⟨rfl, rfl, rfl⟩
    · exact quiet_refl s
  | loop coverMoving now r => exact absurd rfl (hc coverMoving now r)
  | setDeltaPoint val => exact ⟨rfl, rfl, rfl⟩
  | setShutoffTime ms => exact ⟨rfl, rfl, rfl⟩

/-- The pass that reads in the sampling block: the conditions under which
`loop` gets there, and what it does. -/
theorem loop_sampling_read (dew : DewFormula) (now : Nat) (r : Readings) {s : HeaterController}
    (h0 : s._heaterState ≠ HeaterState.HEATER_ERROR) (h1 : s._heaterError = false)
    (h2 : s._autoHeat = true ∨ s._manualHeat = true)
    (h3 : DEW_INTERVAL ≤ sub32 now s._previousDewMillis)
    (h4 : s._asyncConversionStarted = true) (h5 : 750 ≤ sub32 now s._conversionStartTime) :
    (loop dew false now r s)._asyncConversionStarted = false ∧
    reads s.log < reads (loop dew false now r s).log ∧
    requests (loop dew false now r s).log = requests s.log := by
  have hs := loop_sampling dew false now r s
  have hloop : loop dew false now r s = manageHeat dew now r s := by
    unfold loop
    simp [h0]
  have hflag : (manageHeat dew now r s)._asyncConversionStarted = false := by
    unfold manageHeat
    rw [if_pos (by rcases h2 with h2 | h2 <;> simp [h1, h2]), if_pos h3]
    dsimp only
    rw [if_neg (by simp [h4]), if_neg (by omega)]
    have qr := quiet_readSensors r
      { s with _previousDewMillis := now, _asyncConversionStarted := false }
    split_ifs
    · exact qr.2.1
    · generalize (readSensors r
        { s with _previousDewMillis := now, _asyncConversionStarted := false }).1 = X at qr
      have key : ∀ dp : Option ℚ, (manageHeatRest now r
          (activateHeater { X with _dewPoint := dp }))._asyncConversionStarted = false := by
        intro dp
        exact ((manageHeatRest_quiet now r _).1.2.1.trans
          (quiet_activateHeater { X with _dewPoint := dp }).2.1).trans qr.2.1
      exact key _
  rw [hloop] at hs ⊢
  rcases hs with q | ⟨_, _, b, _⟩ | ⟨a, _, _, _, e⟩
  · rw [q.2.1, h4] at hflag
    exact absurd hflag (by decide)
  · rw [b] at hflag
    exact absurd hflag (by decide)
  · exact ⟨hflag, e, a⟩

theorem samplingInv_track (dew : DewFormula) (c : HeaterCall) {h : HeaterHistory}
    (hi : SamplingInv h) : SamplingInv (c.track dew h) := by
  obtain ⟨i1, i2⟩ := hi
  have quiet : ∀ t : HeaterController, Quiet h.heater t →
      SamplingInv { h with heater := t } := by
    intro t q
    refine ⟨?_, i2⟩
    intro ht
    show h.requestAt = some t._conversionStartTime
    rw [q.2.2]
    exact i1 (q.2.1.symm.trans ht)
  cases c with
  | loop coverMoving now r =>
    have hs := loop_sampling dew coverMoving now r h.heater
    show SamplingInv (if h.heater._asyncConversionStarted = false ∧
        (loop dew coverMoving now r h.heater)._asyncConversionStarted = true then _
      else if h.heater._asyncConversionStarted = true ∧
        (loop dew coverMoving now r h.heater)._asyncConversionStarted = false then _ else _)
    rcases hs with q | ⟨_, a, b, c⟩ | ⟨_, a, b, c, _⟩
    · have n1 : ¬ (h.heater._asyncConversionStarted = false ∧
          (loop dew coverMoving now r h.heater)._asyncConversionStarted = true) := by
        rintro ⟨x, y⟩
        rw [q.2.1, x] at y
        exact absurd y (by decide)
      have n2 : ¬ (h.heater._asyncConversionStarted = true ∧
          (loop dew coverMoving now r h.heater)._asyncConversionStarted = false) := by
        rintro ⟨x, y⟩
        rw [q.2.1, x] at y
        exact absurd y (by decide)
      rw [if_neg n1, if_neg n2]
      exact quiet _ q
    · rw [if_pos ⟨a, b⟩]
      refine ⟨fun _ => ?_, i2⟩
      show some now = some (loop dew coverMoving now r h.heater)._conversionStartTime
      rw [c]
    · have n1 : ¬ (h.heater._asyncConversionStarted = false ∧
          (loop dew coverMoving now r h.heater)._asyncConversionStarted = true) := by
        rintro ⟨x, _⟩
        rw [a] at x
        exact absurd x (by decide)
      rw [if_neg n1, if_pos ⟨a, b⟩]
      refine ⟨fun ht => ?_, ?_⟩
      · have ht2 : (loop dew coverMoving now r h.heater)._asyncConversionStarted = true := ht
        rw [b] at ht2
        exact absurd ht2 (by decide)
      · intro q hq
        rcases List.mem_cons.1 hq with e | e
        · rw [e]
          exact ⟨h.heater._conversionStartTime, i1 a, c⟩
        · exact i2 q e
  | setAutoHeat turnOn =>
    exact quiet _ (quiet_call dew (HeaterCall.setAutoHeat turnOn) (fun _ _ _ => by simp) _)
  | setManualHeat turnOn now =>
    exact quiet _ (quiet_call dew (HeaterCall.setManualHeat turnOn now) (fun _ _ _ => by simp) _)
  | setHeatOnClose turnOn r =>
    exact quiet _ (quiet_call dew (HeaterCall.setHeatOnClose turnOn r) (fun _ _ _ => by simp) _)
  | turnOff => exact quiet _ (quiet_call dew HeaterCall.turnOff (fun _ _ _ => by simp) _)
  | triggerHeatOnClose now =>
    exact quiet _ (quiet_call dew (HeaterCall.triggerHeatOnClose now) (fun _ _ _ => by simp) _)
  | setDeltaPoint val =>
    exact quiet _ (quiet_call dew (HeaterCall.setDeltaPoint val) (fun _ _ _ => by simp) _)
  | setShutoffTime ms =>
    exact quiet _ (quiet_call dew (HeaterCall.setShutoffTime ms) (fun _ _ _ => by simp) _)

theorem samplingInv_foldl (dew : DewFormula) (calls : List HeaterCall) {h : HeaterHistory}
    (hi : SamplingInv h) : SamplingInv (calls.foldl (fun h c => c.track dew h) h) := by
  induction calls generalizing h with
  | nil => exact hi
  | cons c cs ih => exact ih (samplingInv_track dew c hi)

/-- C24 (as amended): two-stage acquisition in the sampling block.  In every
run of calls after `begin()`, each read made by the sampling block of
`manageHeat` found an outstanding conversion request, issued by an earlier
pass at a time `t` with `now - t ≥ 750` in `uint32_t` arithmetic, and consumed
it, so that no other sampling read lies between the request and the read.
Every pass that reads in the sampling block is recorded that way: when `loop`
reaches the block with the conversion flag set and 750 ms gone, it clears the
flag, reads the sensors and issues no request.  No call both requests a
conversion and does anything else: a call either leaves the number of
requests in the log unchanged or adds the request and nothing more. -/
theorem two_stage_acquisition (dew : DewFormula) (bmeStatus : Bool) (delta : ℚ) (shutoff : Nat)
    (calls : List HeaterCall) (c : HeaterCall) (s : HeaterController) (now : Nat)
    (r : Readings) (q : Option Nat) (l : List (Option Nat × Nat)) :
    (∀ p ∈ (heaterHistory dew bmeStatus delta shutoff calls).samples,
      ∃ t, p.1 = some t ∧ 750 ≤ sub32 p.2 t) ∧
    (s._heaterState ≠ HeaterState.HEATER_ERROR → s._heaterError = false →
      (s._autoHeat = true ∨ s._manualHeat = true) →
      DEW_INTERVAL ≤ sub32 now s._previousDewMillis →
      s._asyncConversionStarted = true → 750 ≤ sub32 now s._conversionStartTime →
      reads s.log < reads (loop dew false now r s).log ∧
      requests (loop dew false now r s).log = requests s.log ∧
      ((HeaterCall.loop false now r).track dew ⟨s, q, l⟩).samples = (q, now) :: l ∧
      ((HeaterCall.loop false now r).track dew ⟨s, q, l⟩).requestAt = none) ∧
    (requests (c.run dew s).log = requests s.log ∨
      (c.run dew s).log = HeaterEvent.requestTemperatures :: s.log) := by
  refine ⟨?_, ?_, ?_⟩
  · have h0 : SamplingInv
        { heater := begin bmeStatus delta shutoff {}, requestAt := none, samples := [] } := by
      refine ⟨fun hb => ?_, fun p hp => absurd hp (List.not_mem_nil p)⟩
      have hq := quiet_trans
        (t := { ({ ({} : HeaterController) with log := HeaterEvent.analogWrite 0 :: ({} : HeaterController).log }) with _heaterError := !bmeStatus, _deltaPoint := delta, _heaterShutoff := shutoff })
        (s := ({} : HeaterController)) ⟨rfl, rfl, rfl⟩ (quiet_setHeaterState _)
      have hb2 : (begin bmeStatus delta shutoff {})._asyncConversionStarted = false := by
        unfold begin
        cases bmeStatus
        · exact (quiet_setHeaterState _).2.1
        · exact (quiet_setHeaterState _).2.1
      rw [hb2] at hb
      exact absurd hb (by decide)
    exact (samplingInv_foldl dew calls h0).2
  · intro h0 h1 h2 h3 h4 h5
    obtain ⟨a, b, c2⟩ := loop_sampling_read dew now r h0 h1 h2 h3 h4 h5
    have n1 : ¬ (s._asyncConversionStarted = false ∧
        (loop dew false now r s)._asyncConversionStarted = true) := by
      rintro ⟨x, _⟩
      rw [h4] at x
      exact absurd x (by decide)
    refine ⟨b, c2, ?_, ?_⟩
    · show (if s._asyncConversionStarted = false ∧
          (loop dew false now r s)._asyncConversionStarted = true then _
        else if s._asyncConversionStarted = true ∧
          (loop dew false now r s)._asyncConversionStarted = false then _
        else _ : HeaterHistory).samples = _
      rw [if_neg n1, if_pos ⟨h4, a⟩]
    · show (if s._asyncConversionStarted = false ∧
          (loop dew false now r s)._asyncConversionStarted = true then _
        else if s._asyncConversionStarted = true ∧
          (loop dew false now r s)._asyncConversionStarted = false then _
        else _ : HeaterHistory).requestAt = _
      rw [if_neg n1, if_pos ⟨h4, a⟩]
  · cases c with
    | loop coverMoving t r2 =>
      rcases loop_sampling dew coverMoving t r2 s with q1 | ⟨a, _⟩ | ⟨a, _⟩
      · exact Or.inl q1.1
      · exact Or.inr a
      · exact Or.inl a
    | setAutoHeat turnOn =>
      exact Or.inl (quiet_call dew (HeaterCall.setAutoHeat turnOn) (fun _ _ _ => by simp) _).1
    | setManualHeat turnOn t =>
      exact Or.inl (quiet_call dew (HeaterCall.setManualHeat turnOn t) (fun _ _ _ => by simp) _).1
    | setHeatOnClose turnOn r2 =>
      exact Or.inl (quiet_call dew (HeaterCall.setHeatOnClose turnOn r2) (fun _ _ _ => by simp) _).1
    | turnOff => exact Or.inl (quiet_call dew HeaterCall.turnOff (fun _ _ _ => by simp) _).1
    | triggerHeatOnClose t =>
      exact Or.inl (quiet_call dew (HeaterCall.triggerHeatOnClose t) (fun _ _ _ => by simp) _).1
    | setDeltaPoint val =>
      exact Or.inl (quiet_call dew (HeaterCall.setDeltaPoint val) (fun _ _ _ => by simp) _).1
    | setShutoffTime ms =>
      exact Or.inl (quiet_call dew (HeaterCall.setShutoffTime ms) (fun _ _ _ => by simp) _).1

/-- Witness for `two_stage_acquisition`: manual heating is on at 0, the pass at
1000 requested a conversion and the pass at 2000 reads: the read finds the
request of 1000 and is recorded with it. -/
theorem two_stage_acquisition_witness :
    ((HeaterCall.loop false 2000 ⟨20, some 10, some 50⟩).track (fun _ _ => none)
      ⟨loop (fun _ _ => none) false 1000 ⟨20, some 10, some 50⟩
        (setManualHeat true 0 (begin true 5 3600000 {})), some 1000, []⟩).samples
      = [(some 1000, 2000)] :=
  (((two_stage_acquisition (fun _ _ => none) true 5 3600000 [] HeaterCall.turnOff
    (loop (fun _ _ => none) false 1000 ⟨20, some 10, some 50⟩
      (setManualHeat true 0 (begin true 5 3600000 {})))
    2000 ⟨20, some 10, some 50⟩ (some 1000) []).2.1
    (by decide) (by decide) (by decide) (by decide) (by decide) (by decide)).2.2.1)

/-- C24 fails as stated: `setHeatOnClose(true)` right after `begin()` reads
the sensors although no conversion was ever requested, and the fault retry of
a pass reads again, still without a request. -/
theorem two_stage_acquisition_counterexample :
    reads (setHeatOnClose true ⟨-127, none, none⟩ (begin true 5 3600000 {})).log = 1 ∧
    requests (setHeatOnClose true ⟨-127, none, none⟩ (begin true 5 3600000 {})).log = 0 ∧
    reads (loop (fun _ _ => none) false 10 ⟨-127, none, none⟩
      (setHeatOnClose true ⟨-127, none, none⟩ (begin true 5 3600000 {}))).log = 2 ∧
    requests (loop (fun _ _ => none) false 10 ⟨-127, none, none⟩
      (setHeatOnClose true ⟨-127, none, none⟩ (begin true 5 3600000 {}))).log = 0 := by
  decide

end HeaterController

/-! ## Theorems: dew-point formula -/

namespace HeaterController

/-- What a reading that passes the validation of `readSensors` satisfies. -/
theorem errorReading_false {r : Readings} {T H : ℚ} (hr : r.errorReading = false)
    (hT : r.outsideTemp = some T) (hH : r.humidity = some H) :
    -40 ≤ T ∧ T ≤ 85 ∧ 0 ≤ H ∧ H ≤ 100 := by
  unfold Readings.errorReading at hr
  rw [hT, hH] at hr
  simp only [Bool.or_eq_false_iff, decide_eq_false_iff_not, not_lt] at hr
  obtain ⟨_, ⟨⟨h1, h2⟩, h3⟩, h4⟩ := hr
  exact ⟨h3, h4, h1, h2⟩

/-- C25 (as amended): the dew-point computation is well defined on validated
input with positive humidity.  For every reading that passes the validation
of `readSensors`, with ambient temperature `T` and humidity `H`, the
denominator `237.7 + T` is not zero; and when moreover `0 < H`, the argument
`H / 100` of the logarithm is positive and the denominator `17.27 - temp` is
not zero. -/
theorem dew_point_well_defined (r : Readings) (T H : ℚ) (hr : r.errorReading = false)
    (hT : r.outsideTemp = some T) (hH : r.humidity = some H) :
    (DEW_POINT_BETA : ℝ) + (T : ℝ) ≠ 0 ∧
    (0 < H → 0 < (H : ℝ) / 100 ∧ (DEW_POINT_ALPHA : ℝ) - dewTemp T H ≠ 0) := by
  obtain ⟨h1, h2, h3, h4⟩ := errorReading_false hr hT hH
  have t1 : (-40 : ℝ) ≤ (T : ℝ) := by exact_mod_cast h1
  have t2 : (T : ℝ) ≤ 85 := by exact_mod_cast h2
  have t4 : (H : ℝ) ≤ 100 := by exact_mod_cast h4
  have ea : (DEW_POINT_ALPHA : ℝ) = 1727 / 100 := by
    unfold DEW_POINT_ALPHA
    push_cast
    rfl
  have eb : (DEW_POINT_BETA : ℝ) = 2377 / 10 := by
    unfold DEW_POINT_BETA
    push_cast
    rfl
  have hden : (0 : ℝ) < (DEW_POINT_BETA : ℝ) + (T : ℝ) := by rw [eb]; linarith
  refine ⟨hden.ne', fun hpos => ?_⟩
  have t3 : (0 : ℝ) < (H : ℝ) := by exact_mod_cast hpos
  have harg : 0 < (H : ℝ) / 100 := by positivity
  refine ⟨harg, ?_⟩
  have hlog : Real.log ((H : ℝ) / 100) ≤ 0 :=
    Real.log_nonpos harg.le (by rw [div_le_one (by norm_num)]; exact t4)
  have hfrac : ((DEW_POINT_ALPHA : ℝ) * (T : ℝ)) / ((DEW_POINT_BETA : ℝ) + (T : ℝ))
      < (DEW_POINT_ALPHA : ℝ) := by
    rw [div_lt_iff₀ hden, ea, eb]
    nlinarith
  have : dewTemp T H < (DEW_POINT_ALPHA : ℝ) := by
    unfold dewTemp
    linarith
  exact (sub_pos.mpr this).ne'

/-- Witness for `dew_point_well_defined`: 20 degrees at 50 % humidity. -/
theorem dew_point_well_defined_witness :
    (DEW_POINT_BETA : ℝ) + ((20 : ℚ) : ℝ) ≠ 0 ∧
    (0 < ((50 : ℚ) : ℝ) / 100 ∧ (DEW_POINT_ALPHA : ℝ) - dewTemp ((20 : ℚ) : ℝ) ((50 : ℚ) : ℝ) ≠ 0) :=
  have w := dew_point_well_defined ⟨10, some 20, some 50⟩ 20 50
    (by norm_num [Readings.errorReading, DEVICE_DISCONNECTED_C]) rfl rfl
  ⟨w.1, w.2 (by norm_num)⟩

/-- C25 fails as stated: a humidity reading of 0 passes the validation of
`readSensors` (only `H < 0` is rejected), and the argument `H / 100` of the
logarithm is then 0, not positive. -/
theorem dew_point_counterexample :
    (⟨10, some 20, some 0⟩ : Readings).errorReading = false ∧
    ¬ (0 < (((0 : ℚ) : ℝ)) / 100) := by
  constructor
  · norm_num [Readings.errorReading, DEVICE_DISCONNECTED_C]
  · norm_num

end HeaterController

/-! ## Theorems: light controller, level-to-PWM mapping -/

namespace LightController

/-- With a positive maximum brightness the level-to-PWM mapping has a
nonzero divisor and its result is at most `LIGHT_PWM_MAX`. -/
theorem turnPanelTo_pwm_bound (value now : Nat) (s : LightController)
    (h1 : 1 ≤ s._maxBrightness) (h2 : s._maxBrightness ≤ 65535) :
    (s._maxBrightness : Int) - 0 ≠ 0 ∧
    (turnPanelTo value now s)._lightValue ≤ LIGHT_PWM_MAX := by
  refine ⟨by omega, ?_⟩
  have hv : ∃ v : Nat, toUInt16 (constrain value 0 s._maxBrightness) = v ∧ v ≤ s._maxBrightness := by
    refine ⟨_, rfl, ?_⟩
    unfold toUInt16 constrain
    split_ifs <;> omega
  obtain ⟨v, hv1, hv2⟩ := hv
  have hl : (turnPanelTo value now s)._lightValue
      = toUInt16 (map (toUInt16 (constrain value 0 s._maxBrightness)) 0 s._maxBrightness 0
          LIGHT_PWM_MAX) := rfl
  rw [hl, hv1]
  unfold map LIGHT_PWM_MAX toUInt16
  have hM : (0 : Int) < (s._maxBrightness : Int) := by omega
  have e : ((v : Int) - 0) * (((1023 : Nat) : Int) - 0) = (v : Int) * 1023 := by push_cast; ring
  have e2 : (s._maxBrightness : Int) - 0 = (s._maxBrightness : Int) := by ring
  rw [e, e2, Int.tdiv_eq_ediv (by positivity) hM.le]
  have q0 : 0 ≤ (v : Int) * 1023 / (s._maxBrightness : Int) := Int.ediv_nonneg (by positivity) hM.le
  have q1 : (v : Int) * 1023 / (s._maxBrightness : Int) ≤ 1023 := by
    apply Int.ediv_le_of_le_mul hM
    have : (v : Int) ≤ s._maxBrightness := by exact_mod_cast hv2
    nlinarith
  omega

end LightController

end DarkLight
